import Mathlib

/-!
# SimpleGameplayAbilitySystem: attribute store and modifier runtime

A shallow embedding of the float-attribute, struct-attribute and
attribute-modifier functions of `USimpleGameplayAbilityComponent`
(`SimpleGameplayAbilityComponentAttributeFunctions.cpp`).

Conventions of the embedding:

* `float` and `double` values are exact rationals (`ℚ`); the computation of
  the `CurrentValueRatio` set, whose result is not clamped, is embedded a
  second time with the rounding of every operation as an argument
  (`CurrentValueRatioStored`), `RoundToFloat` being the rounding of `float`;
* a `float& Overflow` in/out argument is an input and a returned component;
* `bool& WasFound` is a returned component;
* the component is a record that the member functions take and return; the
  events handed to the event subsystem are appended to `SentEvents`;
* a `FFloatAttribute*` obtained from `GetFloatAttribute` designates the first
  element of the collection of the caller's role whose tag matches; writes
  through it replace that element (`WriteFloatAttribute`);
* tags are valid (non-empty) gameplay tags, on which `MatchesTagExact` and
  `==` agree: both are equality of tags;
* `MarkItemDirty` / `MarkArrayDirty` only flag data for replication and have
  no counterpart here;
* a `USimpleAttributeModifier*` or `USimpleGameplayAbility*` designates the
  first instance of the component's list that the lookup matches; calls on it
  replace that element (`UpdateFirstModifier`, `UpdateFirstAbility`);
* `FGuid::NewGuid()` and the modifier's apply logic are arguments of
  `ApplyAttributeModifierToTarget`;
* a `FStructAttribute*` obtained from `GetStructAttribute` designates the first
  element of the collection of the caller's role whose tag matches
  (`WriteStructAttribute`); the handler's `GetModificationEvents`, the identity
  of a newly created handler object and `FStructAttribute::operator==` are
  arguments of the functions that use them.
-/

namespace SimpleGAS

/-! ## Data model -/

/-- The tags of `FDefaultTags` that the attribute functions use. -/
inductive FDefaultTags where
  | FloatAttributeAdded
  | FloatAttributeRemoved
  | FloatAttributeBaseValueChanged
  | FloatAttributeCurrentValueChanged
  | FloatAttributeMaxCurrentValueChanged
  | FloatAttributeMinCurrentValueChanged
  | FloatAttributeMaxBaseValueChanged
  | FloatAttributeMinBaseValueChanged
  | FloatAttributeBaseRegenRateChanged
  | FloatAttributeCurrentRegenRateChanged
  | StructAttributeAdded
  | StructAttributeRemoved
  | StructAttributeValueChanged
  | AbilityCancelled
  | AuthorityAttributeDomain
  | LocalAttributeDomain
  deriving DecidableEq, Repr

/-- A gameplay tag: either one of the plugin's default tags or a tag named by
the project (attribute identifiers such as "Attributes.Health"). -/
inductive FGameplayTag where
  | Named (name : String)
  | Default (t : FDefaultTags)
  deriving DecidableEq, Repr

/-- The kinds of value of a float attribute. The nine named kinds are the cases
of the switch statements; `Unsupported` stands for every other value of the
enumeration's underlying integer type (the `default:` branches). -/
inductive EAttributeValueType where
  | BaseValue
  | CurrentValue
  | MaxCurrentValue
  | MinCurrentValue
  | MaxBaseValue
  | MinBaseValue
  | CurrentValueRatio
  | BaseRegeneration
  | CurrentRegeneration
  | Unsupported (raw : Nat)
  deriving DecidableEq, Repr

/-- The four optional bounds of a float attribute, each with its enable flag. -/
structure FValueLimits where
  UseMaxCurrentValue : Bool
  MaxCurrentValue : ℚ
  UseMinCurrentValue : Bool
  MinCurrentValue : ℚ
  UseMaxBaseValue : Bool
  MaxBaseValue : ℚ
  UseMinBaseValue : Bool
  MinBaseValue : ℚ
  deriving DecidableEq, Repr

/-- A float attribute. -/
structure FFloatAttribute where
  AttributeName : String
  AttributeTag : FGameplayTag
  BaseValue : ℚ
  CurrentValue : ℚ
  ValueLimits : FValueLimits
  BaseRegenRate : ℚ
  CurrentRegenRate : ℚ
  bIsRegenerating : Bool
  LastRegenParamsUpdateTime_Server : ℚ
  deriving DecidableEq, Repr

/-- Payload of a float value-changed event (`AttributeOwner` is always the
sending component and is left out). -/
structure FFloatAttributeModification where
  AttributeTag : FGameplayTag
  ValueType : EAttributeValueType
  NewValue : ℚ
  deriving DecidableEq, Repr

/-- An `FGuid`. -/
abbrev FGuid := Nat

/-- The part of `FAbilitySideEffect` that the component reads: the id of the
ability instance that a modifier activated. -/
structure FAbilitySideEffect where
  AbilityInstanceID : FGuid
  deriving DecidableEq, Repr

/-- The part of `FAttributeModifierSideEffect` that the component reads: the id
of the modifier instance that a modifier applied. -/
structure FAttributeModifierSideEffect where
  AttributeID : FGuid
  deriving DecidableEq, Repr

/-- The part of `FAttributeModifierResult` that the component reads: the side
effects of one execution of a modifier. -/
structure FAttributeModifierResult where
  AppliedAbilitySideEffects : List FAbilitySideEffect
  AppliedAttributeModifierSideEffects : List FAttributeModifierSideEffect
  deriving DecidableEq, Repr

/-- A `UScriptStruct`: a struct type, with the memory of a default-constructed
value of the type. -/
structure UScriptStruct where
  StructName : String
  DefaultMemory : List Int
  deriving DecidableEq, Repr

/-- An `FInstancedStruct`: the empty `FInstancedStruct()`, a float modification,
the result of one execution of a modifier, a value of a struct type with its
memory, or an `FStructAttributeModification` (attribute tag, old value, new
value, modification tags; its `AttributeOwner` is always the component and is
left out). -/
inductive FInstancedStruct where
  | Empty
  | FloatModification (p : FFloatAttributeModification)
  | ModifierResult (r : FAttributeModifierResult)
  | Struct (ScriptStruct : UScriptStruct) (Memory : List Int)
  | StructModification (AttributeTag : FGameplayTag) (OldValue NewValue : FInstancedStruct)
      (ModificationTags : List FGameplayTag)
  deriving DecidableEq, Repr

/-- One event handed to the event subsystem: event tag, domain tag, payload
(the sender is always the component's owner and is left out). -/
structure FSimpleEvent where
  EventTag : FGameplayTag
  DomainTag : FGameplayTag
  Payload : FInstancedStruct
  deriving DecidableEq, Repr

/-! ## Modifier runtime data

The classes `USimpleAttributeModifier` and `USimpleGameplayAbility` and the
state structures are declared in headers outside the source files at hand; the
records below hold the members that the component's functions read and write. -/

/-- The `EAttributeModifierType` of a modifier. -/
inductive EAttributeModifierType where
  | Instant
  | Duration
  deriving DecidableEq, Repr

/-- A modifier class, with the values that its class default object gives to
the members read by the component. -/
structure UClass where
  ClassName : String
  ModifierType : EAttributeModifierType
  CanStack : Bool
  Stacks : Int
  ModifierTags : List FGameplayTag
  deriving DecidableEq, Repr

/-- A modifier instance. `GetClass` and `IsModifierActive` are the results of
the calls of the same name; `EndModifierCalls` lists the end status tags that
the instance received through `EndModifier`, oldest first. -/
structure USimpleAttributeModifier where
  GetClass : UClass
  ModifierType : EAttributeModifierType
  CanStack : Bool
  Stacks : Int
  IsModifierActive : Bool
  AbilityInstanceID : FGuid
  ModifierTags : List FGameplayTag
  EndModifierCalls : List FGameplayTag
  deriving DecidableEq, Repr

/-- An ability instance. `CancelAbilityCalls` lists the cancel status tags that
the instance received through `CancelAbility`, oldest first. -/
structure USimpleGameplayAbility where
  AbilityInstanceID : FGuid
  CancelAbilityCalls : List FGameplayTag
  deriving DecidableEq, Repr

/-- The part of `FSimpleAbilitySnapshot` that the component reads. -/
structure FSimpleAbilitySnapshot where
  StateData : FInstancedStruct
  deriving DecidableEq, Repr

/-- The ability status: `ActivationSuccess` is the one value that the attribute
functions assign; `Other` stands for the remaining values of the enumeration. -/
inductive EAbilityStatus where
  | ActivationSuccess
  | Other (raw : Nat)
  deriving DecidableEq, Repr

/-- An `FAbilityState`: the record kept for one activation of an ability or
modifier. -/
structure FAbilityState where
  AbilityID : FGuid
  AbilityClass : Option UClass
  ActivationTimeStamp : ℚ
  ActivationContext : FInstancedStruct
  AbilityStatus : EAbilityStatus
  SnapshotHistory : List FSimpleAbilitySnapshot
  deriving DecidableEq, Repr

/-! ## Struct attribute data

`FStructAttribute` and `USimpleAttributeHandler` are declared in headers outside
the source files at hand; the records below hold the members that the
component's functions read and write. -/

/-- A handler class (`UClass` of a `USimpleAttributeHandler` subclass). -/
structure UAttributeHandlerClass where
  ClassName : String
  deriving DecidableEq, Repr

/-- A handler instance. `GetClass` and `GetUniqueID` are the results of the
calls of the same name; its `AttributeOwner` is always the component that
created it and is left out. -/
structure USimpleAttributeHandler where
  GetClass : UAttributeHandlerClass
  GetUniqueID : Nat
  deriving DecidableEq, Repr

/-- An `FStructAttribute`: tag, struct type (`none` for a null `StructType`),
value and handler class (`none` for a null `StructAttributeHandler`). The
delegate `OnValueChanged` is bound outside the component and has no counterpart
here. -/
structure FStructAttribute where
  AttributeName : String
  AttributeTag : FGameplayTag
  StructType : Option UScriptStruct
  AttributeValue : FInstancedStruct
  StructAttributeHandler : Option UAttributeHandlerClass
  deriving DecidableEq, Repr

/-- The part of the component the attribute and modifier functions read
and write. `HasAuthority` and `GetServerTime` are the results of the calls of
the same name; `HasEventSubsystem` says whether
`GetWorld()->GetGameInstance()->GetSubsystem<USimpleEventSubsystem>()` is
non-null; `SentEvents` lists the events sent so far, oldest first;
`AuthorityAttributeStates` holds the `AbilityStates` and
`AuthorityStructAttributes` the `Attributes` of the replicated arrays of those
names. -/
structure USimpleGameplayAbilityComponent where
  HasAuthority : Bool
  GetServerTime : ℚ
  HasEventSubsystem : Bool
  AuthorityFloatAttributes : List FFloatAttribute
  LocalFloatAttributes : List FFloatAttribute
  SentEvents : List FSimpleEvent
  InstancedAttributes : List USimpleAttributeModifier := []
  InstancedAbilities : List USimpleGameplayAbility := []
  AuthorityAttributeStates : List FAbilityState := []
  LocalAttributeStates : List FAbilityState := []
  LocalAbilityStates : List FAbilityState := []
  AuthorityStructAttributes : List FStructAttribute := []
  LocalStructAttributes : List FStructAttribute := []
  InstancedAttributeHandlers : List USimpleAttributeHandler := []
  deriving DecidableEq, Repr

/-! ## Engine helpers -/

/-- The engine's `FMath::Clamp(X, Min, Max)`. -/
def FMath_Clamp (X Min Max : ℚ) : ℚ :=
  if X < Min then Min else if X < Max then X else Max

/-- The engine's `FMath::Max(A, B)`. -/
def FMath_Max (A B : ℚ) : ℚ :=
  if B < A then A else B

/-! ## Events -/

/-- Modelled from the spec: `USimpleGameplayAbilityComponent::SendEvent` is
defined outside the source files at hand; following the event bus interface
`publish(eventTag, domainTag, payload, sender, instigators)` it publishes one
event with the given event tag, domain tag and payload. -/
def SendEvent (c : USimpleGameplayAbilityComponent) (EventTag DomainTag : FGameplayTag)
    (Payload : FInstancedStruct) : USimpleGameplayAbilityComponent :=
  { c with SentEvents := c.SentEvents ++ [⟨EventTag, DomainTag, Payload⟩] }

/-- The function `SendFloatAttributeChangedEvent`: with an event subsystem, sends the event
with the role's domain tag and the payload (tag, kind, value); without one it
only logs. -/
def SendFloatAttributeChangedEvent (c : USimpleGameplayAbilityComponent)
    (EventTag : FDefaultTags) (AttributeTag : FGameplayTag)
    (ValueType : EAttributeValueType) (NewValue : ℚ) : USimpleGameplayAbilityComponent :=
  if c.HasEventSubsystem then
    let Payload : FFloatAttributeModification := ⟨AttributeTag, ValueType, NewValue⟩
    let DomainTag : FDefaultTags :=
      if c.HasAuthority then FDefaultTags.AuthorityAttributeDomain
      else FDefaultTags.LocalAttributeDomain
    { c with SentEvents := c.SentEvents ++
        [⟨FGameplayTag.Default EventTag, FGameplayTag.Default DomainTag,
          FInstancedStruct.FloatModification Payload⟩] }
  else
    c

/-! ## Clamping -/

/-- The function `ClampFloatAttributeValue`: returns the clamped value and the value of
`Overflow` after the call (written only when a bound is violated). -/
def ClampFloatAttributeValue (Attribute : FFloatAttribute) (ValueType : EAttributeValueType)
    (NewValue Overflow : ℚ) : ℚ × ℚ :=
  match ValueType with
  | .BaseValue =>
    if Attribute.ValueLimits.UseMaxBaseValue ∧ NewValue > Attribute.ValueLimits.MaxBaseValue then
      (Attribute.ValueLimits.MaxBaseValue, NewValue - Attribute.ValueLimits.MaxBaseValue)
    else if Attribute.ValueLimits.UseMinBaseValue ∧ NewValue < Attribute.ValueLimits.MinBaseValue then
      (Attribute.ValueLimits.MinBaseValue, Attribute.ValueLimits.MinBaseValue + NewValue)
    else
      (NewValue, Overflow)
  | .CurrentValue =>
    if Attribute.ValueLimits.UseMaxCurrentValue ∧ NewValue > Attribute.ValueLimits.MaxCurrentValue then
      (Attribute.ValueLimits.MaxCurrentValue, NewValue - Attribute.ValueLimits.MaxCurrentValue)
    else if Attribute.ValueLimits.UseMinCurrentValue ∧ NewValue < Attribute.ValueLimits.MinCurrentValue then
      (Attribute.ValueLimits.MinCurrentValue, NewValue - Attribute.ValueLimits.MinCurrentValue)
    else
      (NewValue, Overflow)
  | _ => (NewValue, Overflow)

/-! ## Lookup and write-back -/

/-- The collection `GetFloatAttribute` searches: the authoritative one with
authority, the local mirror otherwise. -/
def RoleFloatAttributes (c : USimpleGameplayAbilityComponent) : List FFloatAttribute :=
  if c.HasAuthority then c.AuthorityFloatAttributes else c.LocalFloatAttributes

/-- The function `GetFloatAttribute`: the first attribute of the role's collection whose tag
matches, `none` for `nullptr`. -/
def GetFloatAttribute (c : USimpleGameplayAbilityComponent) (AttributeTag : FGameplayTag) :
    Option FFloatAttribute :=
  (RoleFloatAttributes c).find? (fun a => decide (a.AttributeTag = AttributeTag))

/-- Replaces the first element whose tag matches: the effect of assigning
through a reference to that element. -/
def ReplaceFirst (AttributeTag : FGameplayTag) (New : FFloatAttribute) :
    List FFloatAttribute → List FFloatAttribute
  | [] => []
  | a :: rest =>
    if a.AttributeTag = AttributeTag then New :: rest
    else a :: ReplaceFirst AttributeTag New rest

/-- Writes through the pointer `GetFloatAttribute` returned for the tag. -/
def WriteFloatAttribute (c : USimpleGameplayAbilityComponent) (AttributeTag : FGameplayTag)
    (New : FFloatAttribute) : USimpleGameplayAbilityComponent :=
  if c.HasAuthority then
    { c with AuthorityFloatAttributes := ReplaceFirst AttributeTag New c.AuthorityFloatAttributes }
  else
    { c with LocalFloatAttributes := ReplaceFirst AttributeTag New c.LocalFloatAttributes }

/-- The function `HasFloatAttribute`. -/
def HasFloatAttribute (c : USimpleGameplayAbilityComponent) (AttributeTag : FGameplayTag) : Bool :=
  (GetFloatAttribute c AttributeTag).isSome

/-! ## Reading values -/

/-- Modelled from the spec: `predict(attribute, asOfTime)` of the regeneration
engine, whose code is outside the source files at hand:
`currentValue + currentRegenRate * max(0, asOfTime − lastRegenTimestamp)`,
then clamped as a `CurrentValue`. -/
def PredictRegen (Attribute : FFloatAttribute) (AsOfTime : ℚ) : ℚ :=
  (ClampFloatAttributeValue Attribute EAttributeValueType.CurrentValue
    (Attribute.CurrentValue + Attribute.CurrentRegenRate *
      FMath_Max 0 (AsOfTime - Attribute.LastRegenParamsUpdateTime_Server)) 0).1

/-- The `CurrentValueRatio` of a current value against the attribute's limits, as the
`CurrentValueRatio` case of `GetFloatAttributeValue` computes it. -/
def CurrentValueRatioOf (Attribute : FFloatAttribute) (Current : ℚ) : ℚ :=
  if Attribute.ValueLimits.UseMinCurrentValue ∧ Attribute.ValueLimits.UseMaxCurrentValue then
    let range := Attribute.ValueLimits.MaxCurrentValue - Attribute.ValueLimits.MinCurrentValue
    if range ≠ 0 then (Current - Attribute.ValueLimits.MinCurrentValue) / range else 0
  else if Attribute.ValueLimits.UseMaxCurrentValue then
    if Attribute.ValueLimits.MaxCurrentValue ≠ 0 then
      Current / Attribute.ValueLimits.MaxCurrentValue
    else 0
  else
    if Attribute.BaseValue ≠ 0 then Current / Attribute.BaseValue else 0

/-- Modelled from the spec: `GetAuthoritativeCurrentValueWithRegen` is defined
outside the source files at hand. Following the spec, on the authoritative side
`CurrentValue` and the kind derived from it (`CurrentValueRatio`) are computed
from the current value with pending regeneration applied (`predict` at the
server time, for a regenerating attribute) without storing anything; the other
supported kinds return the stored field; an unsupported kind gives 0. -/
def GetAuthoritativeCurrentValueWithRegen (c : USimpleGameplayAbilityComponent)
    (Attribute : FFloatAttribute) (ValueType : EAttributeValueType) : ℚ :=
  let Current : ℚ :=
    if Attribute.bIsRegenerating then PredictRegen Attribute c.GetServerTime
    else Attribute.CurrentValue
  match ValueType with
  | .BaseValue => Attribute.BaseValue
  | .CurrentValue => Current
  | .MaxCurrentValue => Attribute.ValueLimits.MaxCurrentValue
  | .MinCurrentValue => Attribute.ValueLimits.MinCurrentValue
  | .MaxBaseValue => Attribute.ValueLimits.MaxBaseValue
  | .MinBaseValue => Attribute.ValueLimits.MinBaseValue
  | .CurrentValueRatio => CurrentValueRatioOf Attribute Current
  | .BaseRegeneration => Attribute.BaseRegenRate
  | .CurrentRegeneration => Attribute.CurrentRegenRate
  | .Unsupported _ => 0

/-- Result of `GetFloatAttributeValue`: the returned value and `WasFound`. -/
structure FGetFloatResult where
  Value : ℚ
  WasFound : Bool
  deriving DecidableEq, Repr

/-- The function `GetFloatAttributeValue`. -/
def GetFloatAttributeValue (c : USimpleGameplayAbilityComponent)
    (ValueType : EAttributeValueType) (AttributeTag : FGameplayTag)
    (bPredictIfClient : Bool) : FGetFloatResult :=
  if c.HasAuthority then
    match c.AuthorityFloatAttributes.find? (fun a => decide (a.AttributeTag = AttributeTag)) with
    | some Attribute => ⟨GetAuthoritativeCurrentValueWithRegen c Attribute ValueType, true⟩
    | none => ⟨0, false⟩
  else
    match c.LocalFloatAttributes.find? (fun a => decide (a.AttributeTag = AttributeTag)) with
    | some Attribute =>
      if bPredictIfClient ∧ ValueType = EAttributeValueType.CurrentValue then
        if Attribute.bIsRegenerating ∧ Attribute.CurrentRegenRate ≠ 0 then
          let ClientEstimatedServerTime := c.GetServerTime
          let ElapsedTime :=
            FMath_Max 0 (ClientEstimatedServerTime - Attribute.LastRegenParamsUpdateTime_Server)
          let PredictedRegenAmount := Attribute.CurrentRegenRate * ElapsedTime
          let PredictedCurrentValue := Attribute.CurrentValue + PredictedRegenAmount
          ⟨(ClampFloatAttributeValue Attribute EAttributeValueType.CurrentValue
              PredictedCurrentValue 0).1, true⟩
        else
          ⟨(ClampFloatAttributeValue Attribute EAttributeValueType.CurrentValue
              Attribute.CurrentValue 0).1, true⟩
      else
        match ValueType with
        | .BaseValue => ⟨Attribute.BaseValue, true⟩
        | .CurrentValue => ⟨Attribute.CurrentValue, true⟩
        | .MaxCurrentValue =>
          ⟨if Attribute.ValueLimits.UseMaxCurrentValue then Attribute.ValueLimits.MaxCurrentValue
            else 0, true⟩
        | .MinCurrentValue =>
          ⟨if Attribute.ValueLimits.UseMinCurrentValue then Attribute.ValueLimits.MinCurrentValue
            else 0, true⟩
        | .MaxBaseValue =>
          ⟨if Attribute.ValueLimits.UseMaxBaseValue then Attribute.ValueLimits.MaxBaseValue
            else 0, true⟩
        | .MinBaseValue =>
          ⟨if Attribute.ValueLimits.UseMinBaseValue then Attribute.ValueLimits.MinBaseValue
            else 0, true⟩
        | .CurrentValueRatio => ⟨CurrentValueRatioOf Attribute Attribute.CurrentValue, true⟩
        | .BaseRegeneration => ⟨Attribute.BaseRegenRate, true⟩
        | .CurrentRegeneration => ⟨Attribute.CurrentRegenRate, true⟩
        | .Unsupported _ => ⟨0, true⟩
    | none => ⟨0, false⟩

/-! ## Writing values -/

/-- Result of `SetFloatAttributeValue` and `IncrementFloatAttributeValue`: the
returned flag, `Overflow` after the call, and the component after the call. -/
structure FSetFloatResult where
  Applied : Bool
  Overflow : ℚ
  Component : USimpleGameplayAbilityComponent
  deriving DecidableEq, Repr

/-- The function `SetFloatAttributeValue`. The arithmetic of the
`CurrentValueRatio` case is exact here; `CurrentValueRatioStored` embeds the
same computation with the rounding of each `float` operation. -/
def SetFloatAttributeValue (c : USimpleGameplayAbilityComponent)
    (ValueType : EAttributeValueType) (AttributeTag : FGameplayTag)
    (NewValue Overflow : ℚ) : FSetFloatResult :=
  match GetFloatAttribute c AttributeTag with
  | none => ⟨false, Overflow, c⟩
  | some Attribute =>
    let ValueToSet := NewValue
    let Clamped := ClampFloatAttributeValue Attribute ValueType ValueToSet Overflow
    let ClampedValue := Clamped.1
    let Overflow := Clamped.2
    match ValueType with
    | .BaseValue =>
      let A1 := { Attribute with BaseValue := ClampedValue }
      ⟨true, Overflow, SendFloatAttributeChangedEvent (WriteFloatAttribute c AttributeTag A1)
        FDefaultTags.FloatAttributeBaseValueChanged AttributeTag ValueType ClampedValue⟩
    | .CurrentValue =>
      let A1 :=
        if c.HasAuthority ∧ Attribute.bIsRegenerating then
          { Attribute with
            CurrentValue := GetAuthoritativeCurrentValueWithRegen c Attribute
              EAttributeValueType.CurrentValue
            LastRegenParamsUpdateTime_Server := c.GetServerTime }
        else Attribute
      let A2 := { A1 with CurrentValue := ClampedValue }
      let A3 :=
        if c.HasAuthority then { A2 with LastRegenParamsUpdateTime_Server := c.GetServerTime }
        else A2
      ⟨true, Overflow, SendFloatAttributeChangedEvent (WriteFloatAttribute c AttributeTag A3)
        FDefaultTags.FloatAttributeCurrentValueChanged AttributeTag ValueType ClampedValue⟩
    | .MaxCurrentValue =>
      let A1 := { Attribute with
        ValueLimits := { Attribute.ValueLimits with MaxCurrentValue := ClampedValue } }
      ⟨true, Overflow, SendFloatAttributeChangedEvent (WriteFloatAttribute c AttributeTag A1)
        FDefaultTags.FloatAttributeMaxCurrentValueChanged AttributeTag ValueType ClampedValue⟩
    | .MinCurrentValue =>
      let A1 := { Attribute with
        ValueLimits := { Attribute.ValueLimits with MinCurrentValue := ClampedValue } }
      ⟨true, Overflow, SendFloatAttributeChangedEvent (WriteFloatAttribute c AttributeTag A1)
        FDefaultTags.FloatAttributeMinCurrentValueChanged AttributeTag ValueType ClampedValue⟩
    | .MaxBaseValue =>
      let A1 := { Attribute with
        ValueLimits := { Attribute.ValueLimits with MaxBaseValue := ClampedValue } }
      ⟨true, Overflow, SendFloatAttributeChangedEvent (WriteFloatAttribute c AttributeTag A1)
        FDefaultTags.FloatAttributeMaxBaseValueChanged AttributeTag ValueType ClampedValue⟩
    | .MinBaseValue =>
      let A1 := { Attribute with
        ValueLimits := { Attribute.ValueLimits with MinBaseValue := ClampedValue } }
      ⟨true, Overflow, SendFloatAttributeChangedEvent (WriteFloatAttribute c AttributeTag A1)
        FDefaultTags.FloatAttributeMinBaseValueChanged AttributeTag ValueType ClampedValue⟩
    | .CurrentValueRatio =>
      let min : ℚ :=
        if Attribute.ValueLimits.UseMinCurrentValue then Attribute.ValueLimits.MinCurrentValue
        else 0
      let max : ℚ :=
        if Attribute.ValueLimits.UseMaxCurrentValue then Attribute.ValueLimits.MaxCurrentValue
        else Attribute.BaseValue
      let range := max - min
      let A1 := { Attribute with
        CurrentValue := if range ≠ 0 then FMath_Clamp NewValue 0 1 * range + min else min }
      let A2 :=
        if c.HasAuthority then { A1 with LastRegenParamsUpdateTime_Server := c.GetServerTime }
        else A1
      ⟨true, Overflow, SendFloatAttributeChangedEvent (WriteFloatAttribute c AttributeTag A2)
        FDefaultTags.FloatAttributeCurrentValueChanged AttributeTag
        EAttributeValueType.CurrentValue A2.CurrentValue⟩
    | .BaseRegeneration =>
      let A1 := { Attribute with BaseRegenRate := NewValue }
      ⟨true, Overflow, SendFloatAttributeChangedEvent (WriteFloatAttribute c AttributeTag A1)
        FDefaultTags.FloatAttributeBaseRegenRateChanged AttributeTag ValueType NewValue⟩
    | .CurrentRegeneration =>
      let A1 :=
        if c.HasAuthority ∧ Attribute.bIsRegenerating then
          let ValueBasedOnOldRate := GetAuthoritativeCurrentValueWithRegen c Attribute
            EAttributeValueType.CurrentValue
          let TempOverflow : ℚ := 0
          { Attribute with
            CurrentValue := (ClampFloatAttributeValue Attribute EAttributeValueType.CurrentValue
              ValueBasedOnOldRate TempOverflow).1
            LastRegenParamsUpdateTime_Server := c.GetServerTime }
        else Attribute
      let A2 := { A1 with CurrentRegenRate := NewValue }
      let A3 :=
        if c.HasAuthority then { A2 with LastRegenParamsUpdateTime_Server := c.GetServerTime }
        else A2
      ⟨true, Overflow, SendFloatAttributeChangedEvent (WriteFloatAttribute c AttributeTag A3)
        FDefaultTags.FloatAttributeCurrentRegenRateChanged AttributeTag ValueType NewValue⟩
    | .Unsupported _ => ⟨true, Overflow, c⟩

/-- Modelled from the spec: the default of the `bPredictIfClient` argument of
`GetFloatAttributeValue` is declared in a header outside the source files at
hand; `incrementFloatAttributeValue` reads the value "without prediction". -/
def bPredictIfClient_Default : Bool := false

/-- The function `IncrementFloatAttributeValue`. -/
def IncrementFloatAttributeValue (c : USimpleGameplayAbilityComponent)
    (ValueType : EAttributeValueType) (AttributeTag : FGameplayTag)
    (Increment Overflow : ℚ) : FSetFloatResult :=
  let Read := GetFloatAttributeValue c ValueType AttributeTag bPredictIfClient_Default
  let CurrentValue := Read.Value
  if ¬ Read.WasFound then ⟨false, Overflow, c⟩
  else SetFloatAttributeValue c ValueType AttributeTag (CurrentValue + Increment) Overflow

/-! ## Change detection -/

/-- The function `CompareFloatAttributesAndSendEvents`. -/
def CompareFloatAttributesAndSendEvents (c : USimpleGameplayAbilityComponent)
    (OldAttribute NewAttribute : FFloatAttribute) : USimpleGameplayAbilityComponent :=
  let c1 :=
    if OldAttribute.BaseValue ≠ NewAttribute.BaseValue then
      SendFloatAttributeChangedEvent c FDefaultTags.FloatAttributeBaseValueChanged
        NewAttribute.AttributeTag EAttributeValueType.BaseValue NewAttribute.BaseValue
    else c
  let c2 :=
    if NewAttribute.ValueLimits.UseMaxBaseValue ∧
        OldAttribute.ValueLimits.MaxBaseValue ≠ NewAttribute.ValueLimits.MaxBaseValue then
      SendFloatAttributeChangedEvent c1 FDefaultTags.FloatAttributeMaxBaseValueChanged
        NewAttribute.AttributeTag EAttributeValueType.MaxBaseValue
        NewAttribute.ValueLimits.MaxBaseValue
    else c1
  let c3 :=
    if NewAttribute.ValueLimits.UseMinBaseValue ∧
        OldAttribute.ValueLimits.MinBaseValue ≠ NewAttribute.ValueLimits.MinBaseValue then
      SendFloatAttributeChangedEvent c2 FDefaultTags.FloatAttributeMinBaseValueChanged
        NewAttribute.AttributeTag EAttributeValueType.MinBaseValue
        NewAttribute.ValueLimits.MinBaseValue
    else c2
  let c4 :=
    if OldAttribute.CurrentValue ≠ NewAttribute.CurrentValue then
      SendFloatAttributeChangedEvent c3 FDefaultTags.FloatAttributeCurrentValueChanged
        NewAttribute.AttributeTag EAttributeValueType.CurrentValue NewAttribute.CurrentValue
    else c3
  let c5 :=
    if NewAttribute.ValueLimits.UseMaxCurrentValue ∧
        OldAttribute.ValueLimits.MaxCurrentValue ≠ NewAttribute.ValueLimits.MaxCurrentValue then
      SendFloatAttributeChangedEvent c4 FDefaultTags.FloatAttributeMaxCurrentValueChanged
        NewAttribute.AttributeTag EAttributeValueType.MaxCurrentValue
        NewAttribute.ValueLimits.MaxCurrentValue
    else c4
  let c6 :=
    if NewAttribute.ValueLimits.UseMinCurrentValue ∧
        OldAttribute.ValueLimits.MinCurrentValue ≠ NewAttribute.ValueLimits.MinCurrentValue then
      SendFloatAttributeChangedEvent c5 FDefaultTags.FloatAttributeMinCurrentValueChanged
        NewAttribute.AttributeTag EAttributeValueType.MinCurrentValue
        NewAttribute.ValueLimits.MinCurrentValue
    else c5
  let c7 :=
    if OldAttribute.BaseRegenRate ≠ NewAttribute.BaseRegenRate then
      SendFloatAttributeChangedEvent c6 FDefaultTags.FloatAttributeBaseRegenRateChanged
        NewAttribute.AttributeTag EAttributeValueType.BaseRegeneration NewAttribute.BaseRegenRate
    else c6
  if OldAttribute.CurrentRegenRate ≠ NewAttribute.CurrentRegenRate then
    SendFloatAttributeChangedEvent c7 FDefaultTags.FloatAttributeCurrentRegenRateChanged
      NewAttribute.AttributeTag EAttributeValueType.CurrentRegeneration
      NewAttribute.CurrentRegenRate
  else c7

/-! ## Adding and overriding -/

/-- The function `AddFloatAttribute`; the loop runs over the authoritative collection
whatever the role. -/
def AddFloatAttribute (c : USimpleGameplayAbilityComponent) (AttributeToAdd : FFloatAttribute)
    (OverrideValuesIfExists : Bool) : USimpleGameplayAbilityComponent :=
  let AttributeToAdd :=
    if c.HasAuthority then
      { AttributeToAdd with LastRegenParamsUpdateTime_Server := c.GetServerTime }
    else AttributeToAdd
  match c.AuthorityFloatAttributes.find?
      (fun a => decide (a.AttributeTag = AttributeToAdd.AttributeTag)) with
  | some AuthorityAttribute =>
    if ¬ OverrideValuesIfExists then c
    else
      let OldAttribute := AuthorityAttribute
      let Replaced :=
        ReplaceFirst AttributeToAdd.AttributeTag AttributeToAdd c.AuthorityFloatAttributes
      let c1 := { c with AuthorityFloatAttributes := Replaced }
      CompareFloatAttributesAndSendEvents c1 OldAttribute AttributeToAdd
  | none =>
    let c1 := { c with AuthorityFloatAttributes := c.AuthorityFloatAttributes ++ [AttributeToAdd] }
    SendEvent c1 (FGameplayTag.Default FDefaultTags.FloatAttributeAdded)
      AttributeToAdd.AttributeTag FInstancedStruct.Empty

/-- Result of `OverrideFloatAttribute`: the returned flag and the component
after the call. -/
structure FOverrideResult where
  Applied : Bool
  Component : USimpleGameplayAbilityComponent
  deriving DecidableEq, Repr

/-- The function `OverrideFloatAttribute`; the loop runs over the authoritative collection
whatever the role. -/
def OverrideFloatAttribute (c : USimpleGameplayAbilityComponent) (AttributeTag : FGameplayTag)
    (NewAttribute : FFloatAttribute) : FOverrideResult :=
  match c.AuthorityFloatAttributes.find? (fun a => decide (a.AttributeTag = AttributeTag)) with
  | some Attribute =>
    let c1 := CompareFloatAttributesAndSendEvents c Attribute NewAttribute
    let A1 := { Attribute with
      AttributeName := NewAttribute.AttributeName
      AttributeTag := NewAttribute.AttributeTag
      BaseValue := NewAttribute.BaseValue
      CurrentValue := NewAttribute.CurrentValue
      ValueLimits := NewAttribute.ValueLimits
      BaseRegenRate := NewAttribute.BaseRegenRate
      CurrentRegenRate := NewAttribute.CurrentRegenRate
      bIsRegenerating := NewAttribute.bIsRegenerating
      LastRegenParamsUpdateTime_Server := c.GetServerTime }
    let Replaced := ReplaceFirst AttributeTag A1 c1.AuthorityFloatAttributes
    ⟨true, { c1 with AuthorityFloatAttributes := Replaced }⟩
  | none => ⟨false, c⟩

/-! ## Example data

The attribute of the repository's `TestBasicAttributeManipulation` scenario
(base 100, current 80, current bounds 10 and 100) and components holding it. -/

/-- The tag of the example attribute. -/
def HealthTag : FGameplayTag := FGameplayTag.Named "Attributes.Health"

/-- Limits of the example attribute: current value within 10 and 100, base
value at least 10. -/
def TestLimits : FValueLimits :=
  { UseMaxCurrentValue := true, MaxCurrentValue := 100,
    UseMinCurrentValue := true, MinCurrentValue := 10,
    UseMaxBaseValue := false, MaxBaseValue := 0,
    UseMinBaseValue := true, MinBaseValue := 10 }

/-- The example attribute. -/
def TestHealth : FFloatAttribute :=
  { AttributeName := "TestHealth", AttributeTag := HealthTag,
    BaseValue := 100, CurrentValue := 80, ValueLimits := TestLimits,
    BaseRegenRate := 0, CurrentRegenRate := 0, bIsRegenerating := false,
    LastRegenParamsUpdateTime_Server := 0 }

/-- An authoritative component holding the example attribute, at server time 3. -/
def AuthorityComponent : USimpleGameplayAbilityComponent :=
  { HasAuthority := true, GetServerTime := 3, HasEventSubsystem := true,
    AuthorityFloatAttributes := [TestHealth], LocalFloatAttributes := [], SentEvents := [] }

/-- A non-authoritative component whose local mirror holds the example
attribute, at estimated server time 3. -/
def ClientComponent : USimpleGameplayAbilityComponent :=
  { HasAuthority := false, GetServerTime := 3, HasEventSubsystem := true,
    AuthorityFloatAttributes := [], LocalFloatAttributes := [TestHealth], SentEvents := [] }

/-! ## Predicates used by the properties -/

/-- The value violates no enabled bound of the kind: for `BaseValue` the base
bounds, for `CurrentValue` the current bounds; the other kinds have no bounds. -/
def ViolatesNoBound (Attribute : FFloatAttribute) (ValueType : EAttributeValueType)
    (Value : ℚ) : Prop :=
  match ValueType with
  | .BaseValue =>
    (Attribute.ValueLimits.UseMaxBaseValue = true → Value ≤ Attribute.ValueLimits.MaxBaseValue) ∧
    (Attribute.ValueLimits.UseMinBaseValue = true → Attribute.ValueLimits.MinBaseValue ≤ Value)
  | .CurrentValue =>
    (Attribute.ValueLimits.UseMaxCurrentValue = true →
      Value ≤ Attribute.ValueLimits.MaxCurrentValue) ∧
    (Attribute.ValueLimits.UseMinCurrentValue = true →
      Attribute.ValueLimits.MinCurrentValue ≤ Value)
  | _ => True

/-- An attribute whose current value 150 exceeds its enabled max bound 100. -/
def OverfullHealth : FFloatAttribute :=
  { TestHealth with CurrentValue := 150 }

/-- An authoritative component with no attributes, at server time 3. -/
def EmptyComponent : USimpleGameplayAbilityComponent :=
  { AuthorityComponent with AuthorityFloatAttributes := [] }

/-- Lower end of the range a ratio maps onto: `minCurrent` if that bound is
enabled, else 0. -/
def RatioMin (Attribute : FFloatAttribute) : ℚ :=
  if Attribute.ValueLimits.UseMinCurrentValue then Attribute.ValueLimits.MinCurrentValue else 0

/-- Upper end of the range a ratio maps onto: `maxCurrent` if that bound is
enabled, else the base value. -/
def RatioMax (Attribute : FFloatAttribute) : ℚ :=
  if Attribute.ValueLimits.UseMaxCurrentValue then Attribute.ValueLimits.MaxCurrentValue
  else Attribute.BaseValue

/-- The domain tag of float value-changed events for the component's role. -/
def RoleDomain (c : USimpleGameplayAbilityComponent) : FGameplayTag :=
  if c.HasAuthority then FGameplayTag.Default FDefaultTags.AuthorityAttributeDomain
  else FGameplayTag.Default FDefaultTags.LocalAttributeDomain

/-! ## Removing, and the replication callbacks -/

/-- The function `RemoveFloatAttribute`: `RemoveAll` drops every attribute of the
authoritative collection whose tag equals the given one and keeps the order of
the others; the `Removed` event is sent in every case. -/
def RemoveFloatAttribute (c : USimpleGameplayAbilityComponent) (AttributeTag : FGameplayTag) :
    USimpleGameplayAbilityComponent :=
  let Kept := c.AuthorityFloatAttributes.filter (fun a => ¬ decide (a.AttributeTag = AttributeTag))
  let c1 := { c with AuthorityFloatAttributes := Kept }
  SendEvent c1 (FGameplayTag.Default FDefaultTags.FloatAttributeRemoved) AttributeTag
    FInstancedStruct.Empty

/-- The engine's `TArray::AddUnique` for an element equality `AttributeEq`
(`FFloatAttribute::operator==`, declared in a header outside the source files
at hand and therefore an argument). -/
def AddUnique (AttributeEq : FFloatAttribute → FFloatAttribute → Bool)
    (Items : List FFloatAttribute) (Item : FFloatAttribute) : List FFloatAttribute :=
  if Items.any (fun a => AttributeEq a Item) then Items else Items ++ [Item]

/-- The function `OnFloatAttributeAdded`. -/
def OnFloatAttributeAdded (AttributeEq : FFloatAttribute → FFloatAttribute → Bool)
    (c : USimpleGameplayAbilityComponent) (NewFloatAttribute : FFloatAttribute) :
    USimpleGameplayAbilityComponent :=
  let Added := AddUnique AttributeEq c.LocalFloatAttributes NewFloatAttribute
  let c1 := { c with LocalFloatAttributes := Added }
  SendEvent c1 (FGameplayTag.Default FDefaultTags.FloatAttributeAdded)
    NewFloatAttribute.AttributeTag FInstancedStruct.Empty

/-- The function `OnFloatAttributeChanged`. -/
def OnFloatAttributeChanged (AttributeEq : FFloatAttribute → FFloatAttribute → Bool)
    (c : USimpleGameplayAbilityComponent) (ChangedFloatAttribute : FFloatAttribute) :
    USimpleGameplayAbilityComponent :=
  match c.LocalFloatAttributes.find?
      (fun a => decide (a.AttributeTag = ChangedFloatAttribute.AttributeTag)) with
  | some LocalFloatAttribute =>
    let c1 := CompareFloatAttributesAndSendEvents c LocalFloatAttribute ChangedFloatAttribute
    let Replaced :=
      ReplaceFirst ChangedFloatAttribute.AttributeTag ChangedFloatAttribute c1.LocalFloatAttributes
    { c1 with LocalFloatAttributes := Replaced }
  | none =>
    let Added := AddUnique AttributeEq c.LocalFloatAttributes ChangedFloatAttribute
    let c1 := { c with LocalFloatAttributes := Added }
    SendEvent c1 (FGameplayTag.Default FDefaultTags.FloatAttributeAdded)
      ChangedFloatAttribute.AttributeTag FInstancedStruct.Empty

/-- The function `OnFloatAttributeRemoved`: `TArray::Remove` drops every element
equal to the given one. -/
def OnFloatAttributeRemoved (AttributeEq : FFloatAttribute → FFloatAttribute → Bool)
    (c : USimpleGameplayAbilityComponent) (RemovedFloatAttribute : FFloatAttribute) :
    USimpleGameplayAbilityComponent :=
  let Kept := c.LocalFloatAttributes.filter (fun a => ¬ AttributeEq a RemovedFloatAttribute)
  let c1 := { c with LocalFloatAttributes := Kept }
  SendEvent c1 (FGameplayTag.Default FDefaultTags.FloatAttributeRemoved)
    RemovedFloatAttribute.AttributeTag FInstancedStruct.Empty

/-! ## Further notions used by the properties -/

/-- The value an attribute stores for a kind: the field the kind names, and for
`CurrentValueRatio` the ratio of the stored current value. -/
def StoredFloatValue (Attribute : FFloatAttribute) (ValueType : EAttributeValueType) : ℚ :=
  match ValueType with
  | .BaseValue => Attribute.BaseValue
  | .CurrentValue => Attribute.CurrentValue
  | .MaxCurrentValue => Attribute.ValueLimits.MaxCurrentValue
  | .MinCurrentValue => Attribute.ValueLimits.MinCurrentValue
  | .MaxBaseValue => Attribute.ValueLimits.MaxBaseValue
  | .MinBaseValue => Attribute.ValueLimits.MinBaseValue
  | .CurrentValueRatio => CurrentValueRatioOf Attribute Attribute.CurrentValue
  | .BaseRegeneration => Attribute.BaseRegenRate
  | .CurrentRegeneration => Attribute.CurrentRegenRate
  | .Unsupported _ => 0

/-- The event of one field in a diff, following the spec's words: if the field
differs, one event of the field's event kind carrying (tag, kind, new value);
otherwise none. -/
def FieldEvent (Domain AttributeTag : FGameplayTag) (Differs : Prop) [Decidable Differs]
    (EventTag : FDefaultTags) (ValueType : EAttributeValueType) (NewValue : ℚ) :
    List FSimpleEvent :=
  if Differs then
    [⟨FGameplayTag.Default EventTag, Domain,
      FInstancedStruct.FloatModification ⟨AttributeTag, ValueType, NewValue⟩⟩]
  else []

/-- The events of `diffAndEmit(old, new)`, following the spec's words: one event
for each of base value, current value, both regen rates and each bound enabled
in the new attribute, whose value differs between old and new. -/
def ExpectedDiffEvents (Domain : FGameplayTag) (Old New : FFloatAttribute) :
    List FSimpleEvent :=
  FieldEvent Domain New.AttributeTag (Old.BaseValue ≠ New.BaseValue)
    FDefaultTags.FloatAttributeBaseValueChanged EAttributeValueType.BaseValue New.BaseValue ++
  FieldEvent Domain New.AttributeTag
    (New.ValueLimits.UseMaxBaseValue = true ∧
      Old.ValueLimits.MaxBaseValue ≠ New.ValueLimits.MaxBaseValue)
    FDefaultTags.FloatAttributeMaxBaseValueChanged EAttributeValueType.MaxBaseValue
    New.ValueLimits.MaxBaseValue ++
  FieldEvent Domain New.AttributeTag
    (New.ValueLimits.UseMinBaseValue = true ∧
      Old.ValueLimits.MinBaseValue ≠ New.ValueLimits.MinBaseValue)
    FDefaultTags.FloatAttributeMinBaseValueChanged EAttributeValueType.MinBaseValue
    New.ValueLimits.MinBaseValue ++
  FieldEvent Domain New.AttributeTag (Old.CurrentValue ≠ New.CurrentValue)
    FDefaultTags.FloatAttributeCurrentValueChanged EAttributeValueType.CurrentValue
    New.CurrentValue ++
  FieldEvent Domain New.AttributeTag
    (New.ValueLimits.UseMaxCurrentValue = true ∧
      Old.ValueLimits.MaxCurrentValue ≠ New.ValueLimits.MaxCurrentValue)
    FDefaultTags.FloatAttributeMaxCurrentValueChanged EAttributeValueType.MaxCurrentValue
    New.ValueLimits.MaxCurrentValue ++
  FieldEvent Domain New.AttributeTag
    (New.ValueLimits.UseMinCurrentValue = true ∧
      Old.ValueLimits.MinCurrentValue ≠ New.ValueLimits.MinCurrentValue)
    FDefaultTags.FloatAttributeMinCurrentValueChanged EAttributeValueType.MinCurrentValue
    New.ValueLimits.MinCurrentValue ++
  FieldEvent Domain New.AttributeTag (Old.BaseRegenRate ≠ New.BaseRegenRate)
    FDefaultTags.FloatAttributeBaseRegenRateChanged EAttributeValueType.BaseRegeneration
    New.BaseRegenRate ++
  FieldEvent Domain New.AttributeTag (Old.CurrentRegenRate ≠ New.CurrentRegenRate)
    FDefaultTags.FloatAttributeCurrentRegenRateChanged EAttributeValueType.CurrentRegeneration
    New.CurrentRegenRate

/-- The component after the server clock advanced by `Delta` with nothing else
happening. -/
def AdvanceTime (c : USimpleGameplayAbilityComponent) (Delta : ℚ) :
    USimpleGameplayAbilityComponent :=
  { c with GetServerTime := c.GetServerTime + Delta }

/-- The attribute of the repository's `TestRegeneration` scenario: base 200, max
current bound 150, regenerating since time 0. -/
def Stamina (CurrentValue CurrentRegenRate : ℚ) : FFloatAttribute :=
  { AttributeName := "Stamina", AttributeTag := HealthTag,
    BaseValue := 200, CurrentValue := CurrentValue,
    ValueLimits :=
      { UseMaxCurrentValue := true, MaxCurrentValue := 150,
        UseMinCurrentValue := false, MinCurrentValue := 0,
        UseMaxBaseValue := false, MaxBaseValue := 0,
        UseMinBaseValue := false, MinBaseValue := 0 },
    BaseRegenRate := 2, CurrentRegenRate := CurrentRegenRate, bIsRegenerating := true,
    LastRegenParamsUpdateTime_Server := 0 }

/-- An authoritative component holding one attribute, at the given server time. -/
def AuthorityWith (Attribute : FFloatAttribute) (Time : ℚ) : USimpleGameplayAbilityComponent :=
  { HasAuthority := true, GetServerTime := Time, HasEventSubsystem := true,
    AuthorityFloatAttributes := [Attribute], LocalFloatAttributes := [], SentEvents := [] }

/-! ## Notions and example data for the mirror, timestamps and tags -/

/-- A non-authoritative component whose local mirror holds one attribute, at
the given estimated server time. -/
def ClientWith (Attribute : FFloatAttribute) (Time : ℚ) : USimpleGameplayAbilityComponent :=
  { HasAuthority := false, GetServerTime := Time, HasEventSubsystem := true,
    AuthorityFloatAttributes := [], LocalFloatAttributes := [Attribute], SentEvents := [] }

/-- The example attribute with the disabled max base bound holding 500. -/
def HiddenBoundHealth : FFloatAttribute :=
  { TestHealth with ValueLimits := { TestLimits with MaxBaseValue := 500 } }

/-- A second tag. -/
def ManaTag : FGameplayTag := FGameplayTag.Named "Attributes.Mana"

/-- An attribute tagged `ManaTag`. -/
def TestMana : FFloatAttribute :=
  { TestHealth with AttributeName := "TestMana", AttributeTag := ManaTag }

/-- An authoritative component holding `TestHealth` and `TestMana`, at server
time 3. -/
def TwoAttributeComponent : USimpleGameplayAbilityComponent :=
  { AuthorityComponent with AuthorityFloatAttributes := [TestHealth, TestMana] }

/-- No two attributes of the collection share a tag. -/
def TagsUnique (Attributes : List FFloatAttribute) : Prop :=
  (Attributes.map (fun a => a.AttributeTag)).Nodup

/-- Position by position, the regen timestamp of `After` is not below that of
`Before` and is at most `Now`; the collections have the same length. -/
def TimestampsAdvance (Now : ℚ) (Before After : List FFloatAttribute) : Prop :=
  List.Forall₂
    (fun a b => a.LastRegenParamsUpdateTime_Server ≤ b.LastRegenParamsUpdateTime_Server ∧
      b.LastRegenParamsUpdateTime_Server ≤ Now)
    Before After

/-! ## Modifier runtime

The member functions of `USimpleAttributeModifier` and `USimpleGameplayAbility`
and the component's instance lookups are defined outside the source files at
hand. The modifier's apply logic is an argument of
`ApplyAttributeModifierToTarget`; the others are modelled by their effect on the
instance record. -/

/-- Modelled from the spec: `USimpleAttributeModifier::AddModifierStack`
increments the stack count of the instance. -/
def AddModifierStack (Modifier : USimpleAttributeModifier) (StackCount : Int) :
    USimpleAttributeModifier :=
  { Modifier with Stacks := Modifier.Stacks + StackCount }

/-- Modelled from the spec: `USimpleAttributeModifier::EndModifier` is the
terminal transition of the instance; the instance is no longer active and has
received the end status tag. -/
def EndModifier (Modifier : USimpleAttributeModifier) (EndingStatus : FGameplayTag)
    (_EndingContext : FInstancedStruct) : USimpleAttributeModifier :=
  { Modifier with
    IsModifierActive := false
    EndModifierCalls := Modifier.EndModifierCalls ++ [EndingStatus] }

/-- Modelled from the spec: `InitializeAbility` gives the instance its
instance id. -/
def InitializeAbility (Modifier : USimpleAttributeModifier) (InstanceID : FGuid) :
    USimpleAttributeModifier :=
  { Modifier with AbilityInstanceID := InstanceID }

/-- Modelled from the spec: `USimpleGameplayAbility::CancelAbility` hands the
cancel status tag to the ability instance. -/
def CancelAbility (Ability : USimpleGameplayAbility) (CancelStatus : FGameplayTag)
    (_CancelContext : FInstancedStruct) : USimpleGameplayAbility :=
  { Ability with CancelAbilityCalls := Ability.CancelAbilityCalls ++ [CancelStatus] }

/-- The engine's `NewObject<USimpleAttributeModifier>(this, ModifierClass)`: an
instance with the values of the class default object, not active, without an
instance id. -/
def NewObject (ModifierClass : UClass) : USimpleAttributeModifier :=
  { GetClass := ModifierClass
    ModifierType := ModifierClass.ModifierType
    CanStack := ModifierClass.CanStack
    Stacks := ModifierClass.Stacks
    IsModifierActive := false
    AbilityInstanceID := 0
    ModifierTags := ModifierClass.ModifierTags
    EndModifierCalls := [] }

/-- Writes through a pointer to the first modifier instance that satisfies
`p`. -/
def UpdateFirstModifier (p : USimpleAttributeModifier → Bool)
    (f : USimpleAttributeModifier → USimpleAttributeModifier) :
    List USimpleAttributeModifier → List USimpleAttributeModifier
  | [] => []
  | m :: rest => if p m then f m :: rest else m :: UpdateFirstModifier p f rest

/-- Writes through a pointer to the first ability instance that satisfies
`p`. -/
def UpdateFirstAbility (p : USimpleGameplayAbility → Bool)
    (f : USimpleGameplayAbility → USimpleGameplayAbility) :
    List USimpleGameplayAbility → List USimpleGameplayAbility
  | [] => []
  | m :: rest => if p m then f m :: rest else m :: UpdateFirstAbility p f rest

/-- The state collection of the component's role. -/
def RoleAttributeStates (c : USimpleGameplayAbilityComponent) : List FAbilityState :=
  if c.HasAuthority then c.AuthorityAttributeStates else c.LocalAttributeStates

/-- The function `CreateAttributeState`. Without authority the loop that looks
for the id runs over `LocalAbilityStates` and the new state is added to
`LocalAttributeStates`. -/
def CreateAttributeState (c : USimpleGameplayAbilityComponent) (AttributeClass : Option UClass)
    (AttributeContext : FInstancedStruct) (AttributeInstanceID : FGuid) :
    USimpleGameplayAbilityComponent :=
  let NewAttributeState : FAbilityState :=
    { AbilityID := AttributeInstanceID
      AbilityClass := AttributeClass
      ActivationTimeStamp := c.GetServerTime
      ActivationContext := AttributeContext
      AbilityStatus := EAbilityStatus.ActivationSuccess
      SnapshotHistory := [] }
  if c.HasAuthority then
    if c.AuthorityAttributeStates.any (fun s => decide (s.AbilityID = AttributeInstanceID)) then c
    else { c with AuthorityAttributeStates := c.AuthorityAttributeStates ++ [NewAttributeState] }
  else
    if c.LocalAbilityStates.any (fun s => decide (s.AbilityID = AttributeInstanceID)) then c
    else { c with LocalAttributeStates := c.LocalAttributeStates ++ [NewAttributeState] }

/-- What `ApplyAttributeModifierToTarget` leaves: the returned value, the
out-parameter `ModifierID`, the calling component at the moment the function
returns or hands over to the modifier's apply logic, and the instance on which
the apply logic was invoked, if it was. -/
structure FApplyModifierResult where
  Returned : Bool
  ModifierID : FGuid
  Component : USimpleGameplayAbilityComponent
  AppliedModifier : Option USimpleAttributeModifier
  deriving DecidableEq, Repr

/-- The function `ApplyAttributeModifierToTarget`, called on the component `c`.
`ApplyModifier Modifier c ModifierTarget ModifierContext` is the value returned
by the modifier's apply logic, `NewGuid` the value of `FGuid::NewGuid()`, and
`ModifierID` the value the out-parameter holds before the call. The loop runs
over the instances of `c`; the target is only handed to the apply logic. -/
def ApplyAttributeModifierToTarget
    (ApplyModifier : USimpleAttributeModifier → USimpleGameplayAbilityComponent →
      USimpleGameplayAbilityComponent → FInstancedStruct → Bool)
    (NewGuid : FGuid) (c ModifierTarget : USimpleGameplayAbilityComponent)
    (ModifierClass : Option UClass) (ModifierContext : FInstancedStruct) (ModifierID : FGuid) :
    FApplyModifierResult :=
  match ModifierClass with
  | none => ⟨false, ModifierID, c, none⟩
  | some Class =>
    let IsClass : USimpleAttributeModifier → Bool := fun m => decide (m.GetClass = Class)
    let Apply : USimpleAttributeModifier → List USimpleAttributeModifier → FApplyModifierResult :=
      fun Modifier Instances =>
        let c1 := { c with InstancedAttributes := Instances }
        let c2 := CreateAttributeState c1 (some Class) ModifierContext NewGuid
        ⟨ApplyModifier Modifier c2 ModifierTarget ModifierContext, NewGuid, c2, some Modifier⟩
    match c.InstancedAttributes.find? IsClass with
    | some InstancedModifier =>
      if InstancedModifier.ModifierType = EAttributeModifierType.Duration ∧
          InstancedModifier.IsModifierActive = true then
        if InstancedModifier.CanStack then
          let Stacked := UpdateFirstModifier IsClass (fun m => AddModifierStack m 1)
            c.InstancedAttributes
          ⟨true, NewGuid, { c with InstancedAttributes := Stacked }, none⟩
        else
          let Ended := EndModifier InstancedModifier
            (FGameplayTag.Default FDefaultTags.AbilityCancelled) FInstancedStruct.Empty
          let Modifier := InitializeAbility Ended NewGuid
          Apply Modifier (UpdateFirstModifier IsClass (fun _ => Modifier) c.InstancedAttributes)
      else
        let Modifier := InitializeAbility InstancedModifier NewGuid
        Apply Modifier (UpdateFirstModifier IsClass (fun _ => Modifier) c.InstancedAttributes)
    | none =>
      let Modifier := InitializeAbility (NewObject Class) NewGuid
      Apply Modifier (c.InstancedAttributes ++ [Modifier])

/-- Modelled from the spec: `GetAttributeModifierInstance` returns the modifier
instance with the given instance id, if the component hosts one. -/
def GetAttributeModifierInstance (c : USimpleGameplayAbilityComponent) (ModifierID : FGuid) :
    Option USimpleAttributeModifier :=
  c.InstancedAttributes.find? (fun m => decide (m.AbilityInstanceID = ModifierID))

/-- Modelled from the spec: `GetGameplayAbilityInstance` returns the ability
instance with the given instance id, if the component hosts one. -/
def GetGameplayAbilityInstance (c : USimpleGameplayAbilityComponent) (AbilityInstanceID : FGuid) :
    Option USimpleGameplayAbility :=
  c.InstancedAbilities.find? (fun a => decide (a.AbilityInstanceID = AbilityInstanceID))

/-- Modelled from the spec: `GetLocalAttributeStateSnapshots` returns the
snapshot history of the state recorded for the id in the state collection of
the component's role, if there is one. -/
def GetLocalAttributeStateSnapshots (c : USimpleGameplayAbilityComponent) (ModifierID : FGuid) :
    Option (List FSimpleAbilitySnapshot) :=
  ((RoleAttributeStates c).find? (fun s => decide (s.AbilityID = ModifierID))).map
    (fun s => s.SnapshotHistory)

/-- The statement
`if (Instance = GetAttributeModifierInstance(ID)) Instance->EndModifier(AbilityCancelled, {})`. -/
def EndModifierInstance (c : USimpleGameplayAbilityComponent) (ModifierID : FGuid) :
    USimpleGameplayAbilityComponent :=
  let Ended := UpdateFirstModifier (fun m => decide (m.AbilityInstanceID = ModifierID))
    (fun m => EndModifier m (FGameplayTag.Default FDefaultTags.AbilityCancelled)
      FInstancedStruct.Empty) c.InstancedAttributes
  { c with InstancedAttributes := Ended }

/-- The statement
`if (Instance = GetGameplayAbilityInstance(ID)) Instance->CancelAbility(AbilityCancelled, {})`. -/
def CancelAbilityInstance (c : USimpleGameplayAbilityComponent) (AbilityInstanceID : FGuid) :
    USimpleGameplayAbilityComponent :=
  let Cancelled := UpdateFirstAbility (fun a => decide (a.AbilityInstanceID = AbilityInstanceID))
    (fun a => CancelAbility a (FGameplayTag.Default FDefaultTags.AbilityCancelled)
      FInstancedStruct.Empty) c.InstancedAbilities
  { c with InstancedAbilities := Cancelled }

/-- The body of the snapshot loop of `CancelAttributeModifier`: the ability side
effects of the snapshot, then its modifier side effects. -/
def CancelSnapshotSideEffects (c : USimpleGameplayAbilityComponent)
    (Snapshot : FSimpleAbilitySnapshot) : USimpleGameplayAbilityComponent :=
  match Snapshot.StateData with
  | FInstancedStruct.ModifierResult ModifierResult =>
    let c1 := ModifierResult.AppliedAbilitySideEffects.foldl
      (fun d AbilitySideEffect => CancelAbilityInstance d AbilitySideEffect.AbilityInstanceID) c
    ModifierResult.AppliedAttributeModifierSideEffects.foldl
      (fun d AttributeModifier => EndModifierInstance d AttributeModifier.AttributeID) c1
  | _ => c

/-- The function `CancelAttributeModifier`. -/
def CancelAttributeModifier (c : USimpleGameplayAbilityComponent) (ModifierID : FGuid) :
    USimpleGameplayAbilityComponent :=
  let Cascade : USimpleGameplayAbilityComponent :=
    match GetLocalAttributeStateSnapshots c ModifierID with
    | some Snapshots => Snapshots.foldl CancelSnapshotSideEffects c
    | none => c
  match GetAttributeModifierInstance c ModifierID with
  | some ModifierInstance =>
    if ModifierInstance.ModifierType = EAttributeModifierType.Duration ∧
        ModifierInstance.IsModifierActive = true then
      EndModifierInstance c ModifierID
    else Cascade
  | none => Cascade
/-! ## Example data of the modifier runtime -/

/-- A stackable Duration modifier class whose instances start with one stack. -/
def RegenBuffClass : UClass :=
  { ClassName := "RegenBuff", ModifierType := EAttributeModifierType.Duration,
    CanStack := true, Stacks := 1, ModifierTags := [] }

/-- An Instant modifier class. -/
def DamageClass : UClass :=
  { ClassName := "Damage", ModifierType := EAttributeModifierType.Instant,
    CanStack := false, Stacks := 1, ModifierTags := [] }

/-- An active instance of `RegenBuffClass` with one stack and instance id 7. -/
def ActiveRegenBuff : USimpleAttributeModifier :=
  { NewObject RegenBuffClass with IsModifierActive := true, AbilityInstanceID := 7 }

/-- An authoritative component hosting `ActiveRegenBuff`. -/
def BuffHost : USimpleGameplayAbilityComponent :=
  { AuthorityComponent with InstancedAttributes := [ActiveRegenBuff] }

/-- An apply logic that always reports failure. -/
def FailingApplyModifier (_Modifier : USimpleAttributeModifier)
    (_Instigator _Target : USimpleGameplayAbilityComponent) (_Context : FInstancedStruct) : Bool :=
  false

/-- A Duration modifier class that does not stack. -/
def AuraClass : UClass :=
  { ClassName := "Aura", ModifierType := EAttributeModifierType.Duration,
    CanStack := false, Stacks := 1, ModifierTags := [] }

/-- The side effects of one execution: the ability with instance id 20 and the
modifier with instance id 7. -/
def TriggerResult : FAttributeModifierResult :=
  { AppliedAbilitySideEffects := [{ AbilityInstanceID := 20 }],
    AppliedAttributeModifierSideEffects := [{ AttributeID := 7 }] }

/-- An authoritative component hosting the modifier `Trigger`, the active
Duration modifier `ActiveRegenBuff` (instance id 7) and an ability with instance
id 20, with one state, recorded for instance id 10, whose one snapshot holds
`TriggerResult`. -/
def CascadeComponent (Trigger : USimpleAttributeModifier) : USimpleGameplayAbilityComponent :=
  { AuthorityComponent with
    InstancedAttributes := [Trigger, ActiveRegenBuff]
    InstancedAbilities := [{ AbilityInstanceID := 20, CancelAbilityCalls := [] }]
    AuthorityAttributeStates :=
      [{ AbilityID := 10, AbilityClass := some Trigger.GetClass, ActivationTimeStamp := 1,
         ActivationContext := FInstancedStruct.Empty,
         AbilityStatus := EAbilityStatus.ActivationSuccess,
         SnapshotHistory := [{ StateData := FInstancedStruct.ModifierResult TriggerResult }] }] }

/-- A resolved instance of the Instant class `DamageClass` with instance id 10. -/
def ResolvedTrigger : USimpleAttributeModifier :=
  { NewObject DamageClass with AbilityInstanceID := 10 }

/-- An active instance of the Duration class `AuraClass` with instance id 10. -/
def ActiveTrigger : USimpleAttributeModifier :=
  { NewObject AuraClass with IsModifierActive := true, AbilityInstanceID := 10 }

/-- The component hosts an ability instance with the id, and that instance has
received `AbilityCancelled` through `CancelAbility`. -/
def AbilityReceivedCancel (c : USimpleGameplayAbilityComponent) (AbilityInstanceID : FGuid) :
    Prop :=
  ∃ a, GetGameplayAbilityInstance c AbilityInstanceID = some a ∧
    FGameplayTag.Default FDefaultTags.AbilityCancelled ∈ a.CancelAbilityCalls

/-- The component hosts a modifier instance with the id, and that instance has
received `AbilityCancelled` through `EndModifier` and is not active. -/
def ModifierReceivedEnd (c : USimpleGameplayAbilityComponent) (ModifierID : FGuid) : Prop :=
  ∃ m, GetAttributeModifierInstance c ModifierID = some m ∧
    FGameplayTag.Default FDefaultTags.AbilityCancelled ∈ m.EndModifierCalls ∧
    m.IsModifierActive = false

/-- The example attribute without an enabled max current bound, as the test
holds it before it overrides the attribute with the bound enabled. -/
def UncappedHealth : FFloatAttribute :=
  { TestHealth with ValueLimits := { TestLimits with UseMaxCurrentValue := false } }

/-! ## Struct attributes

`FStructAttribute::operator==`, used by `TArray::Find` and `TArray::AddUnique`,
is declared in a header outside the source files at hand and therefore an
argument of `AddStructAttribute`; so is the handler's `GetModificationEvents`,
which every handler class defines for itself, an argument of
`SetStructAttributeValue`. The value of `NewObject`'s `GetUniqueID()` is an
argument of the functions that may create a handler. -/

/-- The collection `GetStructAttribute` searches: the authoritative one with
authority, the local mirror otherwise. -/
def RoleStructAttributes (c : USimpleGameplayAbilityComponent) : List FStructAttribute :=
  if c.HasAuthority then c.AuthorityStructAttributes else c.LocalStructAttributes

/-- The function `GetStructAttribute`: the first attribute of the role's collection whose tag
matches, `none` for `nullptr`. -/
def GetStructAttribute (c : USimpleGameplayAbilityComponent) (AttributeTag : FGameplayTag) :
    Option FStructAttribute :=
  (RoleStructAttributes c).find? (fun a => decide (a.AttributeTag = AttributeTag))

/-- Replaces the first struct attribute whose tag matches. -/
def ReplaceFirstStruct (AttributeTag : FGameplayTag) (New : FStructAttribute) :
    List FStructAttribute → List FStructAttribute
  | [] => []
  | a :: rest =>
    if a.AttributeTag = AttributeTag then New :: rest
    else a :: ReplaceFirstStruct AttributeTag New rest

/-- Writes through the pointer `GetStructAttribute` returned for the tag. -/
def WriteStructAttribute (c : USimpleGameplayAbilityComponent) (AttributeTag : FGameplayTag)
    (New : FStructAttribute) : USimpleGameplayAbilityComponent :=
  if c.HasAuthority then
    { c with AuthorityStructAttributes :=
        ReplaceFirstStruct AttributeTag New c.AuthorityStructAttributes }
  else
    { c with LocalStructAttributes := ReplaceFirstStruct AttributeTag New c.LocalStructAttributes }

/-- The function `HasStructAttribute`. -/
def HasStructAttribute (c : USimpleGameplayAbilityComponent) (AttributeTag : FGameplayTag) :
    Bool :=
  (GetStructAttribute c AttributeTag).isSome

/-- What `GetStructAttributeValue` leaves: the returned value and `WasFound`. -/
structure FGetStructResult where
  Value : FInstancedStruct
  WasFound : Bool
  deriving DecidableEq, Repr

/-- The function `GetStructAttributeValue`. -/
def GetStructAttributeValue (c : USimpleGameplayAbilityComponent) (AttributeTag : FGameplayTag) :
    FGetStructResult :=
  match GetStructAttribute c AttributeTag with
  | some Attribute => ⟨Attribute.AttributeValue, true⟩
  | none => ⟨FInstancedStruct.Empty, false⟩

/-- What `GetStructAttributeHandlerInstance` leaves: the returned handler and
the component. -/
structure FHandlerInstanceResult where
  Handler : USimpleAttributeHandler
  Component : USimpleGameplayAbilityComponent
  deriving DecidableEq, Repr

/-- The function `GetStructAttributeHandlerInstance`, for a non-null handler
class (its callers test the class before the call; `NewObject` does not accept
a null class). `NewObjectID` is the `GetUniqueID()` of the object that
`NewObject` creates. -/
def GetStructAttributeHandlerInstance (NewObjectID : Nat) (c : USimpleGameplayAbilityComponent)
    (HandlerClass : UAttributeHandlerClass) : FHandlerInstanceResult :=
  match c.InstancedAttributeHandlers.find? (fun h => decide (h.GetClass = HandlerClass)) with
  | some InstancedHandler => ⟨InstancedHandler, c⟩
  | none =>
    let NewHandlerInstance : USimpleAttributeHandler :=
      { GetClass := HandlerClass, GetUniqueID := NewObjectID }
    let Handlers := c.InstancedAttributeHandlers ++ [NewHandlerInstance]
    ⟨NewHandlerInstance, { c with InstancedAttributeHandlers := Handlers }⟩

/-- What `SetStructAttributeValue` leaves: the returned value and the
component. -/
structure FSetStructResult where
  Applied : Bool
  Component : USimpleGameplayAbilityComponent
  deriving DecidableEq, Repr

/-- The function `SetStructAttributeValue`.
`GetModificationEvents Handler AttributeTag OldValue NewValue` is the tag
container that the handler instance returns. -/
def SetStructAttributeValue
    (GetModificationEvents : USimpleAttributeHandler → FGameplayTag → FInstancedStruct →
      FInstancedStruct → List FGameplayTag)
    (NewObjectID : Nat) (c : USimpleGameplayAbilityComponent) (AttributeTag : FGameplayTag)
    (NewValue : FInstancedStruct) : FSetStructResult :=
  match GetStructAttribute c AttributeTag with
  | none => ⟨false, c⟩
  | some Attribute =>
    let OldValue := Attribute.AttributeValue
    let Handled : List FGameplayTag × USimpleGameplayAbilityComponent :=
      match Attribute.StructAttributeHandler with
      | some HandlerClass =>
        let r := GetStructAttributeHandlerInstance NewObjectID c HandlerClass
        (GetModificationEvents r.Handler AttributeTag OldValue NewValue, r.Component)
      | none => ([], c)
    let c1 := WriteStructAttribute Handled.2 AttributeTag
      { Attribute with AttributeValue := NewValue }
    let Payload := FInstancedStruct.StructModification AttributeTag OldValue NewValue Handled.1
    ⟨true, SendEvent c1 (FGameplayTag.Default FDefaultTags.StructAttributeValueChanged)
      AttributeTag Payload⟩

/-- The engine's `FInstancedStruct::InitializeAs(StructType)`: a value of the
struct type, default-constructed. -/
def InitializeAs (StructType : UScriptStruct) : FInstancedStruct :=
  FInstancedStruct.Struct StructType StructType.DefaultMemory

/-- The engine's `TArray::AddUnique` on struct attributes, for the element
equality `AttributeEq`. -/
def AddUniqueStruct (AttributeEq : FStructAttribute → FStructAttribute → Bool)
    (Items : List FStructAttribute) (Item : FStructAttribute) : List FStructAttribute :=
  if Items.any (fun a => AttributeEq a Item) then Items else Items ++ [Item]

/-- The function `AddStructAttribute`, for the element equality `AttributeEq`
(`FStructAttribute::operator==`). `TArray::Find` gives the index of the first
element equal to the argument. -/
def AddStructAttribute (AttributeEq : FStructAttribute → FStructAttribute → Bool)
    (c : USimpleGameplayAbilityComponent) (AttributeToAdd : FStructAttribute)
    (OverrideValuesIfExists : Bool) : USimpleGameplayAbilityComponent :=
  match AttributeToAdd.StructType with
  | none => c
  | some StructType =>
    match c.AuthorityStructAttributes.findIdx? (fun a => AttributeEq a AttributeToAdd) with
    | none =>
      let Initialised := { AttributeToAdd with AttributeValue := InitializeAs StructType }
      let Added := AddUniqueStruct AttributeEq c.AuthorityStructAttributes Initialised
      SendEvent { c with AuthorityStructAttributes := Added }
        (FGameplayTag.Default FDefaultTags.StructAttributeAdded) Initialised.AttributeTag
        Initialised.AttributeValue
    | some AttributeIndex =>
      if OverrideValuesIfExists then
        let Overridden := c.AuthorityStructAttributes.set AttributeIndex AttributeToAdd
        { c with AuthorityStructAttributes := Overridden }
      else c

/-- The function `RemoveStructAttribute`. -/
def RemoveStructAttribute (c : USimpleGameplayAbilityComponent) (AttributeTag : FGameplayTag) :
    USimpleGameplayAbilityComponent :=
  let Kept := c.AuthorityStructAttributes.filter (fun a => ¬ decide (a.AttributeTag = AttributeTag))
  SendEvent { c with AuthorityStructAttributes := Kept }
    (FGameplayTag.Default FDefaultTags.StructAttributeRemoved) AttributeTag
    FInstancedStruct.Empty

/-! ## Example data of the struct attributes -/

/-- A struct type whose default-constructed value holds two zeros. -/
def InventoryStruct : UScriptStruct :=
  { StructName := "Inventory", DefaultMemory := [0, 0] }

/-- The tag of the example struct attribute. -/
def InventoryTag : FGameplayTag := FGameplayTag.Named "Attributes.Inventory"

/-- A handler class. -/
def InventoryHandlerClass : UAttributeHandlerClass := { ClassName := "InventoryHandler" }

/-- A struct attribute of type `InventoryStruct` holding the values 3 and 4, with
a handler. -/
def TestInventory : FStructAttribute :=
  { AttributeName := "TestInventory", AttributeTag := InventoryTag,
    StructType := some InventoryStruct,
    AttributeValue := FInstancedStruct.Struct InventoryStruct [3, 4],
    StructAttributeHandler := some InventoryHandlerClass }

/-- An authoritative component holding `TestInventory`. -/
def InventoryComponent : USimpleGameplayAbilityComponent :=
  { AuthorityComponent with AuthorityStructAttributes := [TestInventory] }

/-- A handler logic that reports the tag `Changed` on every call. -/
def ReportChanged (_Handler : USimpleAttributeHandler) (_AttributeTag : FGameplayTag)
    (_OldValue _NewValue : FInstancedStruct) : List FGameplayTag :=
  [FGameplayTag.Named "Changed"]

/-- An element equality of struct attributes: equality of tags. -/
def SameTag (a b : FStructAttribute) : Bool :=
  decide (a.AttributeTag = b.AttributeTag)

/-- The list holds at most one instance of each modifier class. -/
def OneInstancePerClass (Instances : List USimpleAttributeModifier) : Prop :=
  (Instances.map (fun m => m.GetClass)).Nodup

/-- The ids of the states are pairwise distinct. -/
def StateIDsUnique (States : List FAbilityState) : Prop :=
  (States.map (fun s => s.AbilityID)).Nodup

/-- An authoritative component hosting `ActiveTrigger`, an active Duration
instance of the class `AuraClass`, which does not stack. -/
def AuraHost : USimpleGameplayAbilityComponent :=
  { AuthorityComponent with InstancedAttributes := [ActiveTrigger] }

/-! ## Rounding in the ratio computation

Elsewhere `float` operations are exact; here the `CurrentValueRatio` case of
`SetFloatAttributeValue` is embedded once more with every `float` operation
rounded, to tell what holds of the stored value under rounding. -/

theorem find?_tag_eq {tag : FGameplayTag} {l : List FFloatAttribute} {a : FFloatAttribute}
    (h : l.find? (fun x => decide (x.AttributeTag = tag)) = some a) : a.AttributeTag = tag := by
  have := List.find?_some h
  simpa using this

theorem find?_ReplaceFirst_same {tag : FGameplayTag} {New : FFloatAttribute}
    (hN : New.AttributeTag = tag) :
    ∀ {l : List FFloatAttribute} {a : FFloatAttribute},
      l.find? (fun x => decide (x.AttributeTag = tag)) = some a →
      (ReplaceFirst tag New l).find? (fun x => decide (x.AttributeTag = tag)) = some New
  | [], _, h => by simp at h
  | b :: rest, a, h => by
    by_cases hb : b.AttributeTag = tag
    · simp [ReplaceFirst, hb, hN]
    · have h' : rest.find? (fun x => decide (x.AttributeTag = tag)) = some a := by
        simpa [List.find?, hb] using h
      simp [ReplaceFirst, hb, List.find?, find?_ReplaceFirst_same hN h']

theorem find?_ReplaceFirst_other {tag tag' : FGameplayTag} {New : FFloatAttribute}
    (hN : New.AttributeTag = tag) (hne : tag' ≠ tag) :
    ∀ (l : List FFloatAttribute),
      (ReplaceFirst tag New l).find? (fun x => decide (x.AttributeTag = tag')) =
        l.find? (fun x => decide (x.AttributeTag = tag'))
  | [] => by simp [ReplaceFirst]
  | b :: rest => by
    by_cases hb : b.AttributeTag = tag
    · have h1 : decide (b.AttributeTag = tag') = false :=
        decide_eq_false (fun h => hne (h ▸ hb))
      have h2 : decide (New.AttributeTag = tag') = false :=
        decide_eq_false (fun h => hne (h ▸ hN))
      rw [ReplaceFirst, if_pos hb, List.find?_cons, List.find?_cons, h1, h2]
    · rw [ReplaceFirst, if_neg hb, List.find?_cons, List.find?_cons,
        find?_ReplaceFirst_other hN hne rest]

theorem ReplaceFirst_of_find?_none {tag : FGameplayTag} (New : FFloatAttribute) :
    ∀ {l : List FFloatAttribute},
      l.find? (fun x => decide (x.AttributeTag = tag)) = none → ReplaceFirst tag New l = l
  | [], _ => rfl
  | b :: rest, h => by
    have hb : ¬ b.AttributeTag = tag := by
      intro hb; simp [List.find?, hb] at h
    have h' : rest.find? (fun x => decide (x.AttributeTag = tag)) = none := by
      simpa [List.find?, hb] using h
    simp [ReplaceFirst, hb, ReplaceFirst_of_find?_none New h']

@[simp] theorem SendFloatAttributeChangedEvent_HasAuthority (c : USimpleGameplayAbilityComponent)
    (e : FDefaultTags) (t : FGameplayTag) (k : EAttributeValueType) (v : ℚ) :
    (SendFloatAttributeChangedEvent c e t k v).HasAuthority = c.HasAuthority := by
  unfold SendFloatAttributeChangedEvent; split <;> rfl

@[simp] theorem SendFloatAttributeChangedEvent_HasEventSubsystem
    (c : USimpleGameplayAbilityComponent)
    (e : FDefaultTags) (t : FGameplayTag) (k : EAttributeValueType) (v : ℚ) :
    (SendFloatAttributeChangedEvent c e t k v).HasEventSubsystem = c.HasEventSubsystem := by
  unfold SendFloatAttributeChangedEvent; split <;> rfl

@[simp] theorem SendFloatAttributeChangedEvent_GetServerTime (c : USimpleGameplayAbilityComponent)
    (e : FDefaultTags) (t : FGameplayTag) (k : EAttributeValueType) (v : ℚ) :
    (SendFloatAttributeChangedEvent c e t k v).GetServerTime = c.GetServerTime := by
  unfold SendFloatAttributeChangedEvent; split <;> rfl

@[simp] theorem SendFloatAttributeChangedEvent_Authority (c : USimpleGameplayAbilityComponent)
    (e : FDefaultTags) (t : FGameplayTag) (k : EAttributeValueType) (v : ℚ) :
    (SendFloatAttributeChangedEvent c e t k v).AuthorityFloatAttributes =
      c.AuthorityFloatAttributes := by
  unfold SendFloatAttributeChangedEvent; split <;> rfl

@[simp] theorem SendFloatAttributeChangedEvent_Local (c : USimpleGameplayAbilityComponent)
    (e : FDefaultTags) (t : FGameplayTag) (k : EAttributeValueType) (v : ℚ) :
    (SendFloatAttributeChangedEvent c e t k v).LocalFloatAttributes = c.LocalFloatAttributes := by
  unfold SendFloatAttributeChangedEvent; split <;> rfl

@[simp] theorem GetFloatAttribute_SendFloatAttributeChangedEvent
    (c : USimpleGameplayAbilityComponent)
    (e : FDefaultTags) (t : FGameplayTag) (k : EAttributeValueType) (v : ℚ) (tag : FGameplayTag) :
    GetFloatAttribute (SendFloatAttributeChangedEvent c e t k v) tag = GetFloatAttribute c tag := by
  simp [GetFloatAttribute, RoleFloatAttributes]

@[simp] theorem WriteFloatAttribute_HasAuthority (c : USimpleGameplayAbilityComponent)
    (tag : FGameplayTag) (New : FFloatAttribute) :
    (WriteFloatAttribute c tag New).HasAuthority = c.HasAuthority := by
  unfold WriteFloatAttribute; split <;> rfl

@[simp] theorem WriteFloatAttribute_HasEventSubsystem (c : USimpleGameplayAbilityComponent)
    (tag : FGameplayTag) (New : FFloatAttribute) :
    (WriteFloatAttribute c tag New).HasEventSubsystem = c.HasEventSubsystem := by
  unfold WriteFloatAttribute; split <;> rfl

@[simp] theorem WriteFloatAttribute_GetServerTime (c : USimpleGameplayAbilityComponent)
    (tag : FGameplayTag) (New : FFloatAttribute) :
    (WriteFloatAttribute c tag New).GetServerTime = c.GetServerTime := by
  unfold WriteFloatAttribute; split <;> rfl

@[simp] theorem WriteFloatAttribute_SentEvents (c : USimpleGameplayAbilityComponent)
    (tag : FGameplayTag) (New : FFloatAttribute) :
    (WriteFloatAttribute c tag New).SentEvents = c.SentEvents := by
  unfold WriteFloatAttribute; split <;> rfl

theorem GetFloatAttribute_WriteFloatAttribute {c : USimpleGameplayAbilityComponent}
    {tag : FGameplayTag} {a New : FFloatAttribute}
    (h : GetFloatAttribute c tag = some a) (hN : New.AttributeTag = tag) :
    GetFloatAttribute (WriteFloatAttribute c tag New) tag = some New := by
  unfold GetFloatAttribute RoleFloatAttributes at *
  by_cases hA : c.HasAuthority = true
  · simp only [WriteFloatAttribute, hA, if_true] at h ⊢
    exact find?_ReplaceFirst_same hN h
  · simp only [WriteFloatAttribute, hA, if_false] at h ⊢
    simp only [Bool.false_eq_true, if_false]
    exact find?_ReplaceFirst_same hN h

theorem GetFloatAttribute_tag {c : USimpleGameplayAbilityComponent}
    {tag : FGameplayTag} {a : FFloatAttribute}
    (h : GetFloatAttribute c tag = some a) : a.AttributeTag = tag :=
  find?_tag_eq h

/-! ## Setting `CurrentValue` and `BaseValue` -/

theorem SetFloatAttributeValue_CurrentValue_stored {c : USimpleGameplayAbilityComponent}
    {tag : FGameplayTag} {a : FFloatAttribute} (v o : ℚ)
    (h : GetFloatAttribute c tag = some a) :
    ∃ a', GetFloatAttribute
        (SetFloatAttributeValue c EAttributeValueType.CurrentValue tag v o).Component tag = some a' ∧
      a'.CurrentValue = (ClampFloatAttributeValue a EAttributeValueType.CurrentValue v o).1 ∧
      a'.BaseValue = a.BaseValue ∧ a'.ValueLimits = a.ValueLimits := by
  have ht := GetFloatAttribute_tag h
  by_cases hA : c.HasAuthority = true <;> by_cases hR : a.bIsRegenerating = true <;>
    · simp only [SetFloatAttributeValue, h, hA, hR, and_self, and_true, true_and, and_false,
        false_and, if_true, if_false, GetFloatAttribute_SendFloatAttributeChangedEvent]
      refine ⟨_, GetFloatAttribute_WriteFloatAttribute h ?_, ?_⟩
      · simpa using ht
      · simp

theorem SetFloatAttributeValue_BaseValue_stored {c : USimpleGameplayAbilityComponent}
    {tag : FGameplayTag} {a : FFloatAttribute} (v o : ℚ)
    (h : GetFloatAttribute c tag = some a) :
    ∃ a', GetFloatAttribute
        (SetFloatAttributeValue c EAttributeValueType.BaseValue tag v o).Component tag = some a' ∧
      a'.BaseValue = (ClampFloatAttributeValue a EAttributeValueType.BaseValue v o).1 ∧
      a'.CurrentValue = a.CurrentValue ∧ a'.ValueLimits = a.ValueLimits := by
  have ht := GetFloatAttribute_tag h
  simp only [SetFloatAttributeValue, h, GetFloatAttribute_SendFloatAttributeChangedEvent]
  refine ⟨_, GetFloatAttribute_WriteFloatAttribute h ?_, ?_⟩
  · simpa using ht
  · simp

theorem SetFloatAttributeValue_Overflow {c : USimpleGameplayAbilityComponent}
    {tag : FGameplayTag} {a : FFloatAttribute} (k : EAttributeValueType) (v o : ℚ)
    (h : GetFloatAttribute c tag = some a) :
    (SetFloatAttributeValue c k tag v o).Overflow = (ClampFloatAttributeValue a k v o).2 := by
  cases k <;> simp [SetFloatAttributeValue, h]

theorem SetFloatAttributeValue_Applied {c : USimpleGameplayAbilityComponent}
    {tag : FGameplayTag} {a : FFloatAttribute} (k : EAttributeValueType) (v o : ℚ)
    (h : GetFloatAttribute c tag = some a) :
    (SetFloatAttributeValue c k tag v o).Applied = true := by
  cases k <;> simp [SetFloatAttributeValue, h]

/-- C1: for an existing float attribute, `SetFloatAttributeValue(CurrentValue, tag, v)`
stores `maxCurrent` and reports overflow `v - maxCurrent` when the max bound is
enabled and `v > maxCurrent`; otherwise, when the min bound is enabled and
`v < minCurrent`, it stores `minCurrent` and reports `v - minCurrent`. -/
theorem C1_set_current_value_clamps (c : USimpleGameplayAbilityComponent)
    (tag : FGameplayTag) (a : FFloatAttribute) (v o : ℚ)
    (h : GetFloatAttribute c tag = some a) :
    (a.ValueLimits.UseMaxCurrentValue = true ∧ v > a.ValueLimits.MaxCurrentValue →
      (∃ a', GetFloatAttribute
          (SetFloatAttributeValue c EAttributeValueType.CurrentValue tag v o).Component tag
            = some a' ∧ a'.CurrentValue = a.ValueLimits.MaxCurrentValue) ∧
      (SetFloatAttributeValue c EAttributeValueType.CurrentValue tag v o).Overflow
        = v - a.ValueLimits.MaxCurrentValue) ∧
    (¬ (a.ValueLimits.UseMaxCurrentValue = true ∧ v > a.ValueLimits.MaxCurrentValue) →
      a.ValueLimits.UseMinCurrentValue = true ∧ v < a.ValueLimits.MinCurrentValue →
      (∃ a', GetFloatAttribute
          (SetFloatAttributeValue c EAttributeValueType.CurrentValue tag v o).Component tag
            = some a' ∧ a'.CurrentValue = a.ValueLimits.MinCurrentValue) ∧
      (SetFloatAttributeValue c EAttributeValueType.CurrentValue tag v o).Overflow
        = v - a.ValueLimits.MinCurrentValue) := by
  obtain ⟨a', hget, hcur, -, -⟩ := SetFloatAttributeValue_CurrentValue_stored v o h
  have hov := SetFloatAttributeValue_Overflow EAttributeValueType.CurrentValue v o h
  constructor
  · intro hmax
    refine ⟨⟨a', hget, ?_⟩, ?_⟩
    · rw [hcur]; simp [ClampFloatAttributeValue, hmax]
    · rw [hov]; simp [ClampFloatAttributeValue, hmax]
  · intro hmax hmin
    refine ⟨⟨a', hget, ?_⟩, ?_⟩
    · rw [hcur]; simp only [ClampFloatAttributeValue, if_neg hmax, if_pos hmin]
    · rw [hov]; simp only [ClampFloatAttributeValue, if_neg hmax, if_pos hmin]

/-- C1, the spec's example: with max 100, setting 120 stores 100 with overflow
20; with min 10, setting 5 stores 10 with overflow -5. -/
theorem C1_set_current_value_clamps_witness :
    GetFloatAttribute AuthorityComponent HealthTag = some TestHealth ∧
    ((∃ a', GetFloatAttribute
        (SetFloatAttributeValue AuthorityComponent EAttributeValueType.CurrentValue
          HealthTag 120 0).Component HealthTag = some a' ∧ a'.CurrentValue = 100) ∧
      (SetFloatAttributeValue AuthorityComponent EAttributeValueType.CurrentValue
        HealthTag 120 0).Overflow = 20) ∧
    ((∃ a', GetFloatAttribute
        (SetFloatAttributeValue AuthorityComponent EAttributeValueType.CurrentValue
          HealthTag 5 0).Component HealthTag = some a' ∧ a'.CurrentValue = 10) ∧
      (SetFloatAttributeValue AuthorityComponent EAttributeValueType.CurrentValue
        HealthTag 5 0).Overflow = -5) := by
  have hfound : GetFloatAttribute AuthorityComponent HealthTag = some TestHealth := by
    simp [GetFloatAttribute, RoleFloatAttributes, AuthorityComponent, TestHealth]
  have hi := (C1_set_current_value_clamps AuthorityComponent HealthTag TestHealth 120 0 hfound).1
    ⟨rfl, by norm_num [TestHealth, TestLimits]⟩
  have lo := (C1_set_current_value_clamps AuthorityComponent HealthTag TestHealth 5 0 hfound).2
    (by norm_num [TestHealth, TestLimits]) ⟨rfl, by norm_num [TestHealth, TestLimits]⟩
  refine ⟨hfound, ?_, ?_⟩
  · have e : (120 : ℚ) - 100 = 20 := by norm_num
    simpa [TestHealth, TestLimits, e] using hi
  · have e : (5 : ℚ) - 10 = -5 := by norm_num
    simpa [TestHealth, TestLimits, e] using lo

/-- C2: at the failing input (base bound `minBase = 10` enabled, new value 5),
`SetFloatAttributeValue(BaseValue, tag, 5)` stores 10 but reports overflow
`minBase + v = 15`, not the signed distance `v - minBase = -5` that the
`CurrentValue` branch reports for the same violation. -/
theorem C2_base_value_below_min_overflow :
    GetFloatAttribute AuthorityComponent HealthTag = some TestHealth ∧
    TestHealth.ValueLimits.UseMinBaseValue = true ∧
    (5 : ℚ) < TestHealth.ValueLimits.MinBaseValue ∧
    (∃ a', GetFloatAttribute
        (SetFloatAttributeValue AuthorityComponent EAttributeValueType.BaseValue
          HealthTag 5 0).Component HealthTag = some a' ∧ a'.BaseValue = 10) ∧
    (SetFloatAttributeValue AuthorityComponent EAttributeValueType.BaseValue
      HealthTag 5 0).Overflow = 15 ∧
    (SetFloatAttributeValue AuthorityComponent EAttributeValueType.BaseValue
      HealthTag 5 0).Overflow ≠ 5 - TestHealth.ValueLimits.MinBaseValue ∧
    (SetFloatAttributeValue AuthorityComponent EAttributeValueType.CurrentValue
      HealthTag 5 0).Overflow = 5 - TestHealth.ValueLimits.MinCurrentValue := by
  have hfound : GetFloatAttribute AuthorityComponent HealthTag = some TestHealth := by
    simp [GetFloatAttribute, RoleFloatAttributes, AuthorityComponent, TestHealth]
  obtain ⟨a', hget, hbase, -, -⟩ := SetFloatAttributeValue_BaseValue_stored 5 0 hfound
  have hov := SetFloatAttributeValue_Overflow EAttributeValueType.BaseValue 5 0 hfound
  have hov' := SetFloatAttributeValue_Overflow EAttributeValueType.CurrentValue 5 0 hfound
  refine ⟨hfound, rfl, by norm_num [TestHealth, TestLimits], ⟨a', hget, ?_⟩, ?_, ?_, ?_⟩
  · rw [hbase]; norm_num [ClampFloatAttributeValue, TestHealth, TestLimits]
  · rw [hov]; norm_num [ClampFloatAttributeValue, TestHealth, TestLimits]
  · rw [hov]; norm_num [ClampFloatAttributeValue, TestHealth, TestLimits]
  · rw [hov']; norm_num [ClampFloatAttributeValue, TestHealth, TestLimits]

/-- C3 as stated fails: a set within bounds does not report overflow 0 whatever
the caller's variable held; setting the current value 90 (bounds 10 and 100)
with the variable holding 7 leaves it at 7. -/
theorem C3_overflow_not_reset :
    ¬ (∀ (c : USimpleGameplayAbilityComponent) (k : EAttributeValueType) (tag : FGameplayTag)
        (a : FFloatAttribute) (v o : ℚ),
        GetFloatAttribute c tag = some a → ViolatesNoBound a k v →
        (SetFloatAttributeValue c k tag v o).Overflow = 0) := by
  intro hall
  have hfound : GetFloatAttribute AuthorityComponent HealthTag = some TestHealth := by
    simp [GetFloatAttribute, RoleFloatAttributes, AuthorityComponent, TestHealth]
  have h0 := hall AuthorityComponent EAttributeValueType.CurrentValue HealthTag TestHealth 90 7
    hfound (by norm_num [ViolatesNoBound, TestHealth, TestLimits])
  rw [SetFloatAttributeValue_Overflow EAttributeValueType.CurrentValue 90 7 hfound] at h0
  norm_num [ClampFloatAttributeValue, TestHealth, TestLimits] at h0

/-- C3, amended: for an existing float attribute, every kind and every value
that violates no enabled bound of that kind, `SetFloatAttributeValue` leaves
overflow at the value the caller's variable held before the call. -/
theorem C3_overflow_unchanged_within_bounds (c : USimpleGameplayAbilityComponent)
    (k : EAttributeValueType) (tag : FGameplayTag) (a : FFloatAttribute) (v o : ℚ)
    (h : GetFloatAttribute c tag = some a) (hv : ViolatesNoBound a k v) :
    (SetFloatAttributeValue c k tag v o).Overflow = o := by
  rw [SetFloatAttributeValue_Overflow k v o h]
  cases k <;> simp only [ClampFloatAttributeValue]
  · have h1 : ¬ (a.ValueLimits.UseMaxBaseValue = true ∧ v > a.ValueLimits.MaxBaseValue) :=
      fun hx => absurd (hv.1 hx.1) (not_le.mpr hx.2)
    have h2 : ¬ (a.ValueLimits.UseMinBaseValue = true ∧ v < a.ValueLimits.MinBaseValue) :=
      fun hx => absurd (hv.2 hx.1) (not_le.mpr hx.2)
    rw [if_neg h1, if_neg h2]
  · have h1 : ¬ (a.ValueLimits.UseMaxCurrentValue = true ∧ v > a.ValueLimits.MaxCurrentValue) :=
      fun hx => absurd (hv.1 hx.1) (not_le.mpr hx.2)
    have h2 : ¬ (a.ValueLimits.UseMinCurrentValue = true ∧ v < a.ValueLimits.MinCurrentValue) :=
      fun hx => absurd (hv.2 hx.1) (not_le.mpr hx.2)
    rw [if_neg h1, if_neg h2]

/-- C3, amended, on the test's input: setting the current value 90 within the
bounds 10 and 100 with the variable initialised to 0 reports overflow 0. -/
theorem C3_overflow_unchanged_within_bounds_witness :
    GetFloatAttribute AuthorityComponent HealthTag = some TestHealth ∧
    ViolatesNoBound TestHealth EAttributeValueType.CurrentValue 90 ∧
    (SetFloatAttributeValue AuthorityComponent EAttributeValueType.CurrentValue
      HealthTag 90 0).Overflow = 0 :=
  have hfound : GetFloatAttribute AuthorityComponent HealthTag = some TestHealth := by
    simp [GetFloatAttribute, RoleFloatAttributes, AuthorityComponent, TestHealth]
  have hv : ViolatesNoBound TestHealth EAttributeValueType.CurrentValue 90 := by
    norm_num [ViolatesNoBound, TestHealth, TestLimits]
  ⟨hfound, hv, C3_overflow_unchanged_within_bounds AuthorityComponent
    EAttributeValueType.CurrentValue HealthTag TestHealth 90 0 hfound hv⟩

/-! ## The bounds invariant -/

theorem ClampFloatAttributeValue_CurrentValue_within (a : FFloatAttribute) (v o : ℚ)
    (hmm : a.ValueLimits.UseMaxCurrentValue = true → a.ValueLimits.UseMinCurrentValue = true →
      a.ValueLimits.MinCurrentValue ≤ a.ValueLimits.MaxCurrentValue) :
    ViolatesNoBound a EAttributeValueType.CurrentValue
      (ClampFloatAttributeValue a EAttributeValueType.CurrentValue v o).1 := by
  simp only [ClampFloatAttributeValue, ViolatesNoBound]
  split_ifs with h1 h2 <;> dsimp only
  · exact ⟨fun _ => le_refl _, fun hmin => hmm h1.1 hmin⟩
  · exact ⟨fun hmax => hmm hmax h2.1, fun _ => le_refl _⟩
  · exact ⟨fun hmax => not_lt.mp (fun hv => h1 ⟨hmax, hv⟩),
      fun hmin => not_lt.mp (fun hv => h2 ⟨hmin, hv⟩)⟩

theorem ClampFloatAttributeValue_BaseValue_within (a : FFloatAttribute) (v o : ℚ)
    (hmm : a.ValueLimits.UseMaxBaseValue = true → a.ValueLimits.UseMinBaseValue = true →
      a.ValueLimits.MinBaseValue ≤ a.ValueLimits.MaxBaseValue) :
    ViolatesNoBound a EAttributeValueType.BaseValue
      (ClampFloatAttributeValue a EAttributeValueType.BaseValue v o).1 := by
  simp only [ClampFloatAttributeValue, ViolatesNoBound]
  split_ifs with h1 h2 <;> dsimp only
  · exact ⟨fun _ => le_refl _, fun hmin => hmm h1.1 hmin⟩
  · exact ⟨fun hmax => hmm hmax h2.1, fun _ => le_refl _⟩
  · exact ⟨fun hmax => not_lt.mp (fun hv => h1 ⟨hmax, hv⟩),
      fun hmin => not_lt.mp (fun hv => h2 ⟨hmin, hv⟩)⟩

theorem IncrementFloatAttributeValue_cases (c : USimpleGameplayAbilityComponent)
    (k : EAttributeValueType) (tag : FGameplayTag) (d o : ℚ) :
    IncrementFloatAttributeValue c k tag d o = ⟨false, o, c⟩ ∨
    ∃ v, IncrementFloatAttributeValue c k tag d o = SetFloatAttributeValue c k tag v o := by
  unfold IncrementFloatAttributeValue
  by_cases hf : (GetFloatAttributeValue c k tag bPredictIfClient_Default).WasFound = true
  · exact Or.inr ⟨(GetFloatAttributeValue c k tag bPredictIfClient_Default).Value + d,
      by simp [hf]⟩
  · exact Or.inl (by simp [hf])

theorem ite_Send_AuthorityFloatAttributes (p : Prop) [Decidable p]
    (c : USimpleGameplayAbilityComponent)
    (e : FDefaultTags) (t : FGameplayTag) (k : EAttributeValueType) (v : ℚ) :
    (if p then SendFloatAttributeChangedEvent c e t k v else c).AuthorityFloatAttributes =
      c.AuthorityFloatAttributes := by
  split <;> simp

theorem ite_Send_LocalFloatAttributes (p : Prop) [Decidable p]
    (c : USimpleGameplayAbilityComponent)
    (e : FDefaultTags) (t : FGameplayTag) (k : EAttributeValueType) (v : ℚ) :
    (if p then SendFloatAttributeChangedEvent c e t k v else c).LocalFloatAttributes =
      c.LocalFloatAttributes := by
  split <;> simp

@[simp] theorem CompareFloatAttributesAndSendEvents_Authority
    (c : USimpleGameplayAbilityComponent) (Old New : FFloatAttribute) :
    (CompareFloatAttributesAndSendEvents c Old New).AuthorityFloatAttributes =
      c.AuthorityFloatAttributes := by
  simp only [CompareFloatAttributesAndSendEvents, ite_Send_AuthorityFloatAttributes]

@[simp] theorem CompareFloatAttributesAndSendEvents_Local
    (c : USimpleGameplayAbilityComponent) (Old New : FFloatAttribute) :
    (CompareFloatAttributesAndSendEvents c Old New).LocalFloatAttributes =
      c.LocalFloatAttributes := by
  simp only [CompareFloatAttributesAndSendEvents, ite_Send_LocalFloatAttributes]

theorem FMath_Clamp_eq_max_min (x : ℚ) : FMath_Clamp x 0 1 = max 0 (min x 1) := by
  unfold FMath_Clamp
  split_ifs with h1 h2
  · rw [min_eq_left (le_trans (le_of_lt h1) zero_le_one), max_eq_left (le_of_lt h1)]
  · rw [min_eq_left (le_of_lt h2), max_eq_right (not_lt.mp h1)]
  · rw [min_eq_right (not_lt.mp h2), max_eq_right zero_le_one]

theorem SetFloatAttributeValue_CurrentValueRatio_stored {c : USimpleGameplayAbilityComponent}
    {tag : FGameplayTag} {a : FFloatAttribute} (r o : ℚ)
    (h : GetFloatAttribute c tag = some a) :
    GetFloatAttribute
        (SetFloatAttributeValue c EAttributeValueType.CurrentValueRatio tag r o).Component tag =
      some { a with
        CurrentValue := FMath_Clamp r 0 1 * (RatioMax a - RatioMin a) + RatioMin a
        LastRegenParamsUpdateTime_Server :=
          if c.HasAuthority then c.GetServerTime else a.LastRegenParamsUpdateTime_Server } := by
  have ht := GetFloatAttribute_tag h
  have hval : (if RatioMax a - RatioMin a ≠ 0 then
        FMath_Clamp r 0 1 * (RatioMax a - RatioMin a) + RatioMin a else RatioMin a) =
      FMath_Clamp r 0 1 * (RatioMax a - RatioMin a) + RatioMin a := by
    split_ifs with hz
    · rfl
    · rw [not_not.mp hz]; ring
  simp only [SetFloatAttributeValue, h, GetFloatAttribute_SendFloatAttributeChangedEvent]
  rw [GetFloatAttribute_WriteFloatAttribute h (by split_ifs <;> exact ht)]
  simp only [RatioMax, RatioMin] at hval
  cases hA : c.HasAuthority <;> simp [hval, RatioMax, RatioMin]

theorem GetFloatAttributeValue_authority {c : USimpleGameplayAbilityComponent}
    {tag : FGameplayTag} {a : FFloatAttribute} (k : EAttributeValueType) (p : Bool)
    (hA : c.HasAuthority = true) (h : GetFloatAttribute c tag = some a) :
    GetFloatAttributeValue c k tag p = ⟨GetAuthoritativeCurrentValueWithRegen c a k, true⟩ := by
  simp only [GetFloatAttribute, RoleFloatAttributes, hA, if_true] at h
  simp only [GetFloatAttributeValue, hA, if_true, h]

theorem GetFloatAttributeValue_client_ratio {c : USimpleGameplayAbilityComponent}
    {tag : FGameplayTag} {a : FFloatAttribute} (p : Bool)
    (hA : c.HasAuthority = false) (h : GetFloatAttribute c tag = some a) :
    GetFloatAttributeValue c EAttributeValueType.CurrentValueRatio tag p =
      ⟨CurrentValueRatioOf a a.CurrentValue, true⟩ := by
  simp only [GetFloatAttribute, RoleFloatAttributes, hA, Bool.false_eq_true, if_false] at h
  simp [GetFloatAttributeValue, hA, h]

theorem SetFloatAttributeValue_GetServerTime (c : USimpleGameplayAbilityComponent)
    (k : EAttributeValueType) (tag : FGameplayTag) (v o : ℚ) :
    (SetFloatAttributeValue c k tag v o).Component.GetServerTime = c.GetServerTime := by
  unfold SetFloatAttributeValue
  cases GetFloatAttribute c tag with
  | none => rfl
  | some a => cases k <;> simp

theorem SetFloatAttributeValue_HasAuthority (c : USimpleGameplayAbilityComponent)
    (k : EAttributeValueType) (tag : FGameplayTag) (v o : ℚ) :
    (SetFloatAttributeValue c k tag v o).Component.HasAuthority = c.HasAuthority := by
  unfold SetFloatAttributeValue
  cases GetFloatAttribute c tag with
  | none => rfl
  | some a => cases k <;> simp

/-- C7: for an attribute of the local mirror, reading `CurrentValueRatio` returns
`(current - minCurrent) / (maxCurrent - minCurrent)` when both current bounds
are enabled, `current / maxCurrent` when only the max bound is enabled, and
`current / baseValue` otherwise, and 0 whenever the denominator is 0. -/
theorem C7_get_ratio_local_mirror (c : USimpleGameplayAbilityComponent) (tag : FGameplayTag)
    (a : FFloatAttribute) (p : Bool)
    (hA : c.HasAuthority = false) (h : GetFloatAttribute c tag = some a) :
    (GetFloatAttributeValue c EAttributeValueType.CurrentValueRatio tag p).WasFound = true ∧
    (a.ValueLimits.UseMinCurrentValue = true → a.ValueLimits.UseMaxCurrentValue = true →
      (GetFloatAttributeValue c EAttributeValueType.CurrentValueRatio tag p).Value =
        if a.ValueLimits.MaxCurrentValue - a.ValueLimits.MinCurrentValue = 0 then 0
        else (a.CurrentValue - a.ValueLimits.MinCurrentValue) /
          (a.ValueLimits.MaxCurrentValue - a.ValueLimits.MinCurrentValue)) ∧
    (a.ValueLimits.UseMinCurrentValue = false → a.ValueLimits.UseMaxCurrentValue = true →
      (GetFloatAttributeValue c EAttributeValueType.CurrentValueRatio tag p).Value =
        if a.ValueLimits.MaxCurrentValue = 0 then 0
        else a.CurrentValue / a.ValueLimits.MaxCurrentValue) ∧
    (a.ValueLimits.UseMaxCurrentValue = false →
      (GetFloatAttributeValue c EAttributeValueType.CurrentValueRatio tag p).Value =
        if a.BaseValue = 0 then 0 else a.CurrentValue / a.BaseValue) := by
  rw [GetFloatAttributeValue_client_ratio p hA h]
  refine ⟨rfl, fun hmin hmax => ?_, fun hmin hmax => ?_, fun hmax => ?_⟩
  · simp only [CurrentValueRatioOf, hmin, hmax, and_self, if_true, ne_eq, ite_not]
  · simp only [CurrentValueRatioOf, hmin, hmax, Bool.false_eq_true, false_and, if_false, if_true,
      ne_eq, ite_not]
  · simp only [CurrentValueRatioOf, hmax, Bool.false_eq_true, and_false, if_false, ne_eq,
      ite_not]

/-- C7 on the example mirror (current 80, bounds 10 and 100): the ratio read is
`(80 - 10) / (100 - 10) = 7 / 9`. -/
theorem C7_get_ratio_local_mirror_witness :
    ClientComponent.HasAuthority = false ∧
    GetFloatAttribute ClientComponent HealthTag = some TestHealth ∧
    GetFloatAttributeValue ClientComponent EAttributeValueType.CurrentValueRatio HealthTag false
      = ⟨7 / 9, true⟩ := by
  have hfound : GetFloatAttribute ClientComponent HealthTag = some TestHealth := by
    simp [GetFloatAttribute, RoleFloatAttributes, ClientComponent, TestHealth]
  obtain ⟨hw, hv, -, -⟩ :=
    C7_get_ratio_local_mirror ClientComponent HealthTag TestHealth false rfl hfound
  have hv' := hv rfl rfl
  refine ⟨rfl, hfound, ?_⟩
  generalize GetFloatAttributeValue ClientComponent EAttributeValueType.CurrentValueRatio
    HealthTag false = res at hw hv'
  cases res with
  | mk val found =>
    simp only at hw hv'
    subst hw
    rw [hv']
    norm_num [TestHealth, TestLimits]

/-- C5: for an existing float attribute with both current bounds enabled and
`minCurrent < maxCurrent`, and every ratio `0 ≤ r ≤ 1`,
`SetFloatAttributeValue(CurrentValueRatio, tag, r)` stores
`currentValue = minCurrent + r * (maxCurrent - minCurrent)`, and reading
`CurrentValueRatio` back without prediction returns `r`. -/
theorem C5_ratio_round_trip (c : USimpleGameplayAbilityComponent) (tag : FGameplayTag)
    (a : FFloatAttribute) (r o : ℚ)
    (h : GetFloatAttribute c tag = some a)
    (hmin : a.ValueLimits.UseMinCurrentValue = true)
    (hmax : a.ValueLimits.UseMaxCurrentValue = true)
    (hlt : a.ValueLimits.MinCurrentValue < a.ValueLimits.MaxCurrentValue)
    (hr0 : 0 ≤ r) (hr1 : r ≤ 1) :
    (∃ a', GetFloatAttribute
        (SetFloatAttributeValue c EAttributeValueType.CurrentValueRatio tag r o).Component tag
          = some a' ∧
      a'.CurrentValue = a.ValueLimits.MinCurrentValue +
        r * (a.ValueLimits.MaxCurrentValue - a.ValueLimits.MinCurrentValue)) ∧
    GetFloatAttributeValue
        (SetFloatAttributeValue c EAttributeValueType.CurrentValueRatio tag r o).Component
        EAttributeValueType.CurrentValueRatio tag false = ⟨r, true⟩ := by
  have hst := SetFloatAttributeValue_CurrentValueRatio_stored r o h
  have hcl : FMath_Clamp r 0 1 = r := by
    rw [FMath_Clamp_eq_max_min, min_eq_left hr1, max_eq_right hr0]
  have hrange : a.ValueLimits.MaxCurrentValue - a.ValueLimits.MinCurrentValue ≠ 0 :=
    ne_of_gt (sub_pos.mpr hlt)
  simp only [hcl, RatioMax, RatioMin, hmin, hmax, if_true] at hst
  have hratio : (r * (a.ValueLimits.MaxCurrentValue - a.ValueLimits.MinCurrentValue) +
        a.ValueLimits.MinCurrentValue - a.ValueLimits.MinCurrentValue) /
      (a.ValueLimits.MaxCurrentValue - a.ValueLimits.MinCurrentValue) = r := by
    field_simp
  refine ⟨⟨_, hst, by simp only; ring⟩, ?_⟩
  cases hA : c.HasAuthority with
  | false =>
    have hA' := (SetFloatAttributeValue_HasAuthority c
      EAttributeValueType.CurrentValueRatio tag r o).trans hA
    rw [GetFloatAttributeValue_client_ratio false hA' hst]
    simp only [CurrentValueRatioOf, hmin, hmax, and_self, if_true, if_pos hrange]
    rw [hratio]
  | true =>
    have hA' := (SetFloatAttributeValue_HasAuthority c
      EAttributeValueType.CurrentValueRatio tag r o).trans hA
    rw [GetFloatAttributeValue_authority _ false hA' hst]
    have hle : a.ValueLimits.MinCurrentValue ≤
        r * (a.ValueLimits.MaxCurrentValue - a.ValueLimits.MinCurrentValue) +
          a.ValueLimits.MinCurrentValue := by nlinarith
    have hge : r * (a.ValueLimits.MaxCurrentValue - a.ValueLimits.MinCurrentValue) +
          a.ValueLimits.MinCurrentValue ≤ a.ValueLimits.MaxCurrentValue := by nlinarith
    have hpred : ∀ rate : ℚ, ¬ (rate * FMath_Max 0 (c.GetServerTime - c.GetServerTime) ≠ 0) := by
      intro rate; simp [FMath_Max]
    simp only [GetAuthoritativeCurrentValueWithRegen, PredictRegen, ClampFloatAttributeValue,
      SetFloatAttributeValue_GetServerTime, hA, if_true, sub_self, FMath_Max, ge_iff_le,
      le_refl, mul_zero, add_zero, hmin, hmax, true_and, gt_iff_lt, not_lt.mpr hge,
      not_lt.mpr hle, if_false, ite_self, CurrentValueRatioOf, and_self, if_pos hrange]
    rw [hratio]

/-- C5 on the test's input (bounds 10 and 100): ratio 0.5 stores 55 and the ratio
read back is 0.5. -/
theorem C5_ratio_round_trip_witness :
    GetFloatAttribute AuthorityComponent HealthTag = some TestHealth ∧
    (∃ a', GetFloatAttribute
        (SetFloatAttributeValue AuthorityComponent EAttributeValueType.CurrentValueRatio
          HealthTag (1 / 2) 0).Component HealthTag = some a' ∧ a'.CurrentValue = 55) ∧
    GetFloatAttributeValue
        (SetFloatAttributeValue AuthorityComponent EAttributeValueType.CurrentValueRatio
          HealthTag (1 / 2) 0).Component
        EAttributeValueType.CurrentValueRatio HealthTag false = ⟨1 / 2, true⟩ := by
  have hfound : GetFloatAttribute AuthorityComponent HealthTag = some TestHealth := by
    simp [GetFloatAttribute, RoleFloatAttributes, AuthorityComponent, TestHealth]
  obtain ⟨⟨a', hget, hcur⟩, hread⟩ :=
    C5_ratio_round_trip AuthorityComponent HealthTag TestHealth (1 / 2) 0 hfound rfl rfl
      (by norm_num [TestHealth, TestLimits]) (by norm_num) (by norm_num)
  refine ⟨hfound, ⟨a', hget, ?_⟩, hread⟩
  rw [hcur]; norm_num [TestHealth, TestLimits]

/-! ## Unsupported kinds, absent tags, and the events of a set -/

/-- C8 as stated fails: for a kind outside the nine supported ones, reading an
attribute that exists in the local mirror returns value 0 with `found = true`,
not `found = false`. -/
theorem C8_unsupported_kind_found :
    ¬ (∀ (c : USimpleGameplayAbilityComponent) (n : Nat) (tag : FGameplayTag) (p : Bool),
        GetFloatAttributeValue c (EAttributeValueType.Unsupported n) tag p = ⟨0, false⟩) := by
  intro hall
  have h := hall ClientComponent 99 HealthTag false
  simp [GetFloatAttributeValue, ClientComponent, TestHealth] at h

/-- C8, amended: for every kind outside the nine supported ones,
`GetFloatAttributeValue` returns value 0, and `found` is true exactly when an
attribute with the tag exists in the collection of the caller's role. -/
theorem C8_unsupported_kind_value_zero (c : USimpleGameplayAbilityComponent) (n : Nat)
    (tag : FGameplayTag) (p : Bool) :
    (GetFloatAttributeValue c (EAttributeValueType.Unsupported n) tag p).Value = 0 ∧
    (GetFloatAttributeValue c (EAttributeValueType.Unsupported n) tag p).WasFound =
      HasFloatAttribute c tag := by
  cases hA : c.HasAuthority with
  | true =>
    cases h : c.AuthorityFloatAttributes.find? (fun a => decide (a.AttributeTag = tag)) <;>
      simp [GetFloatAttributeValue, HasFloatAttribute, GetFloatAttribute, RoleFloatAttributes,
        GetAuthoritativeCurrentValueWithRegen, hA, h]
  | false =>
    cases h : c.LocalFloatAttributes.find? (fun a => decide (a.AttributeTag = tag)) <;>
      simp [GetFloatAttributeValue, HasFloatAttribute, GetFloatAttribute, RoleFloatAttributes,
        hA, h]

/-- C9: `SetFloatAttributeValue` returns `applied = false` exactly when no
attribute of the collection of the caller's role has the tag (so it returns
true for every existing tag); in that case the component, with every stored
attribute and the events sent, is unchanged, as is overflow. -/
theorem C9_set_fails_iff_tag_absent (c : USimpleGameplayAbilityComponent)
    (k : EAttributeValueType) (tag : FGameplayTag) (v o : ℚ) :
    ((SetFloatAttributeValue c k tag v o).Applied = false ↔
      ∀ a ∈ RoleFloatAttributes c, a.AttributeTag ≠ tag) ∧
    ((∀ a ∈ RoleFloatAttributes c, a.AttributeTag ≠ tag) →
      (SetFloatAttributeValue c k tag v o).Component = c ∧
      (SetFloatAttributeValue c k tag v o).Overflow = o) := by
  have hnone : GetFloatAttribute c tag = none ↔
      ∀ a ∈ RoleFloatAttributes c, a.AttributeTag ≠ tag := by
    simp [GetFloatAttribute, List.find?_eq_none]
  rw [← hnone]
  cases h : GetFloatAttribute c tag with
  | none => simp [SetFloatAttributeValue, h]
  | some a => simp [SetFloatAttributeValue_Applied k v o h]

theorem SetFloatAttributeValue_BaseValue_events {c : USimpleGameplayAbilityComponent}
    {tag : FGameplayTag} {a : FFloatAttribute} (v o : ℚ)
    (h : GetFloatAttribute c tag = some a) (he : c.HasEventSubsystem = true) :
    (SetFloatAttributeValue c EAttributeValueType.BaseValue tag v o).Component.SentEvents =
      c.SentEvents ++ [⟨FGameplayTag.Default FDefaultTags.FloatAttributeBaseValueChanged,
        RoleDomain c,
        FInstancedStruct.FloatModification ⟨tag, EAttributeValueType.BaseValue,
          (ClampFloatAttributeValue a EAttributeValueType.BaseValue v o).1⟩⟩] := by
  cases hA : c.HasAuthority <;>
    simp [SetFloatAttributeValue, h, SendFloatAttributeChangedEvent, he, hA, RoleDomain]

theorem SetFloatAttributeValue_CurrentValue_events {c : USimpleGameplayAbilityComponent}
    {tag : FGameplayTag} {a : FFloatAttribute} (v o : ℚ)
    (h : GetFloatAttribute c tag = some a) (he : c.HasEventSubsystem = true) :
    (SetFloatAttributeValue c EAttributeValueType.CurrentValue tag v o).Component.SentEvents =
      c.SentEvents ++ [⟨FGameplayTag.Default FDefaultTags.FloatAttributeCurrentValueChanged,
        RoleDomain c,
        FInstancedStruct.FloatModification ⟨tag, EAttributeValueType.CurrentValue,
          (ClampFloatAttributeValue a EAttributeValueType.CurrentValue v o).1⟩⟩] := by
  cases hA : c.HasAuthority <;>
    simp [SetFloatAttributeValue, h, SendFloatAttributeChangedEvent, he, hA, RoleDomain]

/-- C10: with an event subsystem, every successful `SetFloatAttributeValue` of
kind `BaseValue` or `CurrentValue` sends exactly one event, of the event kind of
that field, with payload (tag, kind, value) where the value is the one stored
after clamping. -/
theorem C10_set_emits_one_event_with_stored_value (c : USimpleGameplayAbilityComponent)
    (tag : FGameplayTag) (a : FFloatAttribute) (v o : ℚ)
    (h : GetFloatAttribute c tag = some a) (he : c.HasEventSubsystem = true) :
    (∃ a', GetFloatAttribute
        (SetFloatAttributeValue c EAttributeValueType.BaseValue tag v o).Component tag = some a' ∧
      a'.BaseValue = (ClampFloatAttributeValue a EAttributeValueType.BaseValue v o).1 ∧
      (SetFloatAttributeValue c EAttributeValueType.BaseValue tag v o).Component.SentEvents =
        c.SentEvents ++ [⟨FGameplayTag.Default FDefaultTags.FloatAttributeBaseValueChanged,
          RoleDomain c,
          FInstancedStruct.FloatModification
            ⟨tag, EAttributeValueType.BaseValue, a'.BaseValue⟩⟩]) ∧
    (∃ a', GetFloatAttribute
        (SetFloatAttributeValue c EAttributeValueType.CurrentValue tag v o).Component tag
          = some a' ∧
      a'.CurrentValue = (ClampFloatAttributeValue a EAttributeValueType.CurrentValue v o).1 ∧
      (SetFloatAttributeValue c EAttributeValueType.CurrentValue tag v o).Component.SentEvents =
        c.SentEvents ++ [⟨FGameplayTag.Default FDefaultTags.FloatAttributeCurrentValueChanged,
          RoleDomain c,
          FInstancedStruct.FloatModification
            ⟨tag, EAttributeValueType.CurrentValue, a'.CurrentValue⟩⟩]) := by
  obtain ⟨b, hb, hbv, -, -⟩ := SetFloatAttributeValue_BaseValue_stored v o h
  obtain ⟨d, hd, hdv, -, -⟩ := SetFloatAttributeValue_CurrentValue_stored v o h
  refine ⟨⟨b, hb, hbv, ?_⟩, ⟨d, hd, hdv, ?_⟩⟩
  · rw [hbv]; exact SetFloatAttributeValue_BaseValue_events v o h he
  · rw [hdv]; exact SetFloatAttributeValue_CurrentValue_events v o h he

/-- C10 on the example component: setting the current value to 120 (max bound
100) sends the single event (`CurrentValue` changed, authority domain, payload
value 100). -/
theorem C10_set_emits_one_event_with_stored_value_witness :
    GetFloatAttribute AuthorityComponent HealthTag = some TestHealth ∧
    AuthorityComponent.HasEventSubsystem = true ∧
    (SetFloatAttributeValue AuthorityComponent EAttributeValueType.CurrentValue
      HealthTag 120 0).Component.SentEvents =
      [⟨FGameplayTag.Default FDefaultTags.FloatAttributeCurrentValueChanged,
        FGameplayTag.Default FDefaultTags.AuthorityAttributeDomain,
        FInstancedStruct.FloatModification ⟨HealthTag, EAttributeValueType.CurrentValue, 100⟩⟩] := by
  have hfound : GetFloatAttribute AuthorityComponent HealthTag = some TestHealth := by
    simp [GetFloatAttribute, RoleFloatAttributes, AuthorityComponent, TestHealth]
  obtain ⟨-, a', -, hval, hev⟩ :=
    C10_set_emits_one_event_with_stored_value AuthorityComponent HealthTag TestHealth 120 0
      hfound rfl
  refine ⟨hfound, rfl, ?_⟩
  rw [hev, hval]
  norm_num [ClampFloatAttributeValue, RoleDomain, AuthorityComponent, TestHealth, TestLimits]

/-! ## Events of a set and of a diff -/

theorem SetFloatAttributeValue_one_event {c : USimpleGameplayAbilityComponent}
    {tag : FGameplayTag} {a : FFloatAttribute} (k : EAttributeValueType) (v o : ℚ)
    (h : GetFloatAttribute c tag = some a) (he : c.HasEventSubsystem = true)
    (hk : ∀ n, k ≠ EAttributeValueType.Unsupported n) :
    ∃ e, (SetFloatAttributeValue c k tag v o).Component.SentEvents = c.SentEvents ++ [e] ∧
      e.DomainTag = RoleDomain c := by
  cases k with
  | Unsupported n => exact absurd rfl (hk n)
  | _ =>
    simp only [SetFloatAttributeValue, h, SendFloatAttributeChangedEvent,
      WriteFloatAttribute_HasEventSubsystem, he, if_true, WriteFloatAttribute_SentEvents,
      WriteFloatAttribute_HasAuthority]
    refine ⟨_, rfl, ?_⟩
    cases hA : c.HasAuthority <;> simp [RoleDomain, hA]

/-- C11 as stated fails: a set with the value already stored still sends a
changed-event; setting the current value 80 of the example attribute to 80
appends one event. -/
theorem C11_noop_set_still_emits :
    ¬ (∀ (c : USimpleGameplayAbilityComponent) (k : EAttributeValueType) (tag : FGameplayTag)
        (a : FFloatAttribute) (o : ℚ), GetFloatAttribute c tag = some a →
        (SetFloatAttributeValue c k tag (StoredFloatValue a k) o).Component.SentEvents =
          c.SentEvents) := by
  intro hall
  have hfound : GetFloatAttribute AuthorityComponent HealthTag = some TestHealth := by
    simp [GetFloatAttribute, RoleFloatAttributes, AuthorityComponent, TestHealth]
  have h := hall AuthorityComponent EAttributeValueType.CurrentValue HealthTag TestHealth 0 hfound
  rw [SetFloatAttributeValue_CurrentValue_events _ 0 hfound rfl] at h
  simp at h

/-- C11, amended: with an event subsystem, for every existing attribute and each
of the nine supported kinds, `SetFloatAttributeValue` sends exactly one
changed-event, with the role's domain, for every value, also when the value
equals the one already stored for that kind. -/
theorem C11_set_always_emits_one_event (c : USimpleGameplayAbilityComponent)
    (k : EAttributeValueType) (tag : FGameplayTag) (a : FFloatAttribute) (v o : ℚ)
    (h : GetFloatAttribute c tag = some a) (he : c.HasEventSubsystem = true)
    (hk : ∀ n, k ≠ EAttributeValueType.Unsupported n) :
    (∃ e, (SetFloatAttributeValue c k tag v o).Component.SentEvents = c.SentEvents ++ [e] ∧
      e.DomainTag = RoleDomain c) ∧
    (∃ e, (SetFloatAttributeValue c k tag (StoredFloatValue a k) o).Component.SentEvents =
        c.SentEvents ++ [e] ∧ e.DomainTag = RoleDomain c) :=
  ⟨SetFloatAttributeValue_one_event k v o h he hk,
    SetFloatAttributeValue_one_event k (StoredFloatValue a k) o h he hk⟩

/-- C11, amended, on the example component: setting the current value to the
stored 80 sends the one `CurrentValue` changed-event with value 80. -/
theorem C11_set_always_emits_one_event_witness :
    GetFloatAttribute AuthorityComponent HealthTag = some TestHealth ∧
    AuthorityComponent.HasEventSubsystem = true ∧
    StoredFloatValue TestHealth EAttributeValueType.CurrentValue = 80 ∧
    ∃ e, (SetFloatAttributeValue AuthorityComponent EAttributeValueType.CurrentValue HealthTag
        (StoredFloatValue TestHealth EAttributeValueType.CurrentValue) 0).Component.SentEvents =
      AuthorityComponent.SentEvents ++ [e] ∧ e.DomainTag = RoleDomain AuthorityComponent :=
  have hfound : GetFloatAttribute AuthorityComponent HealthTag = some TestHealth := by
    simp [GetFloatAttribute, RoleFloatAttributes, AuthorityComponent, TestHealth]
  ⟨hfound, rfl, rfl,
    (C11_set_always_emits_one_event AuthorityComponent EAttributeValueType.CurrentValue HealthTag
      TestHealth 0 0 hfound rfl (fun n hn => by cases hn)).2⟩

theorem ite_Send_SentEvents (p : Prop) [Decidable p] (c : USimpleGameplayAbilityComponent)
    (e : FDefaultTags) (t : FGameplayTag) (k : EAttributeValueType) (v : ℚ) :
    (if p then SendFloatAttributeChangedEvent c e t k v else c).SentEvents =
      c.SentEvents ++
        (if c.HasEventSubsystem = true then FieldEvent (RoleDomain c) t p e k v else []) := by
  by_cases hp : p <;> cases he : c.HasEventSubsystem <;>
    simp [SendFloatAttributeChangedEvent, FieldEvent, RoleDomain, hp, he]
  cases c.HasAuthority <;> simp

theorem ite_Send_HasEventSubsystem (p : Prop) [Decidable p]
    (c : USimpleGameplayAbilityComponent)
    (e : FDefaultTags) (t : FGameplayTag) (k : EAttributeValueType) (v : ℚ) :
    (if p then SendFloatAttributeChangedEvent c e t k v else c).HasEventSubsystem =
      c.HasEventSubsystem := by
  split <;> simp

theorem ite_Send_RoleDomain (p : Prop) [Decidable p]
    (c : USimpleGameplayAbilityComponent)
    (e : FDefaultTags) (t : FGameplayTag) (k : EAttributeValueType) (v : ℚ) :
    RoleDomain (if p then SendFloatAttributeChangedEvent c e t k v else c) = RoleDomain c := by
  unfold RoleDomain
  split <;> simp

theorem CompareFloatAttributesAndSendEvents_SentEvents (c : USimpleGameplayAbilityComponent)
    (Old New : FFloatAttribute) :
    (CompareFloatAttributesAndSendEvents c Old New).SentEvents =
      c.SentEvents ++
        (if c.HasEventSubsystem = true then ExpectedDiffEvents (RoleDomain c) Old New
          else []) := by
  simp only [CompareFloatAttributesAndSendEvents, ite_Send_SentEvents,
    ite_Send_HasEventSubsystem, ite_Send_RoleDomain, ExpectedDiffEvents]
  cases c.HasEventSubsystem <;> simp

theorem CompareFloatAttributesAndSendEvents_of_no_subsystem
    (c : USimpleGameplayAbilityComponent) (Old New : FFloatAttribute)
    (he : c.HasEventSubsystem = false) :
    CompareFloatAttributesAndSendEvents c Old New = c := by
  have hs : ∀ (p : Prop) [Decidable p] (e : FDefaultTags) (t : FGameplayTag)
      (k : EAttributeValueType) (v : ℚ),
      (if p then SendFloatAttributeChangedEvent c e t k v else c) = c := by
    intro p _ e t k v
    split
    · simp [SendFloatAttributeChangedEvent, he]
    · rfl
  simp only [CompareFloatAttributesAndSendEvents, hs]

/-- C12: with an event subsystem, `CompareFloatAttributesAndSendEvents(old, new)`
sends exactly the events of the diff: one event carrying (new tag, field kind,
new value) for each of base value, current value, base and current regen rate
and each bound enabled in the new attribute, whose value differs between old
and new under exact equality, and no other; it sends nothing when these values
are equal field by field; the stored attributes are not touched. -/
theorem C12_diff_emits_one_event_per_changed_field (c : USimpleGameplayAbilityComponent)
    (Old New : FFloatAttribute) (he : c.HasEventSubsystem = true) :
    (CompareFloatAttributesAndSendEvents c Old New).SentEvents =
      c.SentEvents ++ ExpectedDiffEvents (RoleDomain c) Old New ∧
    (Old.BaseValue = New.BaseValue → Old.CurrentValue = New.CurrentValue →
      Old.BaseRegenRate = New.BaseRegenRate → Old.CurrentRegenRate = New.CurrentRegenRate →
      Old.ValueLimits.MaxBaseValue = New.ValueLimits.MaxBaseValue →
      Old.ValueLimits.MinBaseValue = New.ValueLimits.MinBaseValue →
      Old.ValueLimits.MaxCurrentValue = New.ValueLimits.MaxCurrentValue →
      Old.ValueLimits.MinCurrentValue = New.ValueLimits.MinCurrentValue →
      (CompareFloatAttributesAndSendEvents c Old New).SentEvents = c.SentEvents) ∧
    (CompareFloatAttributesAndSendEvents c Old New).AuthorityFloatAttributes =
      c.AuthorityFloatAttributes ∧
    (CompareFloatAttributesAndSendEvents c Old New).LocalFloatAttributes =
      c.LocalFloatAttributes := by
  have hev := CompareFloatAttributesAndSendEvents_SentEvents c Old New
  rw [if_pos he] at hev
  refine ⟨hev, ?_, CompareFloatAttributesAndSendEvents_Authority c Old New,
    CompareFloatAttributesAndSendEvents_Local c Old New⟩
  intro h1 h2 h3 h4 h5 h6 h7 h8
  rw [hev]
  simp [ExpectedDiffEvents, FieldEvent, h1, h2, h3, h4, h5, h6, h7, h8]

/-- C12 on the example component: against the example attribute, a new attribute
with current value 90 and max current bound 120 gives the two events for the
current value and the max current bound, in that order. -/
theorem C12_diff_emits_one_event_per_changed_field_witness :
    AuthorityComponent.HasEventSubsystem = true ∧
    (CompareFloatAttributesAndSendEvents AuthorityComponent TestHealth
      { TestHealth with
        CurrentValue := 90
        ValueLimits := { TestLimits with MaxCurrentValue := 120 } }).SentEvents =
      [⟨FGameplayTag.Default FDefaultTags.FloatAttributeCurrentValueChanged,
          FGameplayTag.Default FDefaultTags.AuthorityAttributeDomain,
          FInstancedStruct.FloatModification ⟨HealthTag, EAttributeValueType.CurrentValue, 90⟩⟩,
        ⟨FGameplayTag.Default FDefaultTags.FloatAttributeMaxCurrentValueChanged,
          FGameplayTag.Default FDefaultTags.AuthorityAttributeDomain,
          FInstancedStruct.FloatModification
            ⟨HealthTag, EAttributeValueType.MaxCurrentValue, 120⟩⟩] := by
  refine ⟨rfl, ?_⟩
  rw [(C12_diff_emits_one_event_per_changed_field AuthorityComponent TestHealth _ rfl).1]
  norm_num [ExpectedDiffEvents, FieldEvent, RoleDomain, AuthorityComponent, TestHealth,
    TestLimits]

/-! ## Adding and removing attributes -/

theorem find?_isSome_of_mem_tag {tag : FGameplayTag} {l : List FFloatAttribute}
    (h : ∃ a ∈ l, a.AttributeTag = tag) :
    ∃ b, l.find? (fun x => decide (x.AttributeTag = tag)) = some b := by
  cases hf : l.find? (fun x => decide (x.AttributeTag = tag)) with
  | some b => exact ⟨b, rfl⟩
  | none =>
    obtain ⟨a, ha, hat⟩ := h
    have := List.find?_eq_none.mp hf a ha
    simp [hat] at this

theorem find?_none_of_no_tag {tag : FGameplayTag} {l : List FFloatAttribute}
    (h : ∀ a ∈ l, a.AttributeTag ≠ tag) :
    l.find? (fun x => decide (x.AttributeTag = tag)) = none := by
  rw [List.find?_eq_none]
  intro a ha
  simpa using h a ha

theorem find?_append_new {tag : FGameplayTag} {l : List FFloatAttribute} {New : FFloatAttribute}
    (h : ∀ a ∈ l, a.AttributeTag ≠ tag) (hN : New.AttributeTag = tag) :
    (l ++ [New]).find? (fun x => decide (x.AttributeTag = tag)) = some New := by
  rw [List.find?_append, find?_none_of_no_tag h]
  simp [hN]

/-- C13: when an attribute with the tag already exists in the authoritative
collection, `AddFloatAttribute(attr, overrideIfExists = false)` returns the
component unchanged: no event is sent and every stored attribute, the existing
one and its regen timestamp included, stays as it was. -/
theorem C13_add_existing_without_override_is_noop (c : USimpleGameplayAbilityComponent)
    (attr : FFloatAttribute)
    (h : ∃ a ∈ c.AuthorityFloatAttributes, a.AttributeTag = attr.AttributeTag) :
    AddFloatAttribute c attr false = c := by
  obtain ⟨b, hb⟩ := find?_isSome_of_mem_tag h
  cases hA : c.HasAuthority <;> simp [AddFloatAttribute, hA, hb]

/-- C13 on the example component: adding an attribute with the existing tag and
other values (current value 150) without override changes nothing. -/
theorem C13_add_existing_without_override_is_noop_witness :
    (∃ a ∈ AuthorityComponent.AuthorityFloatAttributes,
      a.AttributeTag = OverfullHealth.AttributeTag) ∧
    AddFloatAttribute AuthorityComponent OverfullHealth false = AuthorityComponent :=
  have h : ∃ a ∈ AuthorityComponent.AuthorityFloatAttributes,
      a.AttributeTag = OverfullHealth.AttributeTag :=
    ⟨TestHealth, by simp [AuthorityComponent], rfl⟩
  ⟨h, C13_add_existing_without_override_is_noop AuthorityComponent OverfullHealth h⟩

/-- C14: for an attribute whose tag is not in the authoritative collection,
`AddFloatAttribute` appends it (with the regen timestamp set to the server time
when the component has authority) after the unchanged existing attributes and
sends exactly one `Added` event; afterwards, with authority,
`HasFloatAttribute(tag)` is true and `GetFloatAttributeValue(BaseValue, tag)`
returns the added base value with `found = true`. -/
theorem C14_add_new_attribute (c : USimpleGameplayAbilityComponent) (attr : FFloatAttribute)
    (ov p : Bool)
    (h : ∀ a ∈ c.AuthorityFloatAttributes, a.AttributeTag ≠ attr.AttributeTag) :
    (AddFloatAttribute c attr ov).AuthorityFloatAttributes =
      c.AuthorityFloatAttributes ++
        [if c.HasAuthority then { attr with LastRegenParamsUpdateTime_Server := c.GetServerTime }
          else attr] ∧
    (AddFloatAttribute c attr ov).LocalFloatAttributes = c.LocalFloatAttributes ∧
    (AddFloatAttribute c attr ov).SentEvents =
      c.SentEvents ++ [⟨FGameplayTag.Default FDefaultTags.FloatAttributeAdded,
        attr.AttributeTag, FInstancedStruct.Empty⟩] ∧
    (c.HasAuthority = true →
      HasFloatAttribute (AddFloatAttribute c attr ov) attr.AttributeTag = true ∧
      GetFloatAttributeValue (AddFloatAttribute c attr ov) EAttributeValueType.BaseValue
        attr.AttributeTag p = ⟨attr.BaseValue, true⟩) := by
  have hnone := find?_none_of_no_tag h
  cases hA : c.HasAuthority with
  | false =>
    simp [AddFloatAttribute, SendEvent, hA, hnone]
  | true =>
    have hnew : (c.AuthorityFloatAttributes ++
        [{ attr with LastRegenParamsUpdateTime_Server := c.GetServerTime }]).find?
        (fun x => decide (x.AttributeTag = attr.AttributeTag)) =
        some { attr with LastRegenParamsUpdateTime_Server := c.GetServerTime } :=
      find?_append_new h rfl
    simp [AddFloatAttribute, SendEvent, hA, hnone, HasFloatAttribute, GetFloatAttribute,
      RoleFloatAttributes, GetFloatAttributeValue, GetAuthoritativeCurrentValueWithRegen, hnew]

/-- C14 on the test's input: adding the example attribute (base 100, current 80)
to an empty authoritative component stores it, sends the one `Added` event with
the attribute's tag as domain, and the base value reads back as 100. -/
theorem C14_add_new_attribute_witness :
    (∀ a ∈ EmptyComponent.AuthorityFloatAttributes, a.AttributeTag ≠ TestHealth.AttributeTag) ∧
    (AddFloatAttribute EmptyComponent TestHealth false).SentEvents =
      [⟨FGameplayTag.Default FDefaultTags.FloatAttributeAdded, HealthTag,
        FInstancedStruct.Empty⟩] ∧
    HasFloatAttribute (AddFloatAttribute EmptyComponent TestHealth false) HealthTag = true ∧
    GetFloatAttributeValue (AddFloatAttribute EmptyComponent TestHealth false)
      EAttributeValueType.BaseValue HealthTag false = ⟨100, true⟩ := by
  have h : ∀ a ∈ EmptyComponent.AuthorityFloatAttributes,
      a.AttributeTag ≠ TestHealth.AttributeTag := by
    intro a ha; simp [EmptyComponent, AuthorityComponent] at ha
  obtain ⟨-, -, hev, hread⟩ := C14_add_new_attribute EmptyComponent TestHealth false false h
  exact ⟨h, hev, (hread rfl).1, (hread rfl).2⟩

theorem mem_FieldEvent {D t : FGameplayTag} {p : Prop} [Decidable p] {ev : FDefaultTags}
    {k : EAttributeValueType} {v : ℚ} {e : FSimpleEvent} (h : e ∈ FieldEvent D t p ev k v) :
    e.EventTag = FGameplayTag.Default ev ∧ e.DomainTag = D := by
  unfold FieldEvent at h
  split at h
  · rw [List.mem_singleton] at h
    subst h
    exact ⟨rfl, rfl⟩
  · simp at h

theorem mem_ExpectedDiffEvents {D : FGameplayTag} {Old New : FFloatAttribute} {e : FSimpleEvent}
    (h : e ∈ ExpectedDiffEvents D Old New) :
    e.DomainTag = D ∧
    e.EventTag ≠ FGameplayTag.Default FDefaultTags.FloatAttributeAdded ∧
    e.EventTag ≠ FGameplayTag.Default FDefaultTags.FloatAttributeRemoved := by
  simp only [ExpectedDiffEvents, List.mem_append] at h
  rcases h with ((((((h | h) | h) | h) | h) | h) | h) | h <;>
    · obtain ⟨h1, h2⟩ := mem_FieldEvent h
      rw [h1]
      exact ⟨h2, by simp, by simp⟩

theorem ExpectedDiffEvents_timestamp (D : FGameplayTag) (Old New : FFloatAttribute) (t : ℚ) :
    ExpectedDiffEvents D Old { New with LastRegenParamsUpdateTime_Server := t } =
      ExpectedDiffEvents D Old New := rfl

/-- C15: when an attribute `old` with the tag already exists,
`AddFloatAttribute(attr, overrideIfExists = true)` replaces it by `attr`, whose
regen timestamp becomes the server time with authority and stays as supplied
without; the other attributes are kept; the events sent are exactly those of
`CompareFloatAttributesAndSendEvents(old, attr)`, none of them an `Added`
event. -/
theorem C15_add_existing_with_override (c : USimpleGameplayAbilityComponent)
    (attr old : FFloatAttribute)
    (h : c.AuthorityFloatAttributes.find?
      (fun a => decide (a.AttributeTag = attr.AttributeTag)) = some old) :
    (AddFloatAttribute c attr true).AuthorityFloatAttributes.find?
        (fun a => decide (a.AttributeTag = attr.AttributeTag)) =
      some (if c.HasAuthority then
        { attr with LastRegenParamsUpdateTime_Server := c.GetServerTime } else attr) ∧
    (∀ tag, tag ≠ attr.AttributeTag →
      (AddFloatAttribute c attr true).AuthorityFloatAttributes.find?
          (fun a => decide (a.AttributeTag = tag)) =
        c.AuthorityFloatAttributes.find? (fun a => decide (a.AttributeTag = tag))) ∧
    (AddFloatAttribute c attr true).AuthorityFloatAttributes.length =
      c.AuthorityFloatAttributes.length ∧
    (AddFloatAttribute c attr true).LocalFloatAttributes = c.LocalFloatAttributes ∧
    (AddFloatAttribute c attr true).SentEvents =
      (CompareFloatAttributesAndSendEvents c old attr).SentEvents ∧
    (∃ L, (AddFloatAttribute c attr true).SentEvents = c.SentEvents ++ L ∧
      ∀ e ∈ L, e.EventTag ≠ FGameplayTag.Default FDefaultTags.FloatAttributeAdded) := by
  have hev : ∀ (c1 : USimpleGameplayAbilityComponent) (New : FFloatAttribute),
      c1.HasEventSubsystem = c.HasEventSubsystem → c1.HasAuthority = c.HasAuthority →
      c1.SentEvents = c.SentEvents →
      ExpectedDiffEvents (RoleDomain c) old New = ExpectedDiffEvents (RoleDomain c) old attr →
      (CompareFloatAttributesAndSendEvents c1 old New).SentEvents =
        (CompareFloatAttributesAndSendEvents c old attr).SentEvents := by
    intro c1 New h1 h2 h3 h4
    rw [CompareFloatAttributesAndSendEvents_SentEvents,
      CompareFloatAttributesAndSendEvents_SentEvents, h1, h3]
    simp only [RoleDomain, h2] at h4 ⊢
    rw [h4]
  have hlen : ∀ (New : FFloatAttribute) (l : List FFloatAttribute),
      (ReplaceFirst attr.AttributeTag New l).length = l.length := by
    intro New l
    induction l with
    | nil => rfl
    | cons b rest ih =>
      by_cases hb : b.AttributeTag = attr.AttributeTag
      · simp [ReplaceFirst, hb]
      · simp [ReplaceFirst, hb, ih]
  have hno : ∃ L, (CompareFloatAttributesAndSendEvents c old attr).SentEvents =
      c.SentEvents ++ L ∧
      ∀ e ∈ L, e.EventTag ≠ FGameplayTag.Default FDefaultTags.FloatAttributeAdded := by
    refine ⟨_, CompareFloatAttributesAndSendEvents_SentEvents c old attr, ?_⟩
    intro e he
    split at he
    · exact (mem_ExpectedDiffEvents he).2.1
    · simp at he
  have key : ∀ New : FFloatAttribute,
      New = (if c.HasAuthority then
        { attr with LastRegenParamsUpdateTime_Server := c.GetServerTime } else attr) →
      AddFloatAttribute c attr true = CompareFloatAttributesAndSendEvents
        { c with AuthorityFloatAttributes := ReplaceFirst attr.AttributeTag New c.AuthorityFloatAttributes }
        old New := by
    intro New hNew
    subst hNew
    cases hA : c.HasAuthority <;> simp [AddFloatAttribute, hA, h]
  have htag : (if c.HasAuthority then
      { attr with LastRegenParamsUpdateTime_Server := c.GetServerTime } else attr).AttributeTag =
      attr.AttributeTag := by
    split <;> rfl
  have hexp : ExpectedDiffEvents (RoleDomain c) old (if c.HasAuthority then
      { attr with LastRegenParamsUpdateTime_Server := c.GetServerTime } else attr) =
      ExpectedDiffEvents (RoleDomain c) old attr := by
    split
    · exact ExpectedDiffEvents_timestamp _ _ _ _
    · rfl
  generalize hNew : (if c.HasAuthority then
      { attr with LastRegenParamsUpdateTime_Server := c.GetServerTime } else attr) = New
    at htag hexp
  have hs := hev
    { c with AuthorityFloatAttributes := ReplaceFirst attr.AttributeTag New c.AuthorityFloatAttributes }
    New rfl rfl rfl hexp
  rw [key New hNew.symm]
  refine ⟨?_, ?_, ?_, ?_, hs, ?_⟩
  · simpa using find?_ReplaceFirst_same htag h
  · intro tag htag'
    simpa using find?_ReplaceFirst_other htag htag' c.AuthorityFloatAttributes
  · simpa using hlen New c.AuthorityFloatAttributes
  · simp
  · rw [hs]; exact hno

/-- C15 on the example component: overriding the example attribute (current 80)
by one with current value 150 stores it with the regen timestamp 3, the server
time, and sends the `CurrentValue` changed-event only. -/
theorem C15_add_existing_with_override_witness :
    AuthorityComponent.AuthorityFloatAttributes.find?
      (fun a => decide (a.AttributeTag = OverfullHealth.AttributeTag)) = some TestHealth ∧
    (AddFloatAttribute AuthorityComponent OverfullHealth true).AuthorityFloatAttributes.find?
        (fun a => decide (a.AttributeTag = OverfullHealth.AttributeTag)) =
      some { OverfullHealth with LastRegenParamsUpdateTime_Server := 3 } ∧
    (AddFloatAttribute AuthorityComponent OverfullHealth true).SentEvents =
      [⟨FGameplayTag.Default FDefaultTags.FloatAttributeCurrentValueChanged,
        FGameplayTag.Default FDefaultTags.AuthorityAttributeDomain,
        FInstancedStruct.FloatModification
          ⟨HealthTag, EAttributeValueType.CurrentValue, 150⟩⟩] := by
  have h : AuthorityComponent.AuthorityFloatAttributes.find?
      (fun a => decide (a.AttributeTag = OverfullHealth.AttributeTag)) = some TestHealth := by
    simp [AuthorityComponent, OverfullHealth, TestHealth]
  obtain ⟨hst, -, -, -, hev, -⟩ :=
    C15_add_existing_with_override AuthorityComponent OverfullHealth TestHealth h
  refine ⟨h, ?_, ?_⟩
  · rw [hst]; simp [AuthorityComponent]
  · rw [hev, CompareFloatAttributesAndSendEvents_SentEvents]
    norm_num [ExpectedDiffEvents, FieldEvent, RoleDomain, AuthorityComponent, OverfullHealth,
      TestHealth, TestLimits]

/-- C16: `RemoveFloatAttribute(tag)` leaves in the authoritative collection
exactly the attributes with another tag, in their order, and sends exactly one
`Removed` event whether or not the tag was present; afterwards, with authority,
`HasFloatAttribute(tag)` is false and `GetFloatAttributeValue` reports
`found = false` for every kind. -/
theorem C16_remove_float_attribute (c : USimpleGameplayAbilityComponent) (tag : FGameplayTag) :
    (∀ a, a ∈ (RemoveFloatAttribute c tag).AuthorityFloatAttributes ↔
      a ∈ c.AuthorityFloatAttributes ∧ a.AttributeTag ≠ tag) ∧
    List.Sublist (RemoveFloatAttribute c tag).AuthorityFloatAttributes
      c.AuthorityFloatAttributes ∧
    ((∀ a ∈ c.AuthorityFloatAttributes, a.AttributeTag ≠ tag) →
      (RemoveFloatAttribute c tag).AuthorityFloatAttributes = c.AuthorityFloatAttributes) ∧
    (RemoveFloatAttribute c tag).LocalFloatAttributes = c.LocalFloatAttributes ∧
    (RemoveFloatAttribute c tag).SentEvents =
      c.SentEvents ++ [⟨FGameplayTag.Default FDefaultTags.FloatAttributeRemoved, tag,
        FInstancedStruct.Empty⟩] ∧
    (c.HasAuthority = true →
      HasFloatAttribute (RemoveFloatAttribute c tag) tag = false ∧
      ∀ (k : EAttributeValueType) (p : Bool),
        (GetFloatAttributeValue (RemoveFloatAttribute c tag) k tag p).WasFound = false) := by
  have hfind : (c.AuthorityFloatAttributes.filter
      (fun a => ¬ decide (a.AttributeTag = tag))).find?
      (fun a => decide (a.AttributeTag = tag)) = none := by
    rw [List.find?_eq_none]
    intro a ha
    simpa using (List.mem_filter.mp ha).2
  refine ⟨?_, ?_, ?_, ?_, ?_, ?_⟩
  · intro a
    simp [RemoveFloatAttribute, SendEvent, List.mem_filter]
  · simp only [RemoveFloatAttribute, SendEvent]
    exact List.filter_sublist _
  · intro h
    simp only [RemoveFloatAttribute, SendEvent]
    rw [List.filter_eq_self]
    intro a ha
    simpa using h a ha
  · simp [RemoveFloatAttribute, SendEvent]
  · simp [RemoveFloatAttribute, SendEvent]
  · intro hA
    refine ⟨?_, fun k p => ?_⟩
    · simp only [HasFloatAttribute, GetFloatAttribute, RoleFloatAttributes, RemoveFloatAttribute,
        SendEvent, hA, if_true, hfind]
      rfl
    · simp only [GetFloatAttributeValue, RemoveFloatAttribute, SendEvent, hA, if_true, hfind]

theorem SetFloatAttributeValue_events_domain (c : USimpleGameplayAbilityComponent)
    (k : EAttributeValueType) (tag : FGameplayTag) (v o : ℚ) :
    ∃ L, (SetFloatAttributeValue c k tag v o).Component.SentEvents = c.SentEvents ++ L ∧
      ∀ e ∈ L, e.DomainTag = RoleDomain c := by
  cases h : GetFloatAttribute c tag with
  | none => exact ⟨[], by simp [SetFloatAttributeValue, h], by simp⟩
  | some a =>
    cases he : c.HasEventSubsystem with
    | false =>
      refine ⟨[], ?_, by simp⟩
      cases k <;> simp [SetFloatAttributeValue, h, SendFloatAttributeChangedEvent, he]
    | true =>
      by_cases hk : ∀ n, k ≠ EAttributeValueType.Unsupported n
      · obtain ⟨e, he1, he2⟩ := SetFloatAttributeValue_one_event k v o h he hk
        exact ⟨[e], he1, by simpa using he2⟩
      · refine ⟨[], ?_, by simp⟩
        push_neg at hk
        obtain ⟨n, hn⟩ := hk
        subst hn
        simp [SetFloatAttributeValue, h]

theorem AddFloatAttribute_new_SentEvents (c : USimpleGameplayAbilityComponent)
    (attr : FFloatAttribute) (ov : Bool)
    (h : ∀ a ∈ c.AuthorityFloatAttributes, a.AttributeTag ≠ attr.AttributeTag) :
    (AddFloatAttribute c attr ov).SentEvents = c.SentEvents ++
      [⟨FGameplayTag.Default FDefaultTags.FloatAttributeAdded, attr.AttributeTag,
        FInstancedStruct.Empty⟩] := by
  have hnone := find?_none_of_no_tag h
  cases hA : c.HasAuthority <;> simp [AddFloatAttribute, SendEvent, hA, hnone]

/-- C17: the `Added` and `Removed` events of `AddFloatAttribute`,
`RemoveFloatAttribute` and the replication callbacks carry the attribute's own
tag as domain tag; every float value-changed event (sent by
`SendFloatAttributeChangedEvent`, hence by `SetFloatAttributeValue` and
`CompareFloatAttributesAndSendEvents`) carries the role's domain,
`AuthorityAttributeDomain` with authority and `LocalAttributeDomain` without,
whatever the attribute's tag. -/
theorem C17_event_domain_convention (c : USimpleGameplayAbilityComponent) :
    (∀ (attr : FFloatAttribute) (ov : Bool),
      (∀ a ∈ c.AuthorityFloatAttributes, a.AttributeTag ≠ attr.AttributeTag) →
      (AddFloatAttribute c attr ov).SentEvents = c.SentEvents ++
        [⟨FGameplayTag.Default FDefaultTags.FloatAttributeAdded, attr.AttributeTag,
          FInstancedStruct.Empty⟩]) ∧
    (∀ tag : FGameplayTag,
      (RemoveFloatAttribute c tag).SentEvents = c.SentEvents ++
        [⟨FGameplayTag.Default FDefaultTags.FloatAttributeRemoved, tag,
          FInstancedStruct.Empty⟩]) ∧
    (∀ (eq : FFloatAttribute → FFloatAttribute → Bool) (attr : FFloatAttribute),
      (OnFloatAttributeAdded eq c attr).SentEvents = c.SentEvents ++
        [⟨FGameplayTag.Default FDefaultTags.FloatAttributeAdded, attr.AttributeTag,
          FInstancedStruct.Empty⟩] ∧
      (OnFloatAttributeRemoved eq c attr).SentEvents = c.SentEvents ++
        [⟨FGameplayTag.Default FDefaultTags.FloatAttributeRemoved, attr.AttributeTag,
          FInstancedStruct.Empty⟩] ∧
      ((∀ a ∈ c.LocalFloatAttributes, a.AttributeTag ≠ attr.AttributeTag) →
        (OnFloatAttributeChanged eq c attr).SentEvents = c.SentEvents ++
          [⟨FGameplayTag.Default FDefaultTags.FloatAttributeAdded, attr.AttributeTag,
            FInstancedStruct.Empty⟩])) ∧
    (∀ (e : FDefaultTags) (tag : FGameplayTag) (k : EAttributeValueType) (v : ℚ),
      ∃ L, (SendFloatAttributeChangedEvent c e tag k v).SentEvents = c.SentEvents ++ L ∧
        ∀ ev ∈ L, ev.DomainTag = RoleDomain c ∧ (tag ≠ RoleDomain c → ev.DomainTag ≠ tag)) ∧
    (∀ (k : EAttributeValueType) (tag : FGameplayTag) (v o : ℚ),
      ∃ L, (SetFloatAttributeValue c k tag v o).Component.SentEvents = c.SentEvents ++ L ∧
        ∀ ev ∈ L, ev.DomainTag = RoleDomain c) ∧
    (∀ Old New : FFloatAttribute,
      ∃ L, (CompareFloatAttributesAndSendEvents c Old New).SentEvents = c.SentEvents ++ L ∧
        ∀ ev ∈ L, ev.DomainTag = RoleDomain c) ∧
    (c.HasAuthority = true →
      RoleDomain c = FGameplayTag.Default FDefaultTags.AuthorityAttributeDomain) ∧
    (c.HasAuthority = false →
      RoleDomain c = FGameplayTag.Default FDefaultTags.LocalAttributeDomain) := by
  refine ⟨fun attr ov h => (AddFloatAttribute_new_SentEvents c attr ov h), fun tag => ?_,
    fun eq attr => ⟨?_, ?_, fun h => ?_⟩, fun e tag k v => ?_,
    fun k tag v o => SetFloatAttributeValue_events_domain c k tag v o,
    fun Old New => ?_, fun hA => by simp [RoleDomain, hA], fun hA => by simp [RoleDomain, hA]⟩
  · simp [RemoveFloatAttribute, SendEvent]
  · simp [OnFloatAttributeAdded, SendEvent]
  · simp [OnFloatAttributeRemoved, SendEvent]
  · simp [OnFloatAttributeChanged, SendEvent, find?_none_of_no_tag h]
  · have hs := ite_Send_SentEvents True c e tag k v
    rw [if_pos trivial] at hs
    refine ⟨_, hs, fun ev hev => ?_⟩
    split at hev
    · have hd := (mem_FieldEvent hev).2
      exact ⟨hd, fun hne => hd ▸ fun h => hne h.symm⟩
    · simp at hev
  · refine ⟨_, CompareFloatAttributesAndSendEvents_SentEvents c Old New, fun ev hev => ?_⟩
    split at hev
    · exact (mem_ExpectedDiffEvents hev).1
    · simp at hev

/-! ## Increment -/

theorem GetFloatAttribute_of_WasFound {c : USimpleGameplayAbilityComponent}
    {k : EAttributeValueType} {tag : FGameplayTag} {p : Bool}
    (h : (GetFloatAttributeValue c k tag p).WasFound = true) :
    ∃ a, GetFloatAttribute c tag = some a := by
  cases hA : c.HasAuthority with
  | true =>
    cases hf : c.AuthorityFloatAttributes.find? (fun a => decide (a.AttributeTag = tag)) with
    | some a => exact ⟨a, by simp [GetFloatAttribute, RoleFloatAttributes, hA, hf]⟩
    | none => simp [GetFloatAttributeValue, hA, hf] at h
  | false =>
    cases hf : c.LocalFloatAttributes.find? (fun a => decide (a.AttributeTag = tag)) with
    | some a => exact ⟨a, by simp [GetFloatAttribute, RoleFloatAttributes, hA, hf]⟩
    | none => simp [GetFloatAttributeValue, hA, hf] at h

/-- C18: `IncrementFloatAttributeValue(kind, tag, delta)` returns false and leaves
the component (attributes and events) and overflow unchanged when
`GetFloatAttributeValue(kind, tag)`, read without prediction, reports not found;
otherwise it equals, in result, final state and events,
`SetFloatAttributeValue(kind, tag, c + delta)` for the value `c` that read
returns, and it returns true. -/
theorem C18_increment_delegates_to_set (c : USimpleGameplayAbilityComponent)
    (k : EAttributeValueType) (tag : FGameplayTag) (d o : ℚ) :
    bPredictIfClient_Default = false ∧
    ((GetFloatAttributeValue c k tag false).WasFound = false →
      IncrementFloatAttributeValue c k tag d o = ⟨false, o, c⟩) ∧
    ((GetFloatAttributeValue c k tag false).WasFound = true →
      IncrementFloatAttributeValue c k tag d o =
        SetFloatAttributeValue c k tag ((GetFloatAttributeValue c k tag false).Value + d) o ∧
      (IncrementFloatAttributeValue c k tag d o).Applied = true) := by
  refine ⟨rfl, fun h => ?_, fun h => ?_⟩
  · simp [IncrementFloatAttributeValue, bPredictIfClient_Default, h]
  · have he : IncrementFloatAttributeValue c k tag d o =
        SetFloatAttributeValue c k tag ((GetFloatAttributeValue c k tag false).Value + d) o := by
      simp [IncrementFloatAttributeValue, bPredictIfClient_Default, h]
    obtain ⟨a, ha⟩ := GetFloatAttribute_of_WasFound h
    exact ⟨he, by rw [he]; exact SetFloatAttributeValue_Applied k _ o ha⟩

/-- C18 on the tests' inputs: with current value 90, an increment by 5 stores 95;
for an attribute regenerating at rate 10 from 20 since time 0, an increment by
25 at time 1 reads 30 and stores 55. -/
theorem C18_increment_delegates_to_set_witness :
    (∃ a', GetFloatAttribute
        (IncrementFloatAttributeValue (AuthorityWith { TestHealth with CurrentValue := 90 } 3)
          EAttributeValueType.CurrentValue HealthTag 5 0).Component HealthTag = some a' ∧
      a'.CurrentValue = 95) ∧
    (GetFloatAttributeValue (AuthorityWith (Stamina 20 10) 1)
      EAttributeValueType.CurrentValue HealthTag false).Value = 30 ∧
    (∃ a', GetFloatAttribute
        (IncrementFloatAttributeValue (AuthorityWith (Stamina 20 10) 1)
          EAttributeValueType.CurrentValue HealthTag 25 0).Component HealthTag = some a' ∧
      a'.CurrentValue = 55) := by
  have hf1 : GetFloatAttribute (AuthorityWith { TestHealth with CurrentValue := 90 } 3) HealthTag
      = some { TestHealth with CurrentValue := 90 } := by
    simp [GetFloatAttribute, RoleFloatAttributes, AuthorityWith, TestHealth]
  have hf2 : GetFloatAttribute (AuthorityWith (Stamina 20 10) 1) HealthTag
      = some (Stamina 20 10) := by
    simp [GetFloatAttribute, RoleFloatAttributes, AuthorityWith, Stamina]
  have hr1 : GetFloatAttributeValue (AuthorityWith { TestHealth with CurrentValue := 90 } 3)
      EAttributeValueType.CurrentValue HealthTag false = ⟨90, true⟩ := by
    rw [GetFloatAttributeValue_authority _ _ rfl hf1]
    simp [GetAuthoritativeCurrentValueWithRegen, TestHealth]
  have hr2 : GetFloatAttributeValue (AuthorityWith (Stamina 20 10) 1)
      EAttributeValueType.CurrentValue HealthTag false = ⟨30, true⟩ := by
    rw [GetFloatAttributeValue_authority _ _ rfl hf2]
    norm_num [GetAuthoritativeCurrentValueWithRegen, PredictRegen, ClampFloatAttributeValue,
      FMath_Max, Stamina, AuthorityWith]
  have h1 := ((C18_increment_delegates_to_set
    (AuthorityWith { TestHealth with CurrentValue := 90 } 3)
    EAttributeValueType.CurrentValue HealthTag 5 0).2.2 (by rw [hr1])).1
  have h2 := ((C18_increment_delegates_to_set (AuthorityWith (Stamina 20 10) 1)
    EAttributeValueType.CurrentValue HealthTag 25 0).2.2 (by rw [hr2])).1
  rw [hr1] at h1
  rw [hr2] at h2
  refine ⟨?_, by rw [hr2], ?_⟩
  · rw [h1]
    obtain ⟨a', hget, hcur, -, -⟩ := SetFloatAttributeValue_CurrentValue_stored (90 + 5) 0 hf1
    refine ⟨a', hget, ?_⟩
    rw [hcur]
    norm_num [ClampFloatAttributeValue, TestHealth, TestLimits]
  · rw [h2]
    obtain ⟨a', hget, hcur, -, -⟩ := SetFloatAttributeValue_CurrentValue_stored (30 + 25) 0 hf2
    refine ⟨a', hget, ?_⟩
    rw [hcur]
    norm_num [ClampFloatAttributeValue, Stamina]

/-! ## Regeneration and discrete sets on the authoritative side -/

@[simp] theorem AdvanceTime_HasAuthority (c : USimpleGameplayAbilityComponent) (d : ℚ) :
    (AdvanceTime c d).HasAuthority = c.HasAuthority := rfl

@[simp] theorem AdvanceTime_GetServerTime (c : USimpleGameplayAbilityComponent) (d : ℚ) :
    (AdvanceTime c d).GetServerTime = c.GetServerTime + d := rfl

@[simp] theorem GetFloatAttribute_AdvanceTime (c : USimpleGameplayAbilityComponent) (d : ℚ)
    (tag : FGameplayTag) : GetFloatAttribute (AdvanceTime c d) tag = GetFloatAttribute c tag := rfl

theorem FMath_Max_zero_of_nonneg {d : ℚ} (hd : 0 ≤ d) : FMath_Max 0 d = d := by
  unfold FMath_Max
  split_ifs with h
  · exact le_antisymm hd (le_of_lt h)
  · rfl

theorem ClampFloatAttributeValue_of_within {a : FFloatAttribute} {k : EAttributeValueType}
    {x : ℚ} (o : ℚ) (h : ViolatesNoBound a k x) : ClampFloatAttributeValue a k x o = (x, o) := by
  cases k <;> simp only [ClampFloatAttributeValue]
  · have h1 : ¬ (a.ValueLimits.UseMaxBaseValue = true ∧ x > a.ValueLimits.MaxBaseValue) :=
      fun hx => absurd (h.1 hx.1) (not_le.mpr hx.2)
    have h2 : ¬ (a.ValueLimits.UseMinBaseValue = true ∧ x < a.ValueLimits.MinBaseValue) :=
      fun hx => absurd (h.2 hx.1) (not_le.mpr hx.2)
    rw [if_neg h1, if_neg h2]
  · have h1 : ¬ (a.ValueLimits.UseMaxCurrentValue = true ∧ x > a.ValueLimits.MaxCurrentValue) :=
      fun hx => absurd (h.1 hx.1) (not_le.mpr hx.2)
    have h2 : ¬ (a.ValueLimits.UseMinCurrentValue = true ∧ x < a.ValueLimits.MinCurrentValue) :=
      fun hx => absurd (h.2 hx.1) (not_le.mpr hx.2)
    rw [if_neg h1, if_neg h2]

theorem PredictRegen_after {a' : FFloatAttribute} {t d : ℚ}
    (hts : a'.LastRegenParamsUpdateTime_Server = t) (hd : 0 ≤ d) :
    PredictRegen a' (t + d) =
      (ClampFloatAttributeValue a' EAttributeValueType.CurrentValue
        (a'.CurrentValue + a'.CurrentRegenRate * d) 0).1 := by
  unfold PredictRegen
  rw [hts, add_sub_cancel_left, FMath_Max_zero_of_nonneg hd]

theorem SetFloatAttributeValue_CurrentValue_stored_authority
    {c : USimpleGameplayAbilityComponent} {tag : FGameplayTag} {a : FFloatAttribute} (v o : ℚ)
    (hA : c.HasAuthority = true) (h : GetFloatAttribute c tag = some a) :
    GetFloatAttribute
        (SetFloatAttributeValue c EAttributeValueType.CurrentValue tag v o).Component tag =
      some { a with
        CurrentValue := (ClampFloatAttributeValue a EAttributeValueType.CurrentValue v o).1
        LastRegenParamsUpdateTime_Server := c.GetServerTime } := by
  have ht := GetFloatAttribute_tag h
  simp only [SetFloatAttributeValue, h, GetFloatAttribute_SendFloatAttributeChangedEvent]
  rw [GetFloatAttribute_WriteFloatAttribute h (by split_ifs <;> exact ht)]
  cases hR : a.bIsRegenerating <;> simp [hA, hR]

/-- C19: with authority, for every existing attribute, regenerating or not, and
every value `v`, after `SetFloatAttributeValue(CurrentValue, tag, v)` at server
time `t` the stored current value is `clamp(v)`, whatever regeneration had
accrued, and the regen timestamp is `t`. A read at the same time returns
`clamp(v)` (for a regenerating attribute under the clamping precondition
`min ≤ max` of the enabled current bounds), and for a regenerating attribute a
read after the clock advanced by `d ≥ 0` returns
`clamp(clamp(v) + currentRegenRate * d)`. -/
theorem C19_discrete_set_during_regeneration (c : USimpleGameplayAbilityComponent)
    (tag : FGameplayTag) (a : FFloatAttribute) (v o : ℚ)
    (hA : c.HasAuthority = true) (h : GetFloatAttribute c tag = some a) :
    (∃ a', GetFloatAttribute
        (SetFloatAttributeValue c EAttributeValueType.CurrentValue tag v o).Component tag
          = some a' ∧
      a'.CurrentValue = (ClampFloatAttributeValue a EAttributeValueType.CurrentValue v o).1 ∧
      a'.LastRegenParamsUpdateTime_Server = c.GetServerTime ∧
      a'.CurrentRegenRate = a.CurrentRegenRate ∧ a'.bIsRegenerating = a.bIsRegenerating) ∧
    ((a.bIsRegenerating = true →
        a.ValueLimits.UseMaxCurrentValue = true → a.ValueLimits.UseMinCurrentValue = true →
        a.ValueLimits.MinCurrentValue ≤ a.ValueLimits.MaxCurrentValue) →
      ∀ p : Bool, GetFloatAttributeValue
          (SetFloatAttributeValue c EAttributeValueType.CurrentValue tag v o).Component
          EAttributeValueType.CurrentValue tag p =
        ⟨(ClampFloatAttributeValue a EAttributeValueType.CurrentValue v o).1, true⟩) ∧
    (a.bIsRegenerating = true → ∀ (d : ℚ) (p : Bool), 0 ≤ d →
      GetFloatAttributeValue
          (AdvanceTime
            (SetFloatAttributeValue c EAttributeValueType.CurrentValue tag v o).Component d)
          EAttributeValueType.CurrentValue tag p =
        ⟨(ClampFloatAttributeValue a EAttributeValueType.CurrentValue
          ((ClampFloatAttributeValue a EAttributeValueType.CurrentValue v o).1 +
            a.CurrentRegenRate * d) 0).1, true⟩) := by
  have hst := SetFloatAttributeValue_CurrentValue_stored_authority v o hA h
  have hA' := (SetFloatAttributeValue_HasAuthority c
    EAttributeValueType.CurrentValue tag v o).trans hA
  have hT := SetFloatAttributeValue_GetServerTime c EAttributeValueType.CurrentValue tag v o
  have hlater : a.bIsRegenerating = true → ∀ (d : ℚ) (p : Bool), 0 ≤ d →
      GetFloatAttributeValue
          (AdvanceTime
            (SetFloatAttributeValue c EAttributeValueType.CurrentValue tag v o).Component d)
          EAttributeValueType.CurrentValue tag p =
        ⟨(ClampFloatAttributeValue a EAttributeValueType.CurrentValue
          ((ClampFloatAttributeValue a EAttributeValueType.CurrentValue v o).1 +
            a.CurrentRegenRate * d) 0).1, true⟩ := by
    intro hR d p hd
    rw [GetFloatAttributeValue_authority _ p (by simpa using hA') (by simpa using hst)]
    simp only [GetAuthoritativeCurrentValueWithRegen, hR, if_true, AdvanceTime_GetServerTime, hT]
    rw [PredictRegen_after rfl hd]
    congr 1
  refine ⟨⟨_, hst, rfl, rfl, rfl, rfl⟩, fun hmm p => ?_, hlater⟩
  cases hR : a.bIsRegenerating with
  | false =>
    rw [GetFloatAttributeValue_authority _ p hA' hst]
    simp [GetAuthoritativeCurrentValueWithRegen, hR]
  | true =>
    have h0 := hlater hR 0 p (le_refl 0)
    have hadv : AdvanceTime
        (SetFloatAttributeValue c EAttributeValueType.CurrentValue tag v o).Component 0 =
        (SetFloatAttributeValue c EAttributeValueType.CurrentValue tag v o).Component := by
      simp [AdvanceTime]
    rw [hadv, mul_zero, add_zero] at h0
    rw [h0, ClampFloatAttributeValue_of_within 0
      (ClampFloatAttributeValue_CurrentValue_within a v o (hmm hR))]

/-- C19 on the test's input: an attribute regenerating at rate 15 (max current
bound 150) is set to 100 at time 1; a read at time 1 returns 100 and a read one
time unit later returns 115. -/
theorem C19_discrete_set_during_regeneration_witness :
    (AuthorityWith (Stamina 30 15) 1).HasAuthority = true ∧
    GetFloatAttribute (AuthorityWith (Stamina 30 15) 1) HealthTag = some (Stamina 30 15) ∧
    GetFloatAttributeValue
      (SetFloatAttributeValue (AuthorityWith (Stamina 30 15) 1)
        EAttributeValueType.CurrentValue HealthTag 100 0).Component
      EAttributeValueType.CurrentValue HealthTag false = ⟨100, true⟩ ∧
    GetFloatAttributeValue
      (AdvanceTime (SetFloatAttributeValue (AuthorityWith (Stamina 30 15) 1)
        EAttributeValueType.CurrentValue HealthTag 100 0).Component 1)
      EAttributeValueType.CurrentValue HealthTag false = ⟨115, true⟩ := by
  have hf : GetFloatAttribute (AuthorityWith (Stamina 30 15) 1) HealthTag
      = some (Stamina 30 15) := by
    simp [GetFloatAttribute, RoleFloatAttributes, AuthorityWith, Stamina]
  obtain ⟨-, hnow, hlater⟩ := C19_discrete_set_during_regeneration
    (AuthorityWith (Stamina 30 15) 1) HealthTag (Stamina 30 15) 100 0 rfl hf
  refine ⟨rfl, hf, ?_, ?_⟩
  · rw [hnow (fun _ _ hmin => by simp [Stamina] at hmin) false]
    norm_num [ClampFloatAttributeValue, Stamina]
  · rw [hlater rfl 1 false (by norm_num)]
    norm_num [ClampFloatAttributeValue, Stamina]

theorem SetFloatAttributeValue_CurrentRegeneration_stored_authority
    {c : USimpleGameplayAbilityComponent} {tag : FGameplayTag} {a : FFloatAttribute} (r2 o : ℚ)
    (hA : c.HasAuthority = true) (h : GetFloatAttribute c tag = some a) :
    GetFloatAttribute
        (SetFloatAttributeValue c EAttributeValueType.CurrentRegeneration tag r2 o).Component tag =
      some { a with
        CurrentValue :=
          if a.bIsRegenerating then
            (ClampFloatAttributeValue a EAttributeValueType.CurrentValue
              (PredictRegen a c.GetServerTime) 0).1
          else a.CurrentValue
        CurrentRegenRate := r2
        LastRegenParamsUpdateTime_Server := c.GetServerTime } := by
  have ht := GetFloatAttribute_tag h
  simp only [SetFloatAttributeValue, h, GetFloatAttribute_SendFloatAttributeChangedEvent]
  rw [GetFloatAttribute_WriteFloatAttribute h (by split_ifs <;> exact ht)]
  cases hR : a.bIsRegenerating <;>
    simp [hA, hR, GetAuthoritativeCurrentValueWithRegen]

/-- C20: with authority, for a regenerating attribute,
`SetFloatAttributeValue(CurrentRegenRate, tag, r2)` at server time `t` commits
`currentValue := clamp(value predicted under the old rate at t)`, stores
`currentRegenRate = r2` and regen timestamp `t`, so a read after the clock
advanced by `d ≥ 0` returns `clamp(committed + r2 * d)`. For a non-regenerating
attribute the current value is unchanged. -/
theorem C20_rate_change_commits_regen (c : USimpleGameplayAbilityComponent)
    (tag : FGameplayTag) (a : FFloatAttribute) (r2 o : ℚ)
    (hA : c.HasAuthority = true) (h : GetFloatAttribute c tag = some a) :
    (a.bIsRegenerating = true →
      ∃ a', GetFloatAttribute
          (SetFloatAttributeValue c EAttributeValueType.CurrentRegeneration tag r2 o).Component
          tag = some a' ∧
        a'.CurrentValue = (ClampFloatAttributeValue a EAttributeValueType.CurrentValue
          (PredictRegen a c.GetServerTime) 0).1 ∧
        a'.CurrentRegenRate = r2 ∧
        a'.LastRegenParamsUpdateTime_Server = c.GetServerTime ∧
        ∀ (d : ℚ) (p : Bool), 0 ≤ d →
          GetFloatAttributeValue
              (AdvanceTime (SetFloatAttributeValue c EAttributeValueType.CurrentRegeneration
                tag r2 o).Component d)
              EAttributeValueType.CurrentValue tag p =
            ⟨(ClampFloatAttributeValue a EAttributeValueType.CurrentValue
              (a'.CurrentValue + r2 * d) 0).1, true⟩) ∧
    (a.bIsRegenerating = false →
      ∃ a', GetFloatAttribute
          (SetFloatAttributeValue c EAttributeValueType.CurrentRegeneration tag r2 o).Component
          tag = some a' ∧
        a'.CurrentValue = a.CurrentValue ∧ a'.CurrentRegenRate = r2 ∧
        a'.LastRegenParamsUpdateTime_Server = c.GetServerTime) := by
  have hst := SetFloatAttributeValue_CurrentRegeneration_stored_authority r2 o hA h
  have hA' := (SetFloatAttributeValue_HasAuthority c
    EAttributeValueType.CurrentRegeneration tag r2 o).trans hA
  have hT := SetFloatAttributeValue_GetServerTime c EAttributeValueType.CurrentRegeneration
    tag r2 o
  constructor
  · intro hR
    rw [hR] at hst
    refine ⟨_, hst, by simp, rfl, rfl, fun d p hd => ?_⟩
    rw [GetFloatAttributeValue_authority _ p (by simpa using hA') (by simpa using hst)]
    simp only [GetAuthoritativeCurrentValueWithRegen, if_true, AdvanceTime_GetServerTime, hT]
    rw [PredictRegen_after rfl hd]
    congr 1
  · intro hR
    rw [hR] at hst
    exact ⟨_, hst, by simp, rfl, rfl⟩

/-- C20 on the test's input: 50 regenerating at rate 10 since time 0 is committed
as 70 when the rate becomes 20 at time 2, and reads 130 three time units
later. -/
theorem C20_rate_change_commits_regen_witness :
    (AuthorityWith (Stamina 50 10) 2).HasAuthority = true ∧
    GetFloatAttribute (AuthorityWith (Stamina 50 10) 2) HealthTag = some (Stamina 50 10) ∧
    (∃ a', GetFloatAttribute
        (SetFloatAttributeValue (AuthorityWith (Stamina 50 10) 2)
          EAttributeValueType.CurrentRegeneration HealthTag 20 0).Component HealthTag
          = some a' ∧ a'.CurrentValue = 70 ∧ a'.CurrentRegenRate = 20) ∧
    GetFloatAttributeValue
      (AdvanceTime (SetFloatAttributeValue (AuthorityWith (Stamina 50 10) 2)
        EAttributeValueType.CurrentRegeneration HealthTag 20 0).Component 3)
      EAttributeValueType.CurrentValue HealthTag false = ⟨130, true⟩ := by
  have hf : GetFloatAttribute (AuthorityWith (Stamina 50 10) 2) HealthTag
      = some (Stamina 50 10) := by
    simp [GetFloatAttribute, RoleFloatAttributes, AuthorityWith, Stamina]
  obtain ⟨a', hget, hcur, hrate, -, hlater⟩ := (C20_rate_change_commits_regen
    (AuthorityWith (Stamina 50 10) 2) HealthTag (Stamina 50 10) 20 0 rfl hf).1 rfl
  have h70 : a'.CurrentValue = 70 := by
    rw [hcur]
    norm_num [PredictRegen, ClampFloatAttributeValue, FMath_Max, Stamina, AuthorityWith]
  refine ⟨rfl, hf, ⟨a', hget, h70, hrate⟩, ?_⟩
  rw [hlater 3 false (by norm_num), h70]
  norm_num [ClampFloatAttributeValue, Stamina]

/-! ## Frame of a set, and reads on the local mirror -/

theorem GetFloatAttribute_WriteFloatAttribute_other {c : USimpleGameplayAbilityComponent}
    {tag tag' : FGameplayTag} {New : FFloatAttribute}
    (hN : New.AttributeTag = tag) (hne : tag' ≠ tag) :
    GetFloatAttribute (WriteFloatAttribute c tag New) tag' = GetFloatAttribute c tag' := by
  unfold GetFloatAttribute RoleFloatAttributes WriteFloatAttribute
  cases hA : c.HasAuthority
  · simpa [hA] using find?_ReplaceFirst_other hN hne c.LocalFloatAttributes
  · simpa [hA] using find?_ReplaceFirst_other hN hne c.AuthorityFloatAttributes

theorem GetFloatAttributeValue_client_current {c : USimpleGameplayAbilityComponent}
    {tag : FGameplayTag} {a : FFloatAttribute} (p : Bool)
    (hA : c.HasAuthority = false) (h : GetFloatAttribute c tag = some a) :
    GetFloatAttributeValue c EAttributeValueType.CurrentValue tag p =
      if p = true then
        if a.bIsRegenerating = true ∧ a.CurrentRegenRate ≠ 0 then
          ⟨(ClampFloatAttributeValue a EAttributeValueType.CurrentValue
            (a.CurrentValue + a.CurrentRegenRate *
              FMath_Max 0 (c.GetServerTime - a.LastRegenParamsUpdateTime_Server)) 0).1, true⟩
        else
          ⟨(ClampFloatAttributeValue a EAttributeValueType.CurrentValue a.CurrentValue 0).1, true⟩
      else ⟨a.CurrentValue, true⟩ := by
  simp only [GetFloatAttribute, RoleFloatAttributes, hA, Bool.false_eq_true, if_false] at h
  cases p <;> simp [GetFloatAttributeValue, hA, h]

theorem SetFloatAttributeValue_BaseRegeneration_stored {c : USimpleGameplayAbilityComponent}
    {tag : FGameplayTag} {a : FFloatAttribute} (x o : ℚ)
    (h : GetFloatAttribute c tag = some a) :
    GetFloatAttribute
        (SetFloatAttributeValue c EAttributeValueType.BaseRegeneration tag x o).Component tag =
      some { a with BaseRegenRate := x } := by
  simp only [SetFloatAttributeValue, h, GetFloatAttribute_SendFloatAttributeChangedEvent]
  have ht : a.AttributeTag = tag := GetFloatAttribute_tag h
  exact GetFloatAttribute_WriteFloatAttribute h ht

theorem GetFloatAttributeValue_current_congr {c1 c2 : USimpleGameplayAbilityComponent}
    {tag : FGameplayTag} {a : FFloatAttribute} (x : ℚ) (p : Bool)
    (hA : c1.HasAuthority = c2.HasAuthority) (hT : c1.GetServerTime = c2.GetServerTime)
    (h1 : GetFloatAttribute c1 tag = some { a with BaseRegenRate := x })
    (h2 : GetFloatAttribute c2 tag = some a) :
    GetFloatAttributeValue c1 EAttributeValueType.CurrentValue tag p =
      GetFloatAttributeValue c2 EAttributeValueType.CurrentValue tag p := by
  cases hA2 : c2.HasAuthority with
  | true =>
    rw [GetFloatAttributeValue_authority _ p (hA.trans hA2) h1,
      GetFloatAttributeValue_authority _ p hA2 h2]
    simp only [GetAuthoritativeCurrentValueWithRegen, PredictRegen, ClampFloatAttributeValue, hT]
  | false =>
    rw [GetFloatAttributeValue_client_current p (hA.trans hA2) h1,
      GetFloatAttributeValue_client_current p hA2 h2]
    simp only [ClampFloatAttributeValue, hT]

/-- C21: for an existing attribute, regenerating or not, on either role,
`SetFloatAttributeValue(BaseRegenRate, tag, x)` stores `x` unclamped as the base
regen rate and changes nothing else: the stored attribute keeps every other
field, the attributes with other tags are untouched, overflow is untouched, and
the current value read at any later time, with or without prediction, is the
same as without the call. -/
theorem C21_base_regen_rate_set_changes_only_that_field (c : USimpleGameplayAbilityComponent)
    (tag : FGameplayTag) (a : FFloatAttribute) (x o : ℚ)
    (h : GetFloatAttribute c tag = some a) :
    GetFloatAttribute
        (SetFloatAttributeValue c EAttributeValueType.BaseRegeneration tag x o).Component tag =
      some { a with BaseRegenRate := x } ∧
    (∀ tag', tag' ≠ tag →
      GetFloatAttribute
          (SetFloatAttributeValue c EAttributeValueType.BaseRegeneration tag x o).Component tag' =
        GetFloatAttribute c tag') ∧
    (SetFloatAttributeValue c EAttributeValueType.BaseRegeneration tag x o).Overflow = o ∧
    (∀ T : ℚ, PredictRegen { a with BaseRegenRate := x } T = PredictRegen a T) ∧
    (∀ (d : ℚ) (p : Bool),
      GetFloatAttributeValue
          (AdvanceTime
            (SetFloatAttributeValue c EAttributeValueType.BaseRegeneration tag x o).Component d)
          EAttributeValueType.CurrentValue tag p =
        GetFloatAttributeValue (AdvanceTime c d) EAttributeValueType.CurrentValue tag p) := by
  have hst := SetFloatAttributeValue_BaseRegeneration_stored x o h
  refine ⟨hst, fun tag' hne => ?_, ?_, fun T => rfl, fun d p => ?_⟩
  · simp only [SetFloatAttributeValue, h, GetFloatAttribute_SendFloatAttributeChangedEvent]
    have ht : a.AttributeTag = tag := GetFloatAttribute_tag h
    exact GetFloatAttribute_WriteFloatAttribute_other ht hne
  · rw [SetFloatAttributeValue_Overflow _ x o h]
    simp [ClampFloatAttributeValue]
  · refine GetFloatAttributeValue_current_congr x p ?_ ?_ (by simpa using hst) (by simpa using h)
    · simpa using SetFloatAttributeValue_HasAuthority c EAttributeValueType.BaseRegeneration
        tag x o
    · simp [SetFloatAttributeValue_GetServerTime]

/-- C21 on the test's input: for the attribute regenerating at rate 15 from 50
since time 0, setting the base regen rate to 1 at time 1 leaves the read at
time 1 at 65 and the read one time unit later at 80. -/
theorem C21_base_regen_rate_set_changes_only_that_field_witness :
    GetFloatAttribute (AuthorityWith (Stamina 50 15) 1) HealthTag = some (Stamina 50 15) ∧
    GetFloatAttributeValue
      (AdvanceTime (SetFloatAttributeValue (AuthorityWith (Stamina 50 15) 1)
        EAttributeValueType.BaseRegeneration HealthTag 1 0).Component 0)
      EAttributeValueType.CurrentValue HealthTag false = ⟨65, true⟩ ∧
    GetFloatAttributeValue
      (AdvanceTime (SetFloatAttributeValue (AuthorityWith (Stamina 50 15) 1)
        EAttributeValueType.BaseRegeneration HealthTag 1 0).Component 1)
      EAttributeValueType.CurrentValue HealthTag false = ⟨80, true⟩ := by
  have hf : GetFloatAttribute (AuthorityWith (Stamina 50 15) 1) HealthTag
      = some (Stamina 50 15) := by
    simp [GetFloatAttribute, RoleFloatAttributes, AuthorityWith, Stamina]
  obtain ⟨-, -, -, -, hread⟩ := C21_base_regen_rate_set_changes_only_that_field
    (AuthorityWith (Stamina 50 15) 1) HealthTag (Stamina 50 15) 1 0 hf
  refine ⟨hf, ?_, ?_⟩
  · rw [hread 0 false, GetFloatAttributeValue_authority _ _ rfl (by simpa using hf)]
    norm_num [GetAuthoritativeCurrentValueWithRegen, PredictRegen, ClampFloatAttributeValue,
      FMath_Max, Stamina, AuthorityWith, AdvanceTime]
  · rw [hread 1 false, GetFloatAttributeValue_authority _ _ rfl (by simpa using hf)]
    norm_num [GetAuthoritativeCurrentValueWithRegen, PredictRegen, ClampFloatAttributeValue,
      FMath_Max, Stamina, AuthorityWith, AdvanceTime]

theorem FMath_Max_zero_eq_max (d : ℚ) : FMath_Max 0 d = max 0 d := by
  unfold FMath_Max
  split_ifs with h
  · exact (max_eq_left (le_of_lt h)).symm
  · exact (max_eq_right (not_lt.mp h)).symm

/-- C22 as stated fails: the predicted read does not extrapolate backwards. For
a mirrored attribute regenerating at rate 10 from 50 with regen timestamp 5,
read at estimated time 3, the code returns 50, not `50 + 10 * (3 - 5) = 30`. -/
theorem C22_predicted_read_not_linear_before_timestamp :
    ¬ (∀ (c : USimpleGameplayAbilityComponent) (tag : FGameplayTag) (a : FFloatAttribute),
        c.HasAuthority = false → GetFloatAttribute c tag = some a →
        a.bIsRegenerating = true →
        GetFloatAttributeValue c EAttributeValueType.CurrentValue tag true =
          ⟨(ClampFloatAttributeValue a EAttributeValueType.CurrentValue
            (a.CurrentValue + a.CurrentRegenRate *
              (c.GetServerTime - a.LastRegenParamsUpdateTime_Server)) 0).1, true⟩) := by
  intro hall
  have hf : GetFloatAttribute
      (ClientWith { Stamina 50 10 with LastRegenParamsUpdateTime_Server := 5 } 3) HealthTag =
      some { Stamina 50 10 with LastRegenParamsUpdateTime_Server := 5 } := by
    simp [GetFloatAttribute, RoleFloatAttributes, ClientWith, Stamina]
  have h := hall _ HealthTag _ rfl hf rfl
  rw [GetFloatAttributeValue_client_current true rfl hf] at h
  norm_num [ClampFloatAttributeValue, FMath_Max, Stamina, ClientWith] at h

/-- C22, amended: on a non-authoritative component, for a mirrored regenerating
attribute and estimated authority time `T`, the predicted read of `CurrentValue`
returns `currentValue + currentRegenRate * max(0, T - lastRegenTimestamp)`
clamped to the enabled current bounds; this is the linear formula whenever
`T ≥ lastRegenTimestamp`, and the clamped stored value when `T` is earlier. -/
theorem C22_predicted_read_on_mirror (c : USimpleGameplayAbilityComponent) (tag : FGameplayTag)
    (a : FFloatAttribute)
    (hA : c.HasAuthority = false) (h : GetFloatAttribute c tag = some a)
    (hR : a.bIsRegenerating = true) :
    GetFloatAttributeValue c EAttributeValueType.CurrentValue tag true =
      ⟨(ClampFloatAttributeValue a EAttributeValueType.CurrentValue
        (a.CurrentValue + a.CurrentRegenRate *
          max 0 (c.GetServerTime - a.LastRegenParamsUpdateTime_Server)) 0).1, true⟩ ∧
    (a.LastRegenParamsUpdateTime_Server ≤ c.GetServerTime →
      GetFloatAttributeValue c EAttributeValueType.CurrentValue tag true =
        ⟨(ClampFloatAttributeValue a EAttributeValueType.CurrentValue
          (a.CurrentValue + a.CurrentRegenRate *
            (c.GetServerTime - a.LastRegenParamsUpdateTime_Server)) 0).1, true⟩) ∧
    (c.GetServerTime < a.LastRegenParamsUpdateTime_Server →
      GetFloatAttributeValue c EAttributeValueType.CurrentValue tag true =
        ⟨(ClampFloatAttributeValue a EAttributeValueType.CurrentValue a.CurrentValue 0).1,
          true⟩) := by
  have hmain : GetFloatAttributeValue c EAttributeValueType.CurrentValue tag true =
      ⟨(ClampFloatAttributeValue a EAttributeValueType.CurrentValue
        (a.CurrentValue + a.CurrentRegenRate *
          max 0 (c.GetServerTime - a.LastRegenParamsUpdateTime_Server)) 0).1, true⟩ := by
    rw [GetFloatAttributeValue_client_current true hA h, if_pos rfl]
    by_cases hz : a.CurrentRegenRate = 0
    · simp [hR, hz]
    · simp only [hR, true_and, ne_eq, hz, not_false_eq_true, if_true, FMath_Max_zero_eq_max]
  refine ⟨hmain, fun hle => ?_, fun hlt => ?_⟩
  · rw [hmain, max_eq_right (sub_nonneg.mpr hle)]
  · rw [hmain, max_eq_left (le_of_lt (sub_neg.mpr hlt)), mul_zero, add_zero]

/-- C22, amended, on an example mirror: regenerating at rate 10 from 50 since
time 0 (max current bound 150), the predicted read at time 3 is 80 and at time
20 it is clamped to 150. -/
theorem C22_predicted_read_on_mirror_witness :
    (ClientWith (Stamina 50 10) 3).HasAuthority = false ∧
    GetFloatAttribute (ClientWith (Stamina 50 10) 3) HealthTag = some (Stamina 50 10) ∧
    (Stamina 50 10).bIsRegenerating = true ∧
    GetFloatAttributeValue (ClientWith (Stamina 50 10) 3)
      EAttributeValueType.CurrentValue HealthTag true = ⟨80, true⟩ ∧
    GetFloatAttributeValue (ClientWith (Stamina 50 10) 20)
      EAttributeValueType.CurrentValue HealthTag true = ⟨150, true⟩ := by
  have hf : ∀ T, GetFloatAttribute (ClientWith (Stamina 50 10) T) HealthTag
      = some (Stamina 50 10) := by
    intro T
    simp [GetFloatAttribute, RoleFloatAttributes, ClientWith, Stamina]
  refine ⟨rfl, hf 3, rfl, ?_, ?_⟩
  · rw [(C22_predicted_read_on_mirror (ClientWith (Stamina 50 10) 3) HealthTag (Stamina 50 10)
      rfl (hf 3) rfl).1]
    norm_num [ClampFloatAttributeValue, Stamina, ClientWith]
  · rw [(C22_predicted_read_on_mirror (ClientWith (Stamina 50 10) 20) HealthTag (Stamina 50 10)
      rfl (hf 20) rfl).1]
    norm_num [ClampFloatAttributeValue, Stamina, ClientWith]

/-- C23 as stated fails: a read outside the predicted case does not always
return the raw stored field. Reading `MaxBaseValue` of an attribute whose
disabled max base bound stores 500 returns 0, and the predicted read of the
current value of a non-regenerating attribute storing 150 above its max bound
100 returns 100. -/
theorem C23_read_not_always_raw_field :
    (¬ ∀ (c : USimpleGameplayAbilityComponent) (k : EAttributeValueType) (tag : FGameplayTag)
        (a : FFloatAttribute), c.HasAuthority = false → GetFloatAttribute c tag = some a →
        (∀ n, k ≠ EAttributeValueType.Unsupported n) →
        GetFloatAttributeValue c k tag false = ⟨StoredFloatValue a k, true⟩) ∧
    (¬ ∀ (c : USimpleGameplayAbilityComponent) (tag : FGameplayTag) (a : FFloatAttribute),
        c.HasAuthority = false → GetFloatAttribute c tag = some a →
        a.bIsRegenerating = false →
        GetFloatAttributeValue c EAttributeValueType.CurrentValue tag true =
          ⟨a.CurrentValue, true⟩) := by
  constructor
  · intro hall
    have hf : GetFloatAttribute (ClientWith HiddenBoundHealth 3) HealthTag =
        some HiddenBoundHealth := by
      simp [GetFloatAttribute, RoleFloatAttributes, ClientWith, HiddenBoundHealth, TestHealth]
    have h := hall (ClientWith HiddenBoundHealth 3) EAttributeValueType.MaxBaseValue HealthTag
      HiddenBoundHealth rfl hf (fun n hn => by cases hn)
    simp [GetFloatAttributeValue, ClientWith, HiddenBoundHealth, TestHealth, TestLimits,
      StoredFloatValue] at h
  · intro hall
    have hf : GetFloatAttribute (ClientWith OverfullHealth 3) HealthTag =
        some OverfullHealth := by
      simp [GetFloatAttribute, RoleFloatAttributes, ClientWith, OverfullHealth, TestHealth]
    have h := hall (ClientWith OverfullHealth 3) HealthTag OverfullHealth rfl hf rfl
    rw [GetFloatAttributeValue_client_current true rfl hf] at h
    norm_num [ClampFloatAttributeValue, OverfullHealth, TestHealth, TestLimits] at h

/-- C23, amended: on a non-authoritative component, outside the predicted case a
read returns, with `found = true`: the stored field for `BaseValue`,
`CurrentValue` (prediction off), `BaseRegenRate` and `CurrentRegenRate`; for a
bound kind the stored bound if that bound is enabled and 0 if it is disabled;
for `CurrentValueRatio` the ratio of the stored current value. With prediction
on, the `CurrentValue` of an attribute that is not regenerating (or regenerates
at rate 0) is the stored current value clamped to the enabled current bounds,
hence the stored value itself whenever that lies within them. -/
theorem C23_reads_on_mirror (c : USimpleGameplayAbilityComponent) (tag : FGameplayTag)
    (a : FFloatAttribute) (hA : c.HasAuthority = false)
    (h : GetFloatAttribute c tag = some a) :
    (∀ p, GetFloatAttributeValue c EAttributeValueType.BaseValue tag p =
      ⟨a.BaseValue, true⟩) ∧
    GetFloatAttributeValue c EAttributeValueType.CurrentValue tag false =
      ⟨a.CurrentValue, true⟩ ∧
    (∀ p, GetFloatAttributeValue c EAttributeValueType.BaseRegeneration tag p =
      ⟨a.BaseRegenRate, true⟩) ∧
    (∀ p, GetFloatAttributeValue c EAttributeValueType.CurrentRegeneration tag p =
      ⟨a.CurrentRegenRate, true⟩) ∧
    (∀ p, GetFloatAttributeValue c EAttributeValueType.MaxCurrentValue tag p =
      ⟨if a.ValueLimits.UseMaxCurrentValue then a.ValueLimits.MaxCurrentValue else 0, true⟩) ∧
    (∀ p, GetFloatAttributeValue c EAttributeValueType.MinCurrentValue tag p =
      ⟨if a.ValueLimits.UseMinCurrentValue then a.ValueLimits.MinCurrentValue else 0, true⟩) ∧
    (∀ p, GetFloatAttributeValue c EAttributeValueType.MaxBaseValue tag p =
      ⟨if a.ValueLimits.UseMaxBaseValue then a.ValueLimits.MaxBaseValue else 0, true⟩) ∧
    (∀ p, GetFloatAttributeValue c EAttributeValueType.MinBaseValue tag p =
      ⟨if a.ValueLimits.UseMinBaseValue then a.ValueLimits.MinBaseValue else 0, true⟩) ∧
    (∀ p, GetFloatAttributeValue c EAttributeValueType.CurrentValueRatio tag p =
      ⟨CurrentValueRatioOf a a.CurrentValue, true⟩) ∧
    ((a.bIsRegenerating = false ∨ a.CurrentRegenRate = 0) →
      GetFloatAttributeValue c EAttributeValueType.CurrentValue tag true =
        ⟨(ClampFloatAttributeValue a EAttributeValueType.CurrentValue a.CurrentValue 0).1,
          true⟩ ∧
      (ViolatesNoBound a EAttributeValueType.CurrentValue a.CurrentValue →
        GetFloatAttributeValue c EAttributeValueType.CurrentValue tag true =
          ⟨a.CurrentValue, true⟩)) := by
  have hl := h
  simp only [GetFloatAttribute, RoleFloatAttributes, hA, Bool.false_eq_true, if_false] at hl
  refine ⟨fun p => ?_, ?_, fun p => ?_, fun p => ?_, fun p => ?_, fun p => ?_, fun p => ?_,
    fun p => ?_, fun p => ?_, fun hno => ?_⟩
  · simp [GetFloatAttributeValue, hA, hl]
  · simp [GetFloatAttributeValue, hA, hl]
  · simp [GetFloatAttributeValue, hA, hl]
  · simp [GetFloatAttributeValue, hA, hl]
  · simp [GetFloatAttributeValue, hA, hl]
  · simp [GetFloatAttributeValue, hA, hl]
  · simp [GetFloatAttributeValue, hA, hl]
  · simp [GetFloatAttributeValue, hA, hl]
  · simp [GetFloatAttributeValue, hA, hl]
  · have hcase : ¬ (a.bIsRegenerating = true ∧ a.CurrentRegenRate ≠ 0) := by
      rintro ⟨h1, h2⟩
      rcases hno with h3 | h3
      · rw [h3] at h1; cases h1
      · exact h2 h3
    have hread := GetFloatAttributeValue_client_current true hA h
    rw [if_pos rfl, if_neg hcase] at hread
    refine ⟨hread, fun hv => ?_⟩
    rw [hread, ClampFloatAttributeValue_of_within 0 hv]

/-- C23, amended, on the example mirror (current 80 within bounds 10 and 100,
not regenerating): the predicted read of the current value is the stored 80,
and the disabled max base bound reads 0. -/
theorem C23_reads_on_mirror_witness :
    ClientComponent.HasAuthority = false ∧
    GetFloatAttribute ClientComponent HealthTag = some TestHealth ∧
    GetFloatAttributeValue ClientComponent EAttributeValueType.CurrentValue HealthTag true =
      ⟨80, true⟩ ∧
    GetFloatAttributeValue ClientComponent EAttributeValueType.MaxBaseValue HealthTag false =
      ⟨0, true⟩ := by
  have hf : GetFloatAttribute ClientComponent HealthTag = some TestHealth := by
    simp [GetFloatAttribute, RoleFloatAttributes, ClientComponent, TestHealth]
  obtain ⟨-, -, -, -, -, -, hmb, -, -, hpred⟩ :=
    C23_reads_on_mirror ClientComponent HealthTag TestHealth rfl hf
  refine ⟨rfl, hf, ?_, ?_⟩
  · rw [(hpred (Or.inl rfl)).2 (by norm_num [ViolatesNoBound, TestHealth, TestLimits])]
    rfl
  · rw [hmb false]
    simp [TestHealth, TestLimits]

/-! ## Writes on a non-authoritative component -/

theorem SetFloatAttributeValue_other_tag (c : USimpleGameplayAbilityComponent)
    (k : EAttributeValueType) (tag tag' : FGameplayTag) (v o : ℚ) (hne : tag' ≠ tag) :
    GetFloatAttribute (SetFloatAttributeValue c k tag v o).Component tag' =
      GetFloatAttribute c tag' := by
  cases h : GetFloatAttribute c tag with
  | none => simp [SetFloatAttributeValue, h]
  | some a =>
    have ht : a.AttributeTag = tag := GetFloatAttribute_tag h
    cases k with
    | Unsupported n => simp [SetFloatAttributeValue, h]
    | _ =>
      simp only [SetFloatAttributeValue, h, GetFloatAttribute_SendFloatAttributeChangedEvent]
      exact GetFloatAttribute_WriteFloatAttribute_other
        (by first | exact ht | (split_ifs <;> exact ht)) hne

theorem SetFloatAttributeValue_client_AuthorityFloatAttributes
    (c : USimpleGameplayAbilityComponent) (k : EAttributeValueType) (tag : FGameplayTag)
    (v o : ℚ) (hA : c.HasAuthority = false) :
    (SetFloatAttributeValue c k tag v o).Component.AuthorityFloatAttributes =
      c.AuthorityFloatAttributes := by
  cases h : GetFloatAttribute c tag with
  | none => simp [SetFloatAttributeValue, h]
  | some a => cases k <;> simp [SetFloatAttributeValue, h, WriteFloatAttribute, hA]

theorem SetFloatAttributeValue_client_stored {c : USimpleGameplayAbilityComponent}
    {tag : FGameplayTag} {a : FFloatAttribute} (k : EAttributeValueType) (v o : ℚ)
    (hA : c.HasAuthority = false) (h : GetFloatAttribute c tag = some a) :
    ∃ a', GetFloatAttribute (SetFloatAttributeValue c k tag v o).Component tag = some a' ∧
      a'.AttributeTag = a.AttributeTag ∧
      a'.LastRegenParamsUpdateTime_Server = a.LastRegenParamsUpdateTime_Server ∧
      a'.bIsRegenerating = a.bIsRegenerating := by
  have ht : a.AttributeTag = tag := GetFloatAttribute_tag h
  cases k with
  | Unsupported n => exact ⟨a, by simp [SetFloatAttributeValue, h], rfl, rfl, rfl⟩
  | _ =>
    simp only [SetFloatAttributeValue, h, GetFloatAttribute_SendFloatAttributeChangedEvent, hA,
      Bool.false_eq_true, false_and, if_false]
    exact ⟨_, GetFloatAttribute_WriteFloatAttribute h ht, rfl, rfl, rfl⟩

/-- C24 as stated fails: on a non-authoritative component `SetFloatAttributeValue`
and `IncrementFloatAttributeValue` do write the local mirror; setting the
current value of the mirrored example attribute to 50, or incrementing it by 5,
changes the mirror. -/
theorem C24_set_writes_local_mirror :
    (¬ ∀ (c : USimpleGameplayAbilityComponent) (k : EAttributeValueType) (tag : FGameplayTag)
        (v o : ℚ), c.HasAuthority = false →
        (SetFloatAttributeValue c k tag v o).Component.LocalFloatAttributes =
          c.LocalFloatAttributes) ∧
    (¬ ∀ (c : USimpleGameplayAbilityComponent) (k : EAttributeValueType) (tag : FGameplayTag)
        (d o : ℚ), c.HasAuthority = false →
        (IncrementFloatAttributeValue c k tag d o).Component.LocalFloatAttributes =
          c.LocalFloatAttributes) := by
  constructor
  · intro hall
    have h := hall ClientComponent EAttributeValueType.CurrentValue HealthTag 50 0 rfl
    simp [SetFloatAttributeValue, GetFloatAttribute, RoleFloatAttributes, WriteFloatAttribute,
      ReplaceFirst, ClampFloatAttributeValue, ClientComponent, TestHealth, TestLimits] at h
    norm_num at h
  · intro hall
    have h := hall ClientComponent EAttributeValueType.CurrentValue HealthTag 5 0 rfl
    simp [IncrementFloatAttributeValue, GetFloatAttributeValue, bPredictIfClient_Default,
      SetFloatAttributeValue, GetFloatAttribute, RoleFloatAttributes, WriteFloatAttribute,
      ReplaceFirst, ClampFloatAttributeValue, ClientComponent, TestHealth, TestLimits] at h
    norm_num at h

/-- C24, amended: on a non-authoritative component `SetFloatAttributeValue` and
`IncrementFloatAttributeValue` write through to the local mirror, but only to
the mirrored attribute with the given tag: that attribute keeps its tag, its
regen timestamp and its regenerating flag, the mirrored attributes with other
tags and the authoritative collection are unchanged, and nothing is changed
when the tag is absent from the mirror. -/
theorem C24_set_on_mirror_frame (c : USimpleGameplayAbilityComponent)
    (k : EAttributeValueType) (tag : FGameplayTag) (v o : ℚ)
    (hA : c.HasAuthority = false) :
    (SetFloatAttributeValue c k tag v o).Component.AuthorityFloatAttributes =
      c.AuthorityFloatAttributes ∧
    (IncrementFloatAttributeValue c k tag v o).Component.AuthorityFloatAttributes =
      c.AuthorityFloatAttributes ∧
    (∀ tag', tag' ≠ tag →
      GetFloatAttribute (SetFloatAttributeValue c k tag v o).Component tag' =
        GetFloatAttribute c tag' ∧
      GetFloatAttribute (IncrementFloatAttributeValue c k tag v o).Component tag' =
        GetFloatAttribute c tag') ∧
    (∀ a, GetFloatAttribute c tag = some a →
      (∃ a', GetFloatAttribute (SetFloatAttributeValue c k tag v o).Component tag = some a' ∧
        a'.AttributeTag = a.AttributeTag ∧
        a'.LastRegenParamsUpdateTime_Server = a.LastRegenParamsUpdateTime_Server ∧
        a'.bIsRegenerating = a.bIsRegenerating) ∧
      (∃ a', GetFloatAttribute (IncrementFloatAttributeValue c k tag v o).Component tag
          = some a' ∧
        a'.AttributeTag = a.AttributeTag ∧
        a'.LastRegenParamsUpdateTime_Server = a.LastRegenParamsUpdateTime_Server ∧
        a'.bIsRegenerating = a.bIsRegenerating)) ∧
    (GetFloatAttribute c tag = none →
      (SetFloatAttributeValue c k tag v o).Component = c ∧
      (IncrementFloatAttributeValue c k tag v o).Component = c) := by
  have hinc := IncrementFloatAttributeValue_cases c k tag v o
  refine ⟨SetFloatAttributeValue_client_AuthorityFloatAttributes c k tag v o hA, ?_,
    fun tag' hne => ⟨SetFloatAttributeValue_other_tag c k tag tag' v o hne, ?_⟩,
    fun a h => ⟨SetFloatAttributeValue_client_stored k v o hA h, ?_⟩, fun h => ⟨?_, ?_⟩⟩
  · rcases hinc with h | ⟨w, h⟩
    · rw [h]
    · rw [h]; exact SetFloatAttributeValue_client_AuthorityFloatAttributes c k tag w o hA
  · rcases hinc with h | ⟨w, h⟩
    · rw [h]
    · rw [h]; exact SetFloatAttributeValue_other_tag c k tag tag' w o hne
  · rcases hinc with h' | ⟨w, h'⟩
    · rw [h']; exact ⟨a, h, rfl, rfl, rfl⟩
    · rw [h']; exact SetFloatAttributeValue_client_stored k w o hA h
  · simp [SetFloatAttributeValue, h]
  · rcases hinc with h' | ⟨w, h'⟩
    · rw [h']
    · rw [h']; simp [SetFloatAttributeValue, h]

/-- C24, amended, on the example mirror: setting the current value to 50 stores
50 in the mirrored attribute, whose regen timestamp stays 0, and leaves the
(empty) authoritative collection as it was. -/
theorem C24_set_on_mirror_frame_witness :
    ClientComponent.HasAuthority = false ∧
    (SetFloatAttributeValue ClientComponent EAttributeValueType.CurrentValue
      HealthTag 50 0).Component.AuthorityFloatAttributes = [] ∧
    (SetFloatAttributeValue ClientComponent EAttributeValueType.CurrentValue
      HealthTag 50 0).Component.LocalFloatAttributes = [{ TestHealth with CurrentValue := 50 }] :=
  by
  refine ⟨rfl, (C24_set_on_mirror_frame ClientComponent EAttributeValueType.CurrentValue
    HealthTag 50 0 rfl).1, ?_⟩
  simp [SetFloatAttributeValue, GetFloatAttribute, RoleFloatAttributes, WriteFloatAttribute,
    ReplaceFirst, ClampFloatAttributeValue, ClientComponent, TestHealth, TestLimits]
  norm_num

/-! ## Timestamps and tag uniqueness of the authoritative collection -/

theorem ReplaceFirst_self {tag : FGameplayTag} :
    ∀ {l : List FFloatAttribute} {a : FFloatAttribute},
      l.find? (fun x => decide (x.AttributeTag = tag)) = some a → ReplaceFirst tag a l = l
  | [], _, h => by simp at h
  | b :: rest, a, h => by
    by_cases hb : b.AttributeTag = tag
    · have hba : b = a := by simpa [List.find?, hb] using h
      subst hba
      rw [ReplaceFirst, if_pos hb]
    · have h' : rest.find? (fun x => decide (x.AttributeTag = tag)) = some a := by
        simpa [List.find?, hb] using h
      simp [ReplaceFirst, hb, ReplaceFirst_self h']

theorem ReplaceFirst_forall₂ {tag : FGameplayTag} {New : FFloatAttribute}
    (R : FFloatAttribute → FFloatAttribute → Prop) :
    ∀ {l : List FFloatAttribute} {a : FFloatAttribute},
      l.find? (fun x => decide (x.AttributeTag = tag)) = some a →
      (∀ x ∈ l, R x x) → R a New → List.Forall₂ R l (ReplaceFirst tag New l)
  | [], _, h, _, _ => by simp at h
  | b :: rest, a, h, hrefl, hR => by
    by_cases hb : b.AttributeTag = tag
    · have hba : b = a := by simpa [List.find?, hb] using h
      rw [ReplaceFirst, if_pos hb]
      exact List.Forall₂.cons (hba ▸ hR)
        (List.forall₂_same.mpr (fun x hx => hrefl x (List.mem_cons_of_mem _ hx)))
    · have h' : rest.find? (fun x => decide (x.AttributeTag = tag)) = some a := by
        simpa [List.find?, hb] using h
      rw [ReplaceFirst, if_neg hb]
      exact List.Forall₂.cons (hrefl b (List.mem_cons_self _ _))
        (ReplaceFirst_forall₂ R h' (fun x hx => hrefl x (List.mem_cons_of_mem _ hx)) hR)

theorem ReplaceFirst_map_tag {tag : FGameplayTag} {New : FFloatAttribute}
    (hN : New.AttributeTag = tag) :
    ∀ l : List FFloatAttribute,
      (ReplaceFirst tag New l).map (fun a => a.AttributeTag) = l.map (fun a => a.AttributeTag)
  | [] => rfl
  | b :: rest => by
    by_cases hb : b.AttributeTag = tag
    · simp [ReplaceFirst, hb, hN]
    · simp [ReplaceFirst, hb, ReplaceFirst_map_tag hN rest]

theorem SetFloatAttributeValue_Authority_cases (c : USimpleGameplayAbilityComponent)
    (k : EAttributeValueType) (tag : FGameplayTag) (v o : ℚ)
    (P : List FFloatAttribute → Prop) (h0 : P c.AuthorityFloatAttributes)
    (hstep : ∀ a a' : FFloatAttribute,
      c.AuthorityFloatAttributes.find? (fun x => decide (x.AttributeTag = tag)) = some a →
      c.HasAuthority = true → a'.AttributeTag = tag →
      (a'.LastRegenParamsUpdateTime_Server = a.LastRegenParamsUpdateTime_Server ∨
        a'.LastRegenParamsUpdateTime_Server = c.GetServerTime) →
      P (ReplaceFirst tag a' c.AuthorityFloatAttributes)) :
    P (SetFloatAttributeValue c k tag v o).Component.AuthorityFloatAttributes := by
  cases h : GetFloatAttribute c tag with
  | none => simpa [SetFloatAttributeValue, h] using h0
  | some a =>
    have ht : a.AttributeTag = tag := GetFloatAttribute_tag h
    cases hA : c.HasAuthority with
    | false =>
      rw [SetFloatAttributeValue_client_AuthorityFloatAttributes c k tag v o hA]
      exact h0
    | true =>
      have hl : c.AuthorityFloatAttributes.find? (fun x => decide (x.AttributeTag = tag)) =
          some a := by
        simpa [GetFloatAttribute, RoleFloatAttributes, hA] using h
      cases k with
      | Unsupported n => simpa [SetFloatAttributeValue, h] using h0
      | BaseValue | MaxCurrentValue | MinCurrentValue | MaxBaseValue | MinBaseValue
        | BaseRegeneration =>
        simp only [SetFloatAttributeValue, h, WriteFloatAttribute, hA, if_true,
          SendFloatAttributeChangedEvent_Authority]
        exact hstep a _ hl hA ht (Or.inl rfl)
      | CurrentValue | CurrentValueRatio | CurrentRegeneration =>
        simp only [SetFloatAttributeValue, h, WriteFloatAttribute, hA, if_true, true_and,
          SendFloatAttributeChangedEvent_Authority]
        exact hstep a _ hl hA (by split_ifs <;> exact ht) (by split_ifs <;> exact Or.inr rfl)

theorem AddFloatAttribute_Authority_existing (c : USimpleGameplayAbilityComponent)
    (attr old : FFloatAttribute) (ov : Bool)
    (h : c.AuthorityFloatAttributes.find?
      (fun a => decide (a.AttributeTag = attr.AttributeTag)) = some old) :
    (AddFloatAttribute c attr ov).AuthorityFloatAttributes =
      if ov then
        ReplaceFirst attr.AttributeTag
          (if c.HasAuthority then
            { attr with LastRegenParamsUpdateTime_Server := c.GetServerTime } else attr)
          c.AuthorityFloatAttributes
      else c.AuthorityFloatAttributes := by
  cases hA : c.HasAuthority <;> cases ov <;> simp [AddFloatAttribute, hA, h]

theorem AddFloatAttribute_Authority_new (c : USimpleGameplayAbilityComponent)
    (attr : FFloatAttribute) (ov : Bool)
    (h : c.AuthorityFloatAttributes.find?
      (fun a => decide (a.AttributeTag = attr.AttributeTag)) = none) :
    (AddFloatAttribute c attr ov).AuthorityFloatAttributes =
      c.AuthorityFloatAttributes ++
        [if c.HasAuthority then
          { attr with LastRegenParamsUpdateTime_Server := c.GetServerTime } else attr] := by
  cases hA : c.HasAuthority <;> simp [AddFloatAttribute, SendEvent, hA, h]

theorem OverrideFloatAttribute_Authority_existing (c : USimpleGameplayAbilityComponent)
    (tag : FGameplayTag) (attr old : FFloatAttribute)
    (h : c.AuthorityFloatAttributes.find? (fun a => decide (a.AttributeTag = tag)) = some old) :
    (OverrideFloatAttribute c tag attr).Component.AuthorityFloatAttributes =
      ReplaceFirst tag { attr with LastRegenParamsUpdateTime_Server := c.GetServerTime }
        c.AuthorityFloatAttributes := by
  simp [OverrideFloatAttribute, h]

theorem OverrideFloatAttribute_absent (c : USimpleGameplayAbilityComponent)
    (tag : FGameplayTag) (attr : FFloatAttribute)
    (h : c.AuthorityFloatAttributes.find? (fun a => decide (a.AttributeTag = tag)) = none) :
    OverrideFloatAttribute c tag attr = ⟨false, c⟩ := by
  simp [OverrideFloatAttribute, h]

theorem TimestampsAdvance_refl {Now : ℚ} {l : List FFloatAttribute}
    (h : ∀ a ∈ l, a.LastRegenParamsUpdateTime_Server ≤ Now) : TimestampsAdvance Now l l :=
  List.forall₂_same.mpr (fun a ha => ⟨le_refl _, h a ha⟩)

theorem TimestampsAdvance_ReplaceFirst {Now : ℚ} {l : List FFloatAttribute}
    {tag : FGameplayTag} {a New : FFloatAttribute}
    (h : ∀ x ∈ l, x.LastRegenParamsUpdateTime_Server ≤ Now)
    (hf : l.find? (fun x => decide (x.AttributeTag = tag)) = some a)
    (hN : New.LastRegenParamsUpdateTime_Server = a.LastRegenParamsUpdateTime_Server ∨
      New.LastRegenParamsUpdateTime_Server = Now) :
    TimestampsAdvance Now l (ReplaceFirst tag New l) := by
  have ha : a.LastRegenParamsUpdateTime_Server ≤ Now := h a (List.mem_of_find?_eq_some hf)
  refine ReplaceFirst_forall₂ _ hf (fun x hx => ⟨le_refl _, h x hx⟩) ?_
  rcases hN with hN | hN
  · exact ⟨le_of_eq hN.symm, hN ▸ ha⟩
  · exact ⟨hN ▸ ha, le_of_eq hN⟩

/-- C25: with authority, if every stored regen timestamp is at most the current
server time, then `SetFloatAttributeValue` of every kind,
`IncrementFloatAttributeValue`, `AddFloatAttribute` on an existing tag (with or
without override) and `OverrideFloatAttribute` keep every attribute in its
position with a regen timestamp that is not lower than before and at most the
current time; `AddFloatAttribute` of a new tag keeps the existing attributes and
appends one with the current time as timestamp. As the clock is non-decreasing
the hypothesis holds again at every later time. -/
theorem C25_timestamps_never_decrease (c : USimpleGameplayAbilityComponent)
    (hA : c.HasAuthority = true)
    (hnow : ∀ a ∈ c.AuthorityFloatAttributes,
      a.LastRegenParamsUpdateTime_Server ≤ c.GetServerTime) :
    (∀ (k : EAttributeValueType) (tag : FGameplayTag) (v o : ℚ),
      TimestampsAdvance c.GetServerTime c.AuthorityFloatAttributes
        (SetFloatAttributeValue c k tag v o).Component.AuthorityFloatAttributes ∧
      TimestampsAdvance c.GetServerTime c.AuthorityFloatAttributes
        (IncrementFloatAttributeValue c k tag v o).Component.AuthorityFloatAttributes) ∧
    (∀ (attr : FFloatAttribute) (ov : Bool),
      (∃ a ∈ c.AuthorityFloatAttributes, a.AttributeTag = attr.AttributeTag) →
      TimestampsAdvance c.GetServerTime c.AuthorityFloatAttributes
        (AddFloatAttribute c attr ov).AuthorityFloatAttributes) ∧
    (∀ (attr : FFloatAttribute) (ov : Bool),
      (∀ a ∈ c.AuthorityFloatAttributes, a.AttributeTag ≠ attr.AttributeTag) →
      (AddFloatAttribute c attr ov).AuthorityFloatAttributes = c.AuthorityFloatAttributes ++
        [{ attr with LastRegenParamsUpdateTime_Server := c.GetServerTime }]) ∧
    (∀ (tag : FGameplayTag) (attr : FFloatAttribute),
      TimestampsAdvance c.GetServerTime c.AuthorityFloatAttributes
        (OverrideFloatAttribute c tag attr).Component.AuthorityFloatAttributes) ∧
    (∀ later : ℚ, c.GetServerTime ≤ later → ∀ (Before After : List FFloatAttribute),
      TimestampsAdvance c.GetServerTime Before After →
      ∀ b ∈ After, b.LastRegenParamsUpdateTime_Server ≤ later) := by
  have hset : ∀ (k : EAttributeValueType) (tag : FGameplayTag) (v o : ℚ),
      TimestampsAdvance c.GetServerTime c.AuthorityFloatAttributes
        (SetFloatAttributeValue c k tag v o).Component.AuthorityFloatAttributes := by
    intro k tag v o
    exact SetFloatAttributeValue_Authority_cases c k tag v o
      (TimestampsAdvance c.GetServerTime c.AuthorityFloatAttributes)
      (TimestampsAdvance_refl hnow)
      (fun a a' hf _ _ hts => TimestampsAdvance_ReplaceFirst hnow hf hts)
  refine ⟨fun k tag v o => ⟨hset k tag v o, ?_⟩, fun attr ov hex => ?_, fun attr ov hno => ?_,
    fun tag attr => ?_, fun later hl Before After hadv b hb => ?_⟩
  · rcases IncrementFloatAttributeValue_cases c k tag v o with h | ⟨w, h⟩
    · rw [h]; exact TimestampsAdvance_refl hnow
    · rw [h]; exact hset k tag w o
  · obtain ⟨old, hold⟩ := find?_isSome_of_mem_tag hex
    rw [AddFloatAttribute_Authority_existing c attr old ov hold]
    cases ov with
    | false => exact TimestampsAdvance_refl hnow
    | true =>
      simp only [hA, if_true]
      exact TimestampsAdvance_ReplaceFirst hnow hold (Or.inr rfl)
  · rw [AddFloatAttribute_Authority_new c attr ov (find?_none_of_no_tag hno)]
    simp [hA]
  · cases hf : c.AuthorityFloatAttributes.find? (fun a => decide (a.AttributeTag = tag)) with
    | none =>
      rw [OverrideFloatAttribute_absent c tag attr hf]
      exact TimestampsAdvance_refl hnow
    | some old =>
      rw [OverrideFloatAttribute_Authority_existing c tag attr old hf]
      exact TimestampsAdvance_ReplaceFirst hnow hf (Or.inr rfl)
  · unfold TimestampsAdvance at hadv
    induction hadv with
    | nil => simp at hb
    | cons hab _ ih =>
      rcases List.mem_cons.mp hb with hb | hb
      · exact hb ▸ le_trans hab.2 hl
      · exact ih hb

/-- C25 on the example component (server time 3, stored regen timestamp 0):
after a set of the current value the stored timestamp is 3, and after a set of
the base value it is still 0. -/
theorem C25_timestamps_never_decrease_witness :
    AuthorityComponent.HasAuthority = true ∧
    (∀ a ∈ AuthorityComponent.AuthorityFloatAttributes,
      a.LastRegenParamsUpdateTime_Server ≤ AuthorityComponent.GetServerTime) ∧
    TimestampsAdvance 3 [TestHealth]
      (SetFloatAttributeValue AuthorityComponent EAttributeValueType.CurrentValue
        HealthTag 50 0).Component.AuthorityFloatAttributes ∧
    TimestampsAdvance 3 [TestHealth]
      (SetFloatAttributeValue AuthorityComponent EAttributeValueType.BaseValue
        HealthTag 50 0).Component.AuthorityFloatAttributes := by
  have hnow : ∀ a ∈ AuthorityComponent.AuthorityFloatAttributes,
      a.LastRegenParamsUpdateTime_Server ≤ AuthorityComponent.GetServerTime := by
    intro a ha
    simp only [AuthorityComponent, List.mem_singleton] at ha
    subst ha
    norm_num [AuthorityComponent, TestHealth]
  exact ⟨rfl, hnow,
    ((C25_timestamps_never_decrease AuthorityComponent rfl hnow).1
      EAttributeValueType.CurrentValue HealthTag 50 0).1,
    ((C25_timestamps_never_decrease AuthorityComponent rfl hnow).1
      EAttributeValueType.BaseValue HealthTag 50 0).1⟩

/-! ## Tag uniqueness of the authoritative collection -/

theorem ReplaceFirst_TagsUnique_same {tag : FGameplayTag} {New : FFloatAttribute}
    {l : List FFloatAttribute} (hN : New.AttributeTag = tag) (h : TagsUnique l) :
    TagsUnique (ReplaceFirst tag New l) := by
  unfold TagsUnique
  rw [ReplaceFirst_map_tag hN l]
  exact h

theorem mem_map_tag_ReplaceFirst {tag t : FGameplayTag} {New : FFloatAttribute} :
    ∀ l : List FFloatAttribute,
      t ∈ (ReplaceFirst tag New l).map (fun a => a.AttributeTag) →
      t = New.AttributeTag ∨ t ∈ l.map (fun a => a.AttributeTag)
  | [] => by simp [ReplaceFirst]
  | b :: rest => by
    by_cases hb : b.AttributeTag = tag
    · simp only [ReplaceFirst, if_pos hb, List.map_cons, List.mem_cons]
      rintro (h | h)
      · exact Or.inl h
      · exact Or.inr (Or.inr h)
    · simp only [ReplaceFirst, if_neg hb, List.map_cons, List.mem_cons]
      rintro (h | h)
      · exact Or.inr (Or.inl h)
      · rcases mem_map_tag_ReplaceFirst rest h with h | h
        · exact Or.inl h
        · exact Or.inr (Or.inr h)

theorem ReplaceFirst_TagsUnique_fresh {tag : FGameplayTag} {New : FFloatAttribute} :
    ∀ l : List FFloatAttribute, TagsUnique l →
      (∀ a ∈ l, a.AttributeTag ≠ New.AttributeTag) → TagsUnique (ReplaceFirst tag New l)
  | [] => fun h _ => by simpa [ReplaceFirst] using h
  | b :: rest => by
    intro h hfresh
    unfold TagsUnique at h ⊢
    rw [List.map_cons, List.nodup_cons] at h
    have hrest : ∀ a ∈ rest, a.AttributeTag ≠ New.AttributeTag :=
      fun a ha => hfresh a (List.mem_cons_of_mem _ ha)
    by_cases hb : b.AttributeTag = tag
    · rw [ReplaceFirst, if_pos hb, List.map_cons, List.nodup_cons]
      refine ⟨?_, h.2⟩
      intro hmem
      obtain ⟨a, ha, hat⟩ := List.mem_map.mp hmem
      exact hrest a ha hat
    · rw [ReplaceFirst, if_neg hb, List.map_cons, List.nodup_cons]
      refine ⟨?_, ReplaceFirst_TagsUnique_fresh rest h.2 hrest⟩
      intro hmem
      rcases mem_map_tag_ReplaceFirst rest hmem with hm | hm
      · exact hfresh b (List.mem_cons_self _ _) hm
      · exact h.1 hm

theorem SetFloatAttributeValue_TagsUnique (c : USimpleGameplayAbilityComponent)
    (k : EAttributeValueType) (tag : FGameplayTag) (v o : ℚ)
    (h : TagsUnique c.AuthorityFloatAttributes) :
    TagsUnique (SetFloatAttributeValue c k tag v o).Component.AuthorityFloatAttributes :=
  SetFloatAttributeValue_Authority_cases c k tag v o TagsUnique h
    (fun _ _ _ _ ht _ => ReplaceFirst_TagsUnique_same ht h)

/-- C26, counterexample: overriding the attribute tagged `HealthTag` of a
collection holding one `HealthTag` and one `ManaTag` attribute with an attribute
tagged `ManaTag` leaves two attributes tagged `ManaTag`. -/
theorem C26_override_can_duplicate_tag :
    ¬ (∀ (c : USimpleGameplayAbilityComponent) (tag : FGameplayTag) (attr : FFloatAttribute),
      TagsUnique c.AuthorityFloatAttributes →
      TagsUnique (OverrideFloatAttribute c tag attr).Component.AuthorityFloatAttributes) := by
  intro h
  have h1 := h TwoAttributeComponent HealthTag TestMana
    (by simp [TagsUnique, TwoAttributeComponent, TestHealth, TestMana, HealthTag, ManaTag])
  have h2 : (OverrideFloatAttribute TwoAttributeComponent HealthTag
      TestMana).Component.AuthorityFloatAttributes =
      [{ TestMana with LastRegenParamsUpdateTime_Server := 3 }, TestMana] := by
    rw [OverrideFloatAttribute_Authority_existing TwoAttributeComponent HealthTag TestMana
      TestHealth (by simp [TwoAttributeComponent, TestHealth, HealthTag])]
    simp [TwoAttributeComponent, AuthorityComponent, ReplaceFirst, TestHealth, HealthTag]
  rw [h2] at h1
  simp [TagsUnique, TestMana] at h1

/-- C26, amended: if no two attributes of the authoritative float collection
share a tag, the same holds after `AddFloatAttribute` (with or without
override), `RemoveFloatAttribute`, `SetFloatAttributeValue` and
`IncrementFloatAttributeValue`, and after `OverrideFloatAttribute(tag, attr)`
when `attr` carries the tag `tag` itself or a tag that no stored attribute
carries. -/
theorem C26_tag_uniqueness_preserved (c : USimpleGameplayAbilityComponent)
    (h : TagsUnique c.AuthorityFloatAttributes) :
    (∀ (attr : FFloatAttribute) (ov : Bool),
      TagsUnique (AddFloatAttribute c attr ov).AuthorityFloatAttributes) ∧
    (∀ tag : FGameplayTag, TagsUnique (RemoveFloatAttribute c tag).AuthorityFloatAttributes) ∧
    (∀ (k : EAttributeValueType) (tag : FGameplayTag) (v o : ℚ),
      TagsUnique (SetFloatAttributeValue c k tag v o).Component.AuthorityFloatAttributes ∧
      TagsUnique (IncrementFloatAttributeValue c k tag v o).Component.AuthorityFloatAttributes) ∧
    (∀ (tag : FGameplayTag) (attr : FFloatAttribute),
      (attr.AttributeTag = tag ∨
        ∀ a ∈ c.AuthorityFloatAttributes, a.AttributeTag ≠ attr.AttributeTag) →
      TagsUnique (OverrideFloatAttribute c tag attr).Component.AuthorityFloatAttributes) := by
  refine ⟨fun attr ov => ?_, fun tag => ?_, fun k tag v o => ⟨?_, ?_⟩, fun tag attr hcond => ?_⟩
  · cases hf : c.AuthorityFloatAttributes.find?
        (fun a => decide (a.AttributeTag = attr.AttributeTag)) with
    | some old =>
      rw [AddFloatAttribute_Authority_existing c attr old ov hf]
      cases ov with
      | false => exact h
      | true =>
        refine ReplaceFirst_TagsUnique_same ?_ h
        cases c.HasAuthority <;> rfl
    | none =>
      rw [AddFloatAttribute_Authority_new c attr ov hf]
      have hno : attr.AttributeTag ∉ c.AuthorityFloatAttributes.map (fun a => a.AttributeTag) := by
        intro hmem
        obtain ⟨a, ha, hat⟩ := List.mem_map.mp hmem
        have := List.find?_eq_none.mp hf a ha
        simp [hat] at this
      have htag : (if c.HasAuthority then
          { attr with LastRegenParamsUpdateTime_Server := c.GetServerTime }
          else attr).AttributeTag = attr.AttributeTag := by
        cases c.HasAuthority <;> rfl
      unfold TagsUnique at h ⊢
      rw [List.map_append, List.map_singleton, htag]
      exact List.Nodup.append h (List.nodup_singleton _)
        (List.disjoint_singleton.mpr hno)
  · have hS : (RemoveFloatAttribute c tag).AuthorityFloatAttributes =
        c.AuthorityFloatAttributes.filter (fun a => ¬ decide (a.AttributeTag = tag)) := by
      unfold RemoveFloatAttribute SendEvent
      cases c.HasEventSubsystem <;> rfl
    rw [hS]
    exact List.Nodup.sublist (List.Sublist.map _ (List.filter_sublist _)) h
  · exact SetFloatAttributeValue_TagsUnique c k tag v o h
  · rcases IncrementFloatAttributeValue_cases c k tag v o with hi | ⟨w, hi⟩
    · rw [hi]; exact h
    · rw [hi]; exact SetFloatAttributeValue_TagsUnique c k tag w o h
  · cases hf : c.AuthorityFloatAttributes.find? (fun a => decide (a.AttributeTag = tag)) with
    | none =>
      rw [OverrideFloatAttribute_absent c tag attr hf]
      exact h
    | some old =>
      rw [OverrideFloatAttribute_Authority_existing c tag attr old hf]
      rcases hcond with hc | hc
      · exact ReplaceFirst_TagsUnique_same hc h
      · exact ReplaceFirst_TagsUnique_fresh _ h hc

/-- C26 on the two-attribute example: its tags are distinct, and they stay
distinct after overriding `HealthTag` with `TestHealth` and after removing
`ManaTag`. -/
theorem C26_tag_uniqueness_preserved_witness :
    TagsUnique TwoAttributeComponent.AuthorityFloatAttributes ∧
    TagsUnique (OverrideFloatAttribute TwoAttributeComponent HealthTag
      TestHealth).Component.AuthorityFloatAttributes ∧
    TagsUnique (RemoveFloatAttribute TwoAttributeComponent ManaTag).AuthorityFloatAttributes := by
  have h : TagsUnique TwoAttributeComponent.AuthorityFloatAttributes := by
    simp [TagsUnique, TwoAttributeComponent, TestHealth, TestMana, HealthTag, ManaTag]
  exact ⟨h, (C26_tag_uniqueness_preserved TwoAttributeComponent h).2.2.2 HealthTag TestHealth
    (Or.inl rfl), (C26_tag_uniqueness_preserved TwoAttributeComponent h).2.1 ManaTag⟩

/-! ## Applying modifiers -/

@[simp] theorem CreateAttributeState_HasAuthority (c : USimpleGameplayAbilityComponent)
    (Class : Option UClass) (ctx : FInstancedStruct) (id : FGuid) :
    (CreateAttributeState c Class ctx id).HasAuthority = c.HasAuthority := by
  unfold CreateAttributeState
  simp only
  split_ifs <;> rfl

@[simp] theorem CreateAttributeState_InstancedAttributes (c : USimpleGameplayAbilityComponent)
    (Class : Option UClass) (ctx : FInstancedStruct) (id : FGuid) :
    (CreateAttributeState c Class ctx id).InstancedAttributes = c.InstancedAttributes := by
  unfold CreateAttributeState
  simp only
  split_ifs <;> rfl

theorem CreateAttributeState_fresh (c : USimpleGameplayAbilityComponent)
    (Class : Option UClass) (ctx : FInstancedStruct) (id : FGuid)
    (hA : ∀ s ∈ c.AuthorityAttributeStates, s.AbilityID ≠ id)
    (hL : ∀ s ∈ c.LocalAbilityStates, s.AbilityID ≠ id) :
    RoleAttributeStates (CreateAttributeState c Class ctx id) =
      RoleAttributeStates c ++
        [{ AbilityID := id, AbilityClass := Class, ActivationTimeStamp := c.GetServerTime,
           ActivationContext := ctx, AbilityStatus := EAbilityStatus.ActivationSuccess,
           SnapshotHistory := [] }] := by
  have h1 : c.AuthorityAttributeStates.any (fun s => decide (s.AbilityID = id)) = false := by
    rw [List.any_eq_false]
    intro s hs
    simpa using hA s hs
  have h2 : c.LocalAbilityStates.any (fun s => decide (s.AbilityID = id)) = false := by
    rw [List.any_eq_false]
    intro s hs
    simpa using hL s hs
  cases hR : c.HasAuthority <;>
    simp [CreateAttributeState, RoleAttributeStates, hR, h1, h2]

theorem length_UpdateFirstModifier (p : USimpleAttributeModifier → Bool)
    (f : USimpleAttributeModifier → USimpleAttributeModifier) :
    ∀ l : List USimpleAttributeModifier, (UpdateFirstModifier p f l).length = l.length
  | [] => rfl
  | m :: rest => by
    cases hp : p m
    · simp [UpdateFirstModifier, hp, length_UpdateFirstModifier p f rest]
    · simp [UpdateFirstModifier, hp]

theorem find?_UpdateFirstModifier (p : USimpleAttributeModifier → Bool)
    (f : USimpleAttributeModifier → USimpleAttributeModifier)
    (hf : ∀ m, p (f m) = p m) :
    ∀ l : List USimpleAttributeModifier,
      (UpdateFirstModifier p f l).find? p = (l.find? p).map f
  | [] => rfl
  | m :: rest => by
    cases hp : p m
    · simp [UpdateFirstModifier, hp, List.find?, find?_UpdateFirstModifier p f hf rest]
    · simp [UpdateFirstModifier, hp, List.find?, hf]

/-- C27: `ApplyAttributeModifierToTarget` with a null modifier class returns
false, leaves the out-parameter and the whole component as they were (so the
list of modifier instances and the state collections are unchanged), and does
not invoke any apply logic. -/
theorem C27_null_class_returns_false_and_creates_nothing
    (ApplyModifier : USimpleAttributeModifier → USimpleGameplayAbilityComponent →
      USimpleGameplayAbilityComponent → FInstancedStruct → Bool)
    (NewGuid : FGuid) (c ModifierTarget : USimpleGameplayAbilityComponent)
    (ModifierContext : FInstancedStruct) (ModifierID : FGuid) :
    let r := ApplyAttributeModifierToTarget ApplyModifier NewGuid c ModifierTarget none
      ModifierContext ModifierID
    r.Returned = false ∧ r.Component = c ∧
    r.Component.InstancedAttributes = c.InstancedAttributes ∧
    r.Component.AuthorityAttributeStates = c.AuthorityAttributeStates ∧
    r.Component.LocalAttributeStates = c.LocalAttributeStates ∧
    r.AppliedModifier = none ∧ r.ModifierID = ModifierID :=
  ⟨rfl, rfl, rfl, rfl, rfl, rfl, rfl⟩

/-- C28, counterexample: a component that hosts no modifier instance applies
`RegenBuffClass` to a target that hosts an active stackable Duration instance of
that class; the call creates an instance on the calling component and hands
over to the apply logic. -/
theorem C28_existing_instance_check_is_on_caller :
    ¬ (∀ (ApplyModifier : USimpleAttributeModifier → USimpleGameplayAbilityComponent →
        USimpleGameplayAbilityComponent → FInstancedStruct → Bool)
      (NewGuid : FGuid) (c ModifierTarget : USimpleGameplayAbilityComponent) (Class : UClass)
      (ctx : FInstancedStruct) (id : FGuid),
      (∃ m ∈ ModifierTarget.InstancedAttributes, m.GetClass = Class ∧
        m.ModifierType = EAttributeModifierType.Duration ∧ m.IsModifierActive = true ∧
        m.CanStack = true) →
      (ApplyAttributeModifierToTarget ApplyModifier NewGuid c ModifierTarget (some Class)
        ctx id).Returned = true ∧
      (ApplyAttributeModifierToTarget ApplyModifier NewGuid c ModifierTarget (some Class)
        ctx id).Component.InstancedAttributes.length = c.InstancedAttributes.length) := by
  intro h
  have h1 := (h FailingApplyModifier 9 AuthorityComponent BuffHost RegenBuffClass
    FInstancedStruct.Empty 0 ⟨ActiveRegenBuff, by simp [BuffHost], rfl, rfl, rfl, rfl⟩).2
  simp [ApplyAttributeModifierToTarget, AuthorityComponent] at h1

/-- C28, amended: when the first instance of the class hosted on the calling
component is an active stackable Duration modifier, the application returns
success whatever the target is, creates no instance (the list keeps its
length), raises the stack count of that instance by one and leaves it an active
stackable Duration instance of the class, records no state and invokes no apply
logic; so a further application stacks again. -/
theorem C28_stacking_on_calling_component
    (ApplyModifier : USimpleAttributeModifier → USimpleGameplayAbilityComponent →
      USimpleGameplayAbilityComponent → FInstancedStruct → Bool)
    (NewGuid : FGuid) (c ModifierTarget : USimpleGameplayAbilityComponent) (Class : UClass)
    (ctx : FInstancedStruct) (id : FGuid) (m : USimpleAttributeModifier)
    (hfind : c.InstancedAttributes.find? (fun x => decide (x.GetClass = Class)) = some m)
    (hD : m.ModifierType = EAttributeModifierType.Duration)
    (hActive : m.IsModifierActive = true) (hStack : m.CanStack = true) :
    let r := ApplyAttributeModifierToTarget ApplyModifier NewGuid c ModifierTarget (some Class)
      ctx id
    r.Returned = true ∧
    r.Component.InstancedAttributes.length = c.InstancedAttributes.length ∧
    r.Component.InstancedAttributes.find? (fun x => decide (x.GetClass = Class)) =
      some { m with Stacks := m.Stacks + 1 } ∧
    r.Component.AuthorityAttributeStates = c.AuthorityAttributeStates ∧
    r.Component.LocalAttributeStates = c.LocalAttributeStates ∧
    r.AppliedModifier = none := by
  intro r
  have hI : r.Component.InstancedAttributes =
      UpdateFirstModifier (fun x => decide (x.GetClass = Class))
        (fun x => AddModifierStack x 1) c.InstancedAttributes := by
    simp [r, ApplyAttributeModifierToTarget, hfind, hD, hActive, hStack]
  refine ⟨?_, ?_, ?_, ?_, ?_, ?_⟩
  · simp [r, ApplyAttributeModifierToTarget, hfind, hD, hActive, hStack]
  · rw [hI]
    exact length_UpdateFirstModifier _ _ _
  · have hU := find?_UpdateFirstModifier (fun x => decide (x.GetClass = Class))
      (fun x => AddModifierStack x 1) (fun _ => rfl) c.InstancedAttributes
    rw [hI, hU, hfind]
    rfl
  · simp [r, ApplyAttributeModifierToTarget, hfind, hD, hActive, hStack]
  · simp [r, ApplyAttributeModifierToTarget, hfind, hD, hActive, hStack]
  · simp [r, ApplyAttributeModifierToTarget, hfind, hD, hActive, hStack]

/-- C28 on the example: the host of an active instance of `RegenBuffClass` with
one stack applies the class to another component; the call succeeds, the host
still has one instance and that instance has two stacks. -/
theorem C28_stacking_on_calling_component_witness :
    (ApplyAttributeModifierToTarget FailingApplyModifier 9 BuffHost AuthorityComponent
      (some RegenBuffClass) FInstancedStruct.Empty 0).Returned = true ∧
    (ApplyAttributeModifierToTarget FailingApplyModifier 9 BuffHost AuthorityComponent
      (some RegenBuffClass) FInstancedStruct.Empty 0).Component.InstancedAttributes =
      [{ ActiveRegenBuff with Stacks := 2 }] := by
  have h := C28_stacking_on_calling_component FailingApplyModifier 9 BuffHost AuthorityComponent
    RegenBuffClass FInstancedStruct.Empty 0 ActiveRegenBuff
    (by simp [BuffHost, ActiveRegenBuff, NewObject]) rfl rfl rfl
  refine ⟨h.1, ?_⟩
  simp [ApplyAttributeModifierToTarget, BuffHost, ActiveRegenBuff, NewObject, RegenBuffClass,
    UpdateFirstModifier, AddModifierStack]

/-- C29: for a non-null modifier class whose application does not take the
stacking path, and a new instance id that no recorded state carries yet,
`ApplyAttributeModifierToTarget` returns that id in `ModifierID` and appends to
the state collection of the caller's role a state with that id, the class, the
context, the server time and status `ActivationSuccess`; the apply logic is
invoked on a component that already holds the state, the returned value is the
result of the apply logic, and the component is the same whatever the apply
logic returns. -/
theorem C29_state_recorded_before_apply_logic
    (ApplyModifier : USimpleAttributeModifier → USimpleGameplayAbilityComponent →
      USimpleGameplayAbilityComponent → FInstancedStruct → Bool)
    (NewGuid : FGuid) (c ModifierTarget : USimpleGameplayAbilityComponent) (Class : UClass)
    (ctx : FInstancedStruct) (id : FGuid)
    (hA : ∀ s ∈ c.AuthorityAttributeStates, s.AbilityID ≠ NewGuid)
    (hL : ∀ s ∈ c.LocalAbilityStates, s.AbilityID ≠ NewGuid)
    (hns : ∀ m, c.InstancedAttributes.find? (fun x => decide (x.GetClass = Class)) = some m →
      ¬ (m.ModifierType = EAttributeModifierType.Duration ∧ m.IsModifierActive = true ∧
        m.CanStack = true)) :
    let r := ApplyAttributeModifierToTarget ApplyModifier NewGuid c ModifierTarget (some Class)
      ctx id
    r.ModifierID = NewGuid ∧
    RoleAttributeStates r.Component = RoleAttributeStates c ++
      [{ AbilityID := r.ModifierID, AbilityClass := some Class,
         ActivationTimeStamp := c.GetServerTime, ActivationContext := ctx,
         AbilityStatus := EAbilityStatus.ActivationSuccess, SnapshotHistory := [] }] ∧
    (∃ m, r.AppliedModifier = some m ∧ m.AbilityInstanceID = r.ModifierID ∧
      m ∈ r.Component.InstancedAttributes ∧
      r.Returned = ApplyModifier m r.Component ModifierTarget ctx) ∧
    (∀ Other : USimpleAttributeModifier → USimpleGameplayAbilityComponent →
        USimpleGameplayAbilityComponent → FInstancedStruct → Bool,
      (ApplyAttributeModifierToTarget Other NewGuid c ModifierTarget (some Class)
        ctx id).Component = r.Component) := by
  have key : ∀ L : List USimpleAttributeModifier,
      RoleAttributeStates (CreateAttributeState { c with InstancedAttributes := L } (some Class)
        ctx NewGuid) = RoleAttributeStates c ++
      [{ AbilityID := NewGuid, AbilityClass := some Class,
         ActivationTimeStamp := c.GetServerTime, ActivationContext := ctx,
         AbilityStatus := EAbilityStatus.ActivationSuccess, SnapshotHistory := [] }] := by
    intro L
    exact CreateAttributeState_fresh { c with InstancedAttributes := L } (some Class) ctx NewGuid
      hA hL
  have memU : ∀ M : USimpleAttributeModifier, ∀ l : List USimpleAttributeModifier,
      (∃ x, l.find? (fun x => decide (x.GetClass = Class)) = some x) →
      M ∈ UpdateFirstModifier (fun x => decide (x.GetClass = Class)) (fun _ => M) l := by
    intro M l
    induction l with
    | nil => simp
    | cons b rest ih =>
      intro hx
      by_cases hb : b.GetClass = Class
      · simp [UpdateFirstModifier, hb]
      · simp only [UpdateFirstModifier, hb, decide_False, Bool.false_eq_true, if_false,
          List.mem_cons]
        right
        apply ih
        simpa [List.find?, hb] using hx
  intro r
  cases hfind : c.InstancedAttributes.find? (fun x => decide (x.GetClass = Class)) with
  | none =>
    refine ⟨?_, ?_, ?_, ?_⟩
    · simp [r, ApplyAttributeModifierToTarget, hfind]
    · simpa [r, ApplyAttributeModifierToTarget, hfind] using key _
    · simp [r, ApplyAttributeModifierToTarget, hfind, InitializeAbility]
    · intro Other
      simp [r, ApplyAttributeModifierToTarget, hfind]
  | some m =>
    have hm := hns m hfind
    by_cases hDA : m.ModifierType = EAttributeModifierType.Duration ∧ m.IsModifierActive = true
    · have hS : m.CanStack = false := by
        cases hC : m.CanStack
        · rfl
        · exact absurd ⟨hDA.1, hDA.2, hC⟩ hm
      refine ⟨?_, ?_, ?_, ?_⟩
      · simp [r, ApplyAttributeModifierToTarget, hfind, hDA, hS]
      · simpa [r, ApplyAttributeModifierToTarget, hfind, hDA, hS] using key _
      · simp only [r, ApplyAttributeModifierToTarget, hfind, hDA, hS, and_self, if_true,
          Bool.false_eq_true, if_false]
        exact ⟨_, rfl, rfl, by
          rw [CreateAttributeState_InstancedAttributes]
          exact memU _ _ ⟨m, hfind⟩, rfl⟩
      · intro Other
        simp [r, ApplyAttributeModifierToTarget, hfind, hDA, hS]
    · refine ⟨?_, ?_, ?_, ?_⟩
      · simp [r, ApplyAttributeModifierToTarget, hfind, hDA]
      · simpa [r, ApplyAttributeModifierToTarget, hfind, hDA] using key _
      · simp only [r, ApplyAttributeModifierToTarget, hfind, hDA, if_false]
        exact ⟨_, rfl, rfl, by
          rw [CreateAttributeState_InstancedAttributes]
          exact memU _ _ ⟨m, hfind⟩, rfl⟩
      · intro Other
        simp [r, ApplyAttributeModifierToTarget, hfind, hDA]

/-- C29 on the example component (authority, server time 3, no state recorded):
applying the Instant class `DamageClass` with new id 9 and an apply logic that
fails returns false and leaves exactly the state with id 9. -/
theorem C29_state_recorded_before_apply_logic_witness :
    (∀ s ∈ AuthorityComponent.AuthorityAttributeStates, s.AbilityID ≠ 9) ∧
    (∀ s ∈ AuthorityComponent.LocalAbilityStates, s.AbilityID ≠ 9) ∧
    (ApplyAttributeModifierToTarget FailingApplyModifier 9 AuthorityComponent AuthorityComponent
      (some DamageClass) FInstancedStruct.Empty 0).Returned = false ∧
    RoleAttributeStates (ApplyAttributeModifierToTarget FailingApplyModifier 9 AuthorityComponent
      AuthorityComponent (some DamageClass) FInstancedStruct.Empty 0).Component =
      [{ AbilityID := 9, AbilityClass := some DamageClass, ActivationTimeStamp := 3,
         ActivationContext := FInstancedStruct.Empty,
         AbilityStatus := EAbilityStatus.ActivationSuccess, SnapshotHistory := [] }] := by
  have hA : ∀ s ∈ AuthorityComponent.AuthorityAttributeStates, s.AbilityID ≠ 9 := by
    simp [AuthorityComponent]
  have hL : ∀ s ∈ AuthorityComponent.LocalAbilityStates, s.AbilityID ≠ 9 := by
    simp [AuthorityComponent]
  have h := C29_state_recorded_before_apply_logic FailingApplyModifier 9 AuthorityComponent
    AuthorityComponent DamageClass FInstancedStruct.Empty 0 hA hL
    (by simp [AuthorityComponent])
  obtain ⟨hid, hstates, ⟨m, _, _, _, hret⟩, _⟩ := h
  refine ⟨hA, hL, ?_, ?_⟩
  · rw [hret]
    rfl
  · rw [hstates, hid]
    simp [RoleAttributeStates, AuthorityComponent]

/-! ## Cancelling modifiers -/

theorem foldl_preserves {α β : Type} (step : β → α → β) (P : β → Prop)
    (h : ∀ d x, P d → P (step d x)) : ∀ (l : List α) (d : β), P d → P (l.foldl step d)
  | [], _, hd => hd
  | x :: rest, d, hd => foldl_preserves step P h rest (step d x) (h d x hd)

theorem foldl_establishes {α β : Type} (step : β → α → β) (Found P : β → Prop) (e : α)
    (hF : ∀ d x, Found d → Found (step d x)) (hP : ∀ d x, P d → P (step d x))
    (hE : ∀ d, Found d → P (step d e)) :
    ∀ (l : List α) (d : β), e ∈ l → Found d → P (l.foldl step d)
  | [], _, he, _ => absurd he (List.not_mem_nil _)
  | x :: rest, d, he, hd => by
    rcases List.mem_cons.mp he with hx | hx
    · subst hx
      exact foldl_preserves step P hP rest _ (hE d hd)
    · exact foldl_establishes step Found P e hF hP hE rest (step d x) hx (hF d x hd)

theorem find?_UpdateFirstAbility (k j : FGuid)
    (f : USimpleGameplayAbility → USimpleGameplayAbility)
    (hf : ∀ a, (f a).AbilityInstanceID = a.AbilityInstanceID) :
    ∀ l : List USimpleGameplayAbility,
      (UpdateFirstAbility (fun a => decide (a.AbilityInstanceID = k)) f l).find?
          (fun a => decide (a.AbilityInstanceID = j)) =
        if j = k then (l.find? (fun a => decide (a.AbilityInstanceID = k))).map f
        else l.find? (fun a => decide (a.AbilityInstanceID = j))
  | [] => by simp [UpdateFirstAbility]
  | b :: rest => by
    have ih := find?_UpdateFirstAbility k j f hf rest
    by_cases hb : b.AbilityInstanceID = k
    · by_cases hj : j = k
      · simp [UpdateFirstAbility, List.find?, hb, hj, hf]
      · have hkj : ¬ k = j := fun h => hj h.symm
        simp [UpdateFirstAbility, List.find?, hb, hj, hf, hkj]
    · by_cases hj : j = k
      · subst hj
        simp only [UpdateFirstAbility, List.find?, hb, decide_False, Bool.false_eq_true,
          if_false, if_true] at ih ⊢
        exact ih
      · by_cases hbj : b.AbilityInstanceID = j
        · simp [UpdateFirstAbility, List.find?, hb, hj, hbj]
        · simp only [UpdateFirstAbility, List.find?, hb, hj, hbj, decide_False,
            Bool.false_eq_true, if_false] at ih ⊢
          exact ih

theorem find?_UpdateFirstModifier_id (k j : FGuid)
    (f : USimpleAttributeModifier → USimpleAttributeModifier)
    (hf : ∀ a, (f a).AbilityInstanceID = a.AbilityInstanceID) :
    ∀ l : List USimpleAttributeModifier,
      (UpdateFirstModifier (fun a => decide (a.AbilityInstanceID = k)) f l).find?
          (fun a => decide (a.AbilityInstanceID = j)) =
        if j = k then (l.find? (fun a => decide (a.AbilityInstanceID = k))).map f
        else l.find? (fun a => decide (a.AbilityInstanceID = j))
  | [] => by simp [UpdateFirstModifier]
  | b :: rest => by
    have ih := find?_UpdateFirstModifier_id k j f hf rest
    by_cases hb : b.AbilityInstanceID = k
    · by_cases hj : j = k
      · simp [UpdateFirstModifier, List.find?, hb, hj, hf]
      · have hkj : ¬ k = j := fun h => hj h.symm
        simp [UpdateFirstModifier, List.find?, hb, hj, hf, hkj]
    · by_cases hj : j = k
      · subst hj
        simp only [UpdateFirstModifier, List.find?, hb, decide_False, Bool.false_eq_true,
          if_false, if_true] at ih ⊢
        exact ih
      · by_cases hbj : b.AbilityInstanceID = j
        · simp [UpdateFirstModifier, List.find?, hb, hj, hbj]
        · simp only [UpdateFirstModifier, List.find?, hb, hj, hbj, decide_False,
            Bool.false_eq_true, if_false] at ih ⊢
          exact ih

theorem GetGameplayAbilityInstance_CancelAbilityInstance (d : USimpleGameplayAbilityComponent)
    (k j : FGuid) :
    GetGameplayAbilityInstance (CancelAbilityInstance d k) j =
      if j = k then (GetGameplayAbilityInstance d k).map
        (fun a => CancelAbility a (FGameplayTag.Default FDefaultTags.AbilityCancelled)
          FInstancedStruct.Empty)
      else GetGameplayAbilityInstance d j :=
  find?_UpdateFirstAbility k j
    (fun a => CancelAbility a (FGameplayTag.Default FDefaultTags.AbilityCancelled)
      FInstancedStruct.Empty) (fun _ => rfl) d.InstancedAbilities

theorem GetAttributeModifierInstance_EndModifierInstance (d : USimpleGameplayAbilityComponent)
    (k j : FGuid) :
    GetAttributeModifierInstance (EndModifierInstance d k) j =
      if j = k then (GetAttributeModifierInstance d k).map
        (fun m => EndModifier m (FGameplayTag.Default FDefaultTags.AbilityCancelled)
          FInstancedStruct.Empty)
      else GetAttributeModifierInstance d j :=
  find?_UpdateFirstModifier_id k j
    (fun m => EndModifier m (FGameplayTag.Default FDefaultTags.AbilityCancelled)
      FInstancedStruct.Empty) (fun _ => rfl) d.InstancedAttributes

theorem GetGameplayAbilityInstance_EndModifierInstance (d : USimpleGameplayAbilityComponent)
    (k j : FGuid) :
    GetGameplayAbilityInstance (EndModifierInstance d k) j = GetGameplayAbilityInstance d j :=
  rfl

theorem GetAttributeModifierInstance_CancelAbilityInstance (d : USimpleGameplayAbilityComponent)
    (k j : FGuid) :
    GetAttributeModifierInstance (CancelAbilityInstance d k) j =
      GetAttributeModifierInstance d j :=
  rfl

theorem AbilityFound_CancelAbilityInstance (j : FGuid) (d : USimpleGameplayAbilityComponent)
    (k : FGuid) (h : (GetGameplayAbilityInstance d j).isSome = true) :
    (GetGameplayAbilityInstance (CancelAbilityInstance d k) j).isSome = true := by
  rw [GetGameplayAbilityInstance_CancelAbilityInstance]
  by_cases hj : j = k
  · subst hj
    simpa using h
  · simpa [hj] using h

theorem AbilityReceivedCancel_CancelAbilityInstance (j : FGuid)
    (d : USimpleGameplayAbilityComponent) (k : FGuid) (h : AbilityReceivedCancel d j) :
    AbilityReceivedCancel (CancelAbilityInstance d k) j := by
  obtain ⟨a, ha, hmem⟩ := h
  unfold AbilityReceivedCancel
  rw [GetGameplayAbilityInstance_CancelAbilityInstance]
  by_cases hj : j = k
  · subst hj
    rw [if_pos rfl, ha]
    exact ⟨_, rfl, by simp [CancelAbility, hmem]⟩
  · rw [if_neg hj]
    exact ⟨a, ha, hmem⟩

theorem AbilityReceivedCancel_of_found (k : FGuid) (d : USimpleGameplayAbilityComponent)
    (h : (GetGameplayAbilityInstance d k).isSome = true) :
    AbilityReceivedCancel (CancelAbilityInstance d k) k := by
  obtain ⟨a, ha⟩ := Option.isSome_iff_exists.mp h
  unfold AbilityReceivedCancel
  rw [GetGameplayAbilityInstance_CancelAbilityInstance, if_pos rfl, ha]
  exact ⟨_, rfl, by simp [CancelAbility]⟩

theorem ModifierFound_EndModifierInstance (j : FGuid) (d : USimpleGameplayAbilityComponent)
    (k : FGuid) (h : (GetAttributeModifierInstance d j).isSome = true) :
    (GetAttributeModifierInstance (EndModifierInstance d k) j).isSome = true := by
  rw [GetAttributeModifierInstance_EndModifierInstance]
  by_cases hj : j = k
  · subst hj
    simpa using h
  · simpa [hj] using h

theorem ModifierReceivedEnd_EndModifierInstance (j : FGuid)
    (d : USimpleGameplayAbilityComponent) (k : FGuid) (h : ModifierReceivedEnd d j) :
    ModifierReceivedEnd (EndModifierInstance d k) j := by
  obtain ⟨m, hm, hmem, hact⟩ := h
  unfold ModifierReceivedEnd
  rw [GetAttributeModifierInstance_EndModifierInstance]
  by_cases hj : j = k
  · subst hj
    rw [if_pos rfl, hm]
    exact ⟨_, rfl, by simp [EndModifier, hmem], rfl⟩
  · rw [if_neg hj]
    exact ⟨m, hm, hmem, hact⟩

theorem ModifierReceivedEnd_of_found (k : FGuid) (d : USimpleGameplayAbilityComponent)
    (h : (GetAttributeModifierInstance d k).isSome = true) :
    ModifierReceivedEnd (EndModifierInstance d k) k := by
  obtain ⟨m, hm⟩ := Option.isSome_iff_exists.mp h
  unfold ModifierReceivedEnd
  rw [GetAttributeModifierInstance_EndModifierInstance, if_pos rfl, hm]
  exact ⟨_, rfl, by simp [EndModifier], rfl⟩

/-- What the body of the snapshot loop keeps: a property of the component that
both kinds of step keep is kept by the whole body. -/
theorem CancelSnapshotSideEffects_preserves (P : USimpleGameplayAbilityComponent → Prop)
    (hA : ∀ d k, P d → P (CancelAbilityInstance d k))
    (hM : ∀ d k, P d → P (EndModifierInstance d k))
    (d : USimpleGameplayAbilityComponent) (s : FSimpleAbilitySnapshot) (h : P d) :
    P (CancelSnapshotSideEffects d s) := by
  unfold CancelSnapshotSideEffects
  cases s.StateData with
  | Empty => exact h
  | FloatModification p => exact h
  | Struct S M => exact h
  | StructModification t o n m => exact h
  | ModifierResult r =>
    exact foldl_preserves
      (fun d (x : FAttributeModifierSideEffect) => EndModifierInstance d x.AttributeID) P
      (fun d e hd => hM d e.AttributeID hd) _ _
      (foldl_preserves
        (fun d (x : FAbilitySideEffect) => CancelAbilityInstance d x.AbilityInstanceID) P
        (fun d e hd => hA d e.AbilityInstanceID hd) _ _ h)

theorem CancelSnapshotSideEffects_ability (s : FSimpleAbilitySnapshot)
    (r : FAttributeModifierResult) (hr : s.StateData = FInstancedStruct.ModifierResult r)
    (e : FAbilitySideEffect) (he : e ∈ r.AppliedAbilitySideEffects)
    (d : USimpleGameplayAbilityComponent)
    (h : (GetGameplayAbilityInstance d e.AbilityInstanceID).isSome = true) :
    AbilityReceivedCancel (CancelSnapshotSideEffects d s) e.AbilityInstanceID := by
  simp only [CancelSnapshotSideEffects, hr]
  refine foldl_preserves
    (fun d (x : FAttributeModifierSideEffect) => EndModifierInstance d x.AttributeID)
    (fun x => AbilityReceivedCancel x e.AbilityInstanceID) (fun d x hd => hd) _ _ ?_
  exact foldl_establishes
    (fun d (x : FAbilitySideEffect) => CancelAbilityInstance d x.AbilityInstanceID)
    (fun x => (GetGameplayAbilityInstance x e.AbilityInstanceID).isSome = true)
    (fun x => AbilityReceivedCancel x e.AbilityInstanceID) e
    (fun d x hd => AbilityFound_CancelAbilityInstance _ d _ hd)
    (fun d x hd => AbilityReceivedCancel_CancelAbilityInstance _ d _ hd)
    (fun d hd => AbilityReceivedCancel_of_found _ d hd) _ d he h

theorem CancelSnapshotSideEffects_modifier (s : FSimpleAbilitySnapshot)
    (r : FAttributeModifierResult) (hr : s.StateData = FInstancedStruct.ModifierResult r)
    (e : FAttributeModifierSideEffect) (he : e ∈ r.AppliedAttributeModifierSideEffects)
    (d : USimpleGameplayAbilityComponent)
    (h : (GetAttributeModifierInstance d e.AttributeID).isSome = true) :
    ModifierReceivedEnd (CancelSnapshotSideEffects d s) e.AttributeID := by
  simp only [CancelSnapshotSideEffects, hr]
  refine foldl_establishes
    (fun d (x : FAttributeModifierSideEffect) => EndModifierInstance d x.AttributeID)
    (fun x => (GetAttributeModifierInstance x e.AttributeID).isSome = true)
    (fun x => ModifierReceivedEnd x e.AttributeID) e
    (fun d x hd => ModifierFound_EndModifierInstance _ d _ hd)
    (fun d x hd => ModifierReceivedEnd_EndModifierInstance _ d _ hd)
    (fun d hd => ModifierReceivedEnd_of_found _ d hd) _ _ he ?_
  exact foldl_preserves
    (fun d (x : FAbilitySideEffect) => CancelAbilityInstance d x.AbilityInstanceID)
    (fun x => (GetAttributeModifierInstance x e.AttributeID).isSome = true)
    (fun d x hd => hd) _ d h

theorem CancelAttributeModifier_cascade (c : USimpleGameplayAbilityComponent) (id : FGuid)
    (Snapshots : List FSimpleAbilitySnapshot)
    (hna : ∀ m, GetAttributeModifierInstance c id = some m →
      ¬ (m.ModifierType = EAttributeModifierType.Duration ∧ m.IsModifierActive = true))
    (hS : GetLocalAttributeStateSnapshots c id = some Snapshots) :
    CancelAttributeModifier c id = Snapshots.foldl CancelSnapshotSideEffects c := by
  unfold CancelAttributeModifier
  cases hm : GetAttributeModifierInstance c id with
  | none => simp [hS]
  | some m => simp [hS, hna m hm]

/-- C30, counterexample: a component hosts an active Duration modifier with
instance id 10 whose recorded snapshot references the hosted ability 20 and the
hosted modifier 7; `CancelAttributeModifier 10` ends the modifier itself and
returns, and the ability has received no cancel. -/
theorem C30_active_duration_modifier_not_cascaded :
    ¬ (∀ (c : USimpleGameplayAbilityComponent) (ModifierID : FGuid)
      (Snapshots : List FSimpleAbilitySnapshot) (Snapshot : FSimpleAbilitySnapshot)
      (ModifierResult : FAttributeModifierResult),
      (GetAttributeModifierInstance c ModifierID).isSome = true →
      GetLocalAttributeStateSnapshots c ModifierID = some Snapshots →
      Snapshot ∈ Snapshots →
      Snapshot.StateData = FInstancedStruct.ModifierResult ModifierResult →
      (∀ e ∈ ModifierResult.AppliedAbilitySideEffects,
        (GetGameplayAbilityInstance c e.AbilityInstanceID).isSome = true →
        AbilityReceivedCancel (CancelAttributeModifier c ModifierID) e.AbilityInstanceID) ∧
      (∀ e ∈ ModifierResult.AppliedAttributeModifierSideEffects,
        (GetAttributeModifierInstance c e.AttributeID).isSome = true →
        ModifierReceivedEnd (CancelAttributeModifier c ModifierID) e.AttributeID)) := by
  intro h
  have h1 := (h (CascadeComponent ActiveTrigger) 10
    [{ StateData := FInstancedStruct.ModifierResult TriggerResult }]
    { StateData := FInstancedStruct.ModifierResult TriggerResult } TriggerResult
    rfl rfl (by simp) rfl).1 { AbilityInstanceID := 20 } (by simp [TriggerResult]) rfl
  obtain ⟨a, ha, hmem⟩ := h1
  have hget : GetGameplayAbilityInstance
      (CancelAttributeModifier (CascadeComponent ActiveTrigger) 10) 20 =
      some { AbilityInstanceID := 20, CancelAbilityCalls := [] } := rfl
  rw [hget] at ha
  cases ha
  simp at hmem

/-- C30, amended: when the id names an active Duration modifier instance,
`CancelAttributeModifier` ends that instance with `AbilityCancelled` and does
nothing else. Otherwise, for every snapshot recorded for the id in the state
collection of the component's role, every ability side effect of the snapshot
whose instance the component hosts has received a cancel with
`AbilityCancelled`, and every modifier side effect whose instance the component
hosts has received an end with `AbilityCancelled` and is not active. -/
theorem C30_cascade_unless_active_duration (c : USimpleGameplayAbilityComponent)
    (ModifierID : FGuid) :
    (∀ m, GetAttributeModifierInstance c ModifierID = some m →
      m.ModifierType = EAttributeModifierType.Duration → m.IsModifierActive = true →
      CancelAttributeModifier c ModifierID = EndModifierInstance c ModifierID ∧
      ModifierReceivedEnd (CancelAttributeModifier c ModifierID) ModifierID ∧
      (CancelAttributeModifier c ModifierID).InstancedAbilities = c.InstancedAbilities) ∧
    ((∀ m, GetAttributeModifierInstance c ModifierID = some m →
        ¬ (m.ModifierType = EAttributeModifierType.Duration ∧ m.IsModifierActive = true)) →
      ∀ (Snapshots : List FSimpleAbilitySnapshot) (Snapshot : FSimpleAbilitySnapshot)
        (ModifierResult : FAttributeModifierResult),
      GetLocalAttributeStateSnapshots c ModifierID = some Snapshots →
      Snapshot ∈ Snapshots →
      Snapshot.StateData = FInstancedStruct.ModifierResult ModifierResult →
      (∀ e ∈ ModifierResult.AppliedAbilitySideEffects,
        (GetGameplayAbilityInstance c e.AbilityInstanceID).isSome = true →
        AbilityReceivedCancel (CancelAttributeModifier c ModifierID) e.AbilityInstanceID) ∧
      (∀ e ∈ ModifierResult.AppliedAttributeModifierSideEffects,
        (GetAttributeModifierInstance c e.AttributeID).isSome = true →
        ModifierReceivedEnd (CancelAttributeModifier c ModifierID) e.AttributeID)) := by
  constructor
  · intro m hm hD hAct
    have hE : CancelAttributeModifier c ModifierID = EndModifierInstance c ModifierID := by
      simp [CancelAttributeModifier, hm, hD, hAct]
    rw [hE]
    exact ⟨rfl, ModifierReceivedEnd_of_found ModifierID c (by simp [hm]), rfl⟩
  · intro hna Snapshots Snapshot ModifierResult hS hs hr
    rw [CancelAttributeModifier_cascade c ModifierID Snapshots hna hS]
    constructor
    · intro e he hfound
      exact foldl_establishes CancelSnapshotSideEffects
        (fun x => (GetGameplayAbilityInstance x e.AbilityInstanceID).isSome = true)
        (fun x => AbilityReceivedCancel x e.AbilityInstanceID) Snapshot
        (fun d s hd => CancelSnapshotSideEffects_preserves _
          (fun d k h => AbilityFound_CancelAbilityInstance _ d k h) (fun _ _ h => h) d s hd)
        (fun d s hd => CancelSnapshotSideEffects_preserves _
          (fun d k h => AbilityReceivedCancel_CancelAbilityInstance _ d k h) (fun _ _ h => h)
          d s hd)
        (fun d hd => CancelSnapshotSideEffects_ability Snapshot ModifierResult hr e he d hd)
        Snapshots c hs hfound
    · intro e he hfound
      exact foldl_establishes CancelSnapshotSideEffects
        (fun x => (GetAttributeModifierInstance x e.AttributeID).isSome = true)
        (fun x => ModifierReceivedEnd x e.AttributeID) Snapshot
        (fun d s hd => CancelSnapshotSideEffects_preserves _ (fun _ _ h => h)
          (fun d k h => ModifierFound_EndModifierInstance _ d k h) d s hd)
        (fun d s hd => CancelSnapshotSideEffects_preserves _ (fun _ _ h => h)
          (fun d k h => ModifierReceivedEnd_EndModifierInstance _ d k h) d s hd)
        (fun d hd => CancelSnapshotSideEffects_modifier Snapshot ModifierResult hr e he d hd)
        Snapshots c hs hfound

/-- C30 on the example: the component hosts a resolved Instant modifier with
instance id 10 whose snapshot references ability 20 and modifier 7; after
`CancelAttributeModifier 10` both have received `AbilityCancelled`. -/
theorem C30_cascade_unless_active_duration_witness :
    (∀ m, GetAttributeModifierInstance (CascadeComponent ResolvedTrigger) 10 = some m →
      ¬ (m.ModifierType = EAttributeModifierType.Duration ∧ m.IsModifierActive = true)) ∧
    AbilityReceivedCancel (CancelAttributeModifier (CascadeComponent ResolvedTrigger) 10) 20 ∧
    ModifierReceivedEnd (CancelAttributeModifier (CascadeComponent ResolvedTrigger) 10) 7 := by
  have hna : ∀ m, GetAttributeModifierInstance (CascadeComponent ResolvedTrigger) 10 = some m →
      ¬ (m.ModifierType = EAttributeModifierType.Duration ∧ m.IsModifierActive = true) := by
    intro m hm
    have hm2 : some ResolvedTrigger = some m := hm
    cases hm2
    simp [ResolvedTrigger, NewObject, DamageClass]
  have h := (C30_cascade_unless_active_duration (CascadeComponent ResolvedTrigger) 10).2 hna
    [{ StateData := FInstancedStruct.ModifierResult TriggerResult }]
    { StateData := FInstancedStruct.ModifierResult TriggerResult } TriggerResult
    rfl (by simp) rfl
  exact ⟨hna, h.1 { AbilityInstanceID := 20 } (by simp [TriggerResult]) rfl,
    h.2 { AttributeID := 7 } (by simp [TriggerResult]) rfl⟩

/-! ## Client prediction against the regeneration engine -/

/-- C33: on a non-authoritative component, for a mirrored regenerating
attribute and the estimated authority time `T`, the predicted read of
`CurrentValue` is found and equals `predict(attribute, T)` of the regeneration
engine, that is `currentValue + currentRegenRate * max(0, T − lastRegenTimestamp)`
clamped to the enabled current bounds; at an estimate not later than the regen
timestamp it equals the clamped stored current value, the prediction at the
regen timestamp itself. -/
theorem C33_client_prediction_agrees_with_predict (c : USimpleGameplayAbilityComponent)
    (tag : FGameplayTag) (a : FFloatAttribute)
    (hA : c.HasAuthority = false) (h : GetFloatAttribute c tag = some a)
    (hR : a.bIsRegenerating = true) :
    GetFloatAttributeValue c EAttributeValueType.CurrentValue tag true =
      ⟨PredictRegen a c.GetServerTime, true⟩ ∧
    PredictRegen a c.GetServerTime =
      (ClampFloatAttributeValue a EAttributeValueType.CurrentValue
        (a.CurrentValue + a.CurrentRegenRate *
          max 0 (c.GetServerTime - a.LastRegenParamsUpdateTime_Server)) 0).1 ∧
    (c.GetServerTime ≤ a.LastRegenParamsUpdateTime_Server →
      GetFloatAttributeValue c EAttributeValueType.CurrentValue tag true =
        ⟨(ClampFloatAttributeValue a EAttributeValueType.CurrentValue a.CurrentValue 0).1,
          true⟩ ∧
      PredictRegen a c.GetServerTime = PredictRegen a a.LastRegenParamsUpdateTime_Server) := by
  have hmain : GetFloatAttributeValue c EAttributeValueType.CurrentValue tag true =
      ⟨PredictRegen a c.GetServerTime, true⟩ := by
    rw [GetFloatAttributeValue_client_current true hA h, if_pos rfl]
    by_cases hz : a.CurrentRegenRate = 0
    · simp [PredictRegen, hR, hz]
    · simp only [hR, true_and, ne_eq, hz, not_false_eq_true, if_true, PredictRegen]
  have hback : ∀ T, T ≤ a.LastRegenParamsUpdateTime_Server → PredictRegen a T =
      (ClampFloatAttributeValue a EAttributeValueType.CurrentValue a.CurrentValue 0).1 := by
    intro T hT
    rw [PredictRegen, FMath_Max_zero_eq_max, max_eq_left (sub_nonpos.mpr hT), mul_zero,
      add_zero]
  refine ⟨hmain, ?_, fun hle => ⟨?_, ?_⟩⟩
  · rw [PredictRegen, FMath_Max_zero_eq_max]
  · rw [hmain, hback _ hle]
  · rw [hback _ hle, hback _ (le_refl _)]

/-- C33 on an example mirror: regenerating at rate 15 from 50 with regen
timestamp 2 (max current bound 150), the predicted read at the estimate 1,
behind the timestamp, is the stored 50, and at the estimate 4 it is
`50 + 15 * 2 = 80`. -/
theorem C33_client_prediction_agrees_with_predict_witness :
    (ClientWith { Stamina 50 15 with LastRegenParamsUpdateTime_Server := 2 } 1).HasAuthority =
      false ∧
    GetFloatAttribute (ClientWith { Stamina 50 15 with LastRegenParamsUpdateTime_Server := 2 } 1)
      HealthTag = some { Stamina 50 15 with LastRegenParamsUpdateTime_Server := 2 } ∧
    (GetFloatAttributeValue
      (ClientWith { Stamina 50 15 with LastRegenParamsUpdateTime_Server := 2 } 1)
      EAttributeValueType.CurrentValue HealthTag true = ⟨50, true⟩) ∧
    (GetFloatAttributeValue
      (ClientWith { Stamina 50 15 with LastRegenParamsUpdateTime_Server := 2 } 4)
      EAttributeValueType.CurrentValue HealthTag true = ⟨80, true⟩) := by
  have hf : ∀ T, GetFloatAttribute
      (ClientWith { Stamina 50 15 with LastRegenParamsUpdateTime_Server := 2 } T) HealthTag =
      some { Stamina 50 15 with LastRegenParamsUpdateTime_Server := 2 } := by
    intro T
    simp [GetFloatAttribute, RoleFloatAttributes, ClientWith, Stamina]
  refine ⟨rfl, hf 1, ?_, ?_⟩
  · rw [((C33_client_prediction_agrees_with_predict _ HealthTag _ rfl (hf 1) rfl).2.2
      (by norm_num [ClientWith])).1]
    norm_num [ClampFloatAttributeValue, Stamina]
  · rw [(C33_client_prediction_agrees_with_predict _ HealthTag _ rfl (hf 4) rfl).1]
    norm_num [PredictRegen, ClampFloatAttributeValue, Stamina, ClientWith, FMath_Max]

/-! ## Clamp idempotence -/

/-- C34: for the kinds `BaseValue` and `CurrentValue`, when the enabled bounds
of the kind satisfy `min ≤ max`, `ClampFloatAttributeValue` returns a value
within the enabled bounds, and clamping that value again returns it unchanged
and leaves overflow as it was handed in. Without `min ≤ max` one clamp can
return a value below the enabled min bound: the max check comes first. -/
theorem C34_clamp_idempotent :
    (∀ (a : FFloatAttribute) (k : EAttributeValueType) (x o o' : ℚ),
      (k = EAttributeValueType.BaseValue ∨ k = EAttributeValueType.CurrentValue) →
      (k = EAttributeValueType.BaseValue → a.ValueLimits.UseMaxBaseValue = true →
        a.ValueLimits.UseMinBaseValue = true →
        a.ValueLimits.MinBaseValue ≤ a.ValueLimits.MaxBaseValue) →
      (k = EAttributeValueType.CurrentValue → a.ValueLimits.UseMaxCurrentValue = true →
        a.ValueLimits.UseMinCurrentValue = true →
        a.ValueLimits.MinCurrentValue ≤ a.ValueLimits.MaxCurrentValue) →
      ViolatesNoBound a k (ClampFloatAttributeValue a k x o).1 ∧
      ClampFloatAttributeValue a k (ClampFloatAttributeValue a k x o).1 o' =
        ((ClampFloatAttributeValue a k x o).1, o')) ∧
    (∃ (a : FFloatAttribute) (x : ℚ),
      a.ValueLimits.UseMaxCurrentValue = true ∧ a.ValueLimits.UseMinCurrentValue = true ∧
      a.ValueLimits.MaxCurrentValue < a.ValueLimits.MinCurrentValue ∧
      (ClampFloatAttributeValue a EAttributeValueType.CurrentValue x 0).1 <
        a.ValueLimits.MinCurrentValue) := by
  constructor
  · intro a k x o o' hk hB hC
    have hw : ViolatesNoBound a k (ClampFloatAttributeValue a k x o).1 := by
      rcases hk with hk | hk
      · subst hk
        exact ClampFloatAttributeValue_BaseValue_within a x o (hB rfl)
      · subst hk
        exact ClampFloatAttributeValue_CurrentValue_within a x o (hC rfl)
    exact ⟨hw, ClampFloatAttributeValue_of_within o' hw⟩
  · refine ⟨{ TestHealth with ValueLimits :=
      { TestLimits with MaxCurrentValue := 5, MinCurrentValue := 10 } }, 20, ?_, ?_, ?_, ?_⟩ <;>
      norm_num [ClampFloatAttributeValue, TestLimits]

/-- C34 on the example attribute (current bounds 10 and 100): clamping 120 gives
100 with overflow 20, and clamping 100 again gives 100 and leaves the overflow
handed in, here 7, untouched. -/
theorem C34_clamp_idempotent_witness :
    ClampFloatAttributeValue TestHealth EAttributeValueType.CurrentValue 120 0 = (100, 20) ∧
    ClampFloatAttributeValue TestHealth EAttributeValueType.CurrentValue
      (ClampFloatAttributeValue TestHealth EAttributeValueType.CurrentValue 120 0).1 7 =
      ((ClampFloatAttributeValue TestHealth EAttributeValueType.CurrentValue 120 0).1, 7) := by
  refine ⟨by norm_num [ClampFloatAttributeValue, TestHealth, TestLimits], ?_⟩
  exact (C34_clamp_idempotent.1 TestHealth EAttributeValueType.CurrentValue 120 0 7
    (Or.inr rfl) (fun h => by cases h)
    (fun _ _ _ => by norm_num [TestHealth, TestLimits])).2

/-! ## Overriding an attribute -/

theorem ite_Send_HasAuthority (p : Prop) [Decidable p] (c : USimpleGameplayAbilityComponent)
    (e : FDefaultTags) (t : FGameplayTag) (k : EAttributeValueType) (v : ℚ) :
    (if p then SendFloatAttributeChangedEvent c e t k v else c).HasAuthority =
      c.HasAuthority := by
  split <;> simp

theorem ite_Send_GetServerTime (p : Prop) [Decidable p] (c : USimpleGameplayAbilityComponent)
    (e : FDefaultTags) (t : FGameplayTag) (k : EAttributeValueType) (v : ℚ) :
    (if p then SendFloatAttributeChangedEvent c e t k v else c).GetServerTime =
      c.GetServerTime := by
  split <;> simp

theorem OverrideFloatAttribute_HasAuthority (c : USimpleGameplayAbilityComponent)
    (tag : FGameplayTag) (attr : FFloatAttribute) :
    (OverrideFloatAttribute c tag attr).Component.HasAuthority = c.HasAuthority := by
  unfold OverrideFloatAttribute
  split
  · simp only [CompareFloatAttributesAndSendEvents, ite_Send_HasAuthority]
  · rfl

theorem OverrideFloatAttribute_GetServerTime (c : USimpleGameplayAbilityComponent)
    (tag : FGameplayTag) (attr : FFloatAttribute) :
    (OverrideFloatAttribute c tag attr).Component.GetServerTime = c.GetServerTime := by
  unfold OverrideFloatAttribute
  split
  · simp only [CompareFloatAttributesAndSendEvents, ite_Send_GetServerTime]
  · rfl

/-- C35: `OverrideFloatAttribute(tag, newAttribute)` returns true exactly when
an attribute of the authoritative collection carries the tag. On success the
events sent are those of `CompareFloatAttributesAndSendEvents(old, newAttribute)`
(with an event subsystem one event per differing field, none without), the first
attribute with the tag is replaced by `newAttribute` with the server time as
regen timestamp, and the local mirror is untouched. On failure the component is
unchanged. -/
theorem C35_override_float_attribute (c : USimpleGameplayAbilityComponent)
    (tag : FGameplayTag) (NewAttribute : FFloatAttribute) :
    ((OverrideFloatAttribute c tag NewAttribute).Applied = true ↔
      ∃ a ∈ c.AuthorityFloatAttributes, a.AttributeTag = tag) ∧
    (∀ old, c.AuthorityFloatAttributes.find? (fun a => decide (a.AttributeTag = tag)) = some old →
      (OverrideFloatAttribute c tag NewAttribute).Component.SentEvents =
        (CompareFloatAttributesAndSendEvents c old NewAttribute).SentEvents ∧
      (OverrideFloatAttribute c tag NewAttribute).Component.SentEvents =
        c.SentEvents ++ (if c.HasEventSubsystem = true then
          ExpectedDiffEvents (RoleDomain c) old NewAttribute else []) ∧
      (OverrideFloatAttribute c tag NewAttribute).Component.AuthorityFloatAttributes =
        ReplaceFirst tag { NewAttribute with LastRegenParamsUpdateTime_Server := c.GetServerTime }
          c.AuthorityFloatAttributes ∧
      (OverrideFloatAttribute c tag NewAttribute).Component.LocalFloatAttributes =
        c.LocalFloatAttributes) ∧
    ((∀ a ∈ c.AuthorityFloatAttributes, a.AttributeTag ≠ tag) →
      OverrideFloatAttribute c tag NewAttribute = ⟨false, c⟩) := by
  refine ⟨?_, fun old hold => ?_, fun hno => ?_⟩
  · cases hf : c.AuthorityFloatAttributes.find? (fun a => decide (a.AttributeTag = tag)) with
    | none =>
      rw [OverrideFloatAttribute_absent c tag NewAttribute hf]
      constructor
      · intro h
        cases h
      · rintro ⟨a, ha, hat⟩
        have := List.find?_eq_none.mp hf a ha
        simp [hat] at this
    | some old =>
      constructor
      · intro _
        exact ⟨old, List.mem_of_find?_eq_some hf, find?_tag_eq hf⟩
      · intro _
        simp [OverrideFloatAttribute, hf]
  · have hE : (OverrideFloatAttribute c tag NewAttribute).Component.SentEvents =
        (CompareFloatAttributesAndSendEvents c old NewAttribute).SentEvents := by
      simp [OverrideFloatAttribute, hold]
    refine ⟨hE, ?_, OverrideFloatAttribute_Authority_existing c tag NewAttribute old hold, ?_⟩
    · rw [hE, CompareFloatAttributesAndSendEvents_SentEvents]
    · simp [OverrideFloatAttribute, hold]
  · exact OverrideFloatAttribute_absent c tag NewAttribute (find?_none_of_no_tag hno)

/-- C35 on the test's input: overriding the uncapped example attribute with the
one whose max current bound 100 is enabled succeeds and stores it with the
server time 3 as regen timestamp; a later set of the current value to 120 then
stores 100 and reports overflow 20. -/
theorem C35_override_float_attribute_witness :
    (OverrideFloatAttribute (AuthorityWith UncappedHealth 3) HealthTag TestHealth).Applied =
      true ∧
    (OverrideFloatAttribute (AuthorityWith UncappedHealth 3) HealthTag
      TestHealth).Component.AuthorityFloatAttributes =
      [{ TestHealth with LastRegenParamsUpdateTime_Server := 3 }] ∧
    GetFloatAttribute
      (SetFloatAttributeValue
        (OverrideFloatAttribute (AuthorityWith UncappedHealth 3) HealthTag TestHealth).Component
        EAttributeValueType.CurrentValue HealthTag 120 0).Component HealthTag =
      some { TestHealth with CurrentValue := 100, LastRegenParamsUpdateTime_Server := 3 } ∧
    (SetFloatAttributeValue
      (OverrideFloatAttribute (AuthorityWith UncappedHealth 3) HealthTag TestHealth).Component
      EAttributeValueType.CurrentValue HealthTag 120 0).Overflow = 20 := by
  have hold : (AuthorityWith UncappedHealth 3).AuthorityFloatAttributes.find?
      (fun a => decide (a.AttributeTag = HealthTag)) = some UncappedHealth := by
    simp [AuthorityWith, UncappedHealth, TestHealth]
  have h := C35_override_float_attribute (AuthorityWith UncappedHealth 3) HealthTag TestHealth
  have hL : (OverrideFloatAttribute (AuthorityWith UncappedHealth 3) HealthTag
      TestHealth).Component.AuthorityFloatAttributes =
      [{ TestHealth with LastRegenParamsUpdateTime_Server := 3 }] := by
    rw [(h.2.1 UncappedHealth hold).2.2.1]
    simp [AuthorityWith, ReplaceFirst, UncappedHealth, TestHealth]
  have hA : (OverrideFloatAttribute (AuthorityWith UncappedHealth 3) HealthTag
      TestHealth).Component.HasAuthority = true := by
    rw [OverrideFloatAttribute_HasAuthority]
    rfl
  have hT : (OverrideFloatAttribute (AuthorityWith UncappedHealth 3) HealthTag
      TestHealth).Component.GetServerTime = 3 := by
    rw [OverrideFloatAttribute_GetServerTime]
    rfl
  have hG : GetFloatAttribute (OverrideFloatAttribute (AuthorityWith UncappedHealth 3) HealthTag
      TestHealth).Component HealthTag =
      some { TestHealth with LastRegenParamsUpdateTime_Server := 3 } := by
    rw [GetFloatAttribute, RoleFloatAttributes, if_pos hA, hL]
    simp [TestHealth]
  refine ⟨h.1.mpr ⟨UncappedHealth, by simp [AuthorityWith], rfl⟩, hL, ?_, ?_⟩
  · rw [SetFloatAttributeValue_CurrentValue_stored_authority 120 0 hA hG, hT]
    norm_num [ClampFloatAttributeValue, TestHealth, TestLimits]
  · rw [SetFloatAttributeValue_Overflow EAttributeValueType.CurrentValue 120 0 hG]
    norm_num [ClampFloatAttributeValue, TestHealth, TestLimits]

/-! ## Ratio round trip on the local mirror, for every combination of bounds -/

/-- C39: on a non-authoritative component, after
`SetFloatAttributeValue(CurrentValueRatio, tag, r)` with `0 ≤ r ≤ 1` and a
non-zero range, reading `CurrentValueRatio` from the local mirror returns `r`
when both current bounds, only the max bound, or neither bound is enabled. With
only the min bound enabled the set maps `r` onto the range from `minCurrent` to
`baseValue`, whereas the read divides the stored value by `baseValue` and
leaves the min bound out: it returns
`(r * (baseValue − minCurrent) + minCurrent) / baseValue`. -/
theorem C39_ratio_round_trip_diverges_with_only_min
    (c : USimpleGameplayAbilityComponent) (tag : FGameplayTag) (a : FFloatAttribute)
    (r o : ℚ) (p : Bool)
    (hA : c.HasAuthority = false) (h : GetFloatAttribute c tag = some a)
    (hr0 : 0 ≤ r) (hr1 : r ≤ 1) (hrange : RatioMax a - RatioMin a ≠ 0) :
    (¬ (a.ValueLimits.UseMinCurrentValue = true ∧ a.ValueLimits.UseMaxCurrentValue = false) →
      GetFloatAttributeValue
        (SetFloatAttributeValue c EAttributeValueType.CurrentValueRatio tag r o).Component
        EAttributeValueType.CurrentValueRatio tag p = ⟨r, true⟩) ∧
    (a.ValueLimits.UseMinCurrentValue = true → a.ValueLimits.UseMaxCurrentValue = false →
      a.BaseValue ≠ 0 →
      GetFloatAttributeValue
        (SetFloatAttributeValue c EAttributeValueType.CurrentValueRatio tag r o).Component
        EAttributeValueType.CurrentValueRatio tag p =
        ⟨(r * (a.BaseValue - a.ValueLimits.MinCurrentValue) + a.ValueLimits.MinCurrentValue) /
          a.BaseValue, true⟩) := by
  have hst := SetFloatAttributeValue_CurrentValueRatio_stored r o h
  have hcl : FMath_Clamp r 0 1 = r := by
    rw [FMath_Clamp_eq_max_min, min_eq_left hr1, max_eq_right hr0]
  have hA' := (SetFloatAttributeValue_HasAuthority c
    EAttributeValueType.CurrentValueRatio tag r o).trans hA
  rw [GetFloatAttributeValue_client_ratio p hA' hst]
  rw [hcl] at hst ⊢
  constructor
  · intro hcomb
    cases hmin : a.ValueLimits.UseMinCurrentValue <;>
      cases hmax : a.ValueLimits.UseMaxCurrentValue
    · simp only [RatioMax, RatioMin, hmin, hmax, Bool.false_eq_true, if_false, sub_zero]
        at hrange
      simp [CurrentValueRatioOf, RatioMax, RatioMin, hmin, hmax, hrange]
    · simp only [RatioMax, RatioMin, hmin, hmax, Bool.false_eq_true, if_false, if_true,
        sub_zero] at hrange
      simp [CurrentValueRatioOf, RatioMax, RatioMin, hmin, hmax, hrange]
    · exact absurd ⟨hmin, hmax⟩ hcomb
    · simp only [RatioMax, RatioMin, hmin, hmax, if_true] at hrange
      have hq : (r * (a.ValueLimits.MaxCurrentValue - a.ValueLimits.MinCurrentValue) +
          a.ValueLimits.MinCurrentValue - a.ValueLimits.MinCurrentValue) /
          (a.ValueLimits.MaxCurrentValue - a.ValueLimits.MinCurrentValue) = r := by
        field_simp
      simp [CurrentValueRatioOf, RatioMax, RatioMin, hmin, hmax, hrange, hq]
  · intro hmin hmax hbase
    simp [CurrentValueRatioOf, RatioMax, RatioMin, hmin, hmax, hbase]

/-- C39 at the failing input: the mirrored attribute has base value 100 and
only the min current bound 10 enabled; setting the ratio 1/2 stores 55 and the
ratio read back is 11/20. With both bounds 10 and 100 enabled the ratio read
back is 1/2. -/
theorem C39_ratio_round_trip_diverges_with_only_min_witness :
    GetFloatAttribute (ClientWith UncappedHealth 3) HealthTag = some UncappedHealth ∧
    GetFloatAttributeValue
      (SetFloatAttributeValue (ClientWith UncappedHealth 3) EAttributeValueType.CurrentValueRatio
        HealthTag (1 / 2) 0).Component
      EAttributeValueType.CurrentValueRatio HealthTag false = ⟨11 / 20, true⟩ ∧
    GetFloatAttributeValue
      (SetFloatAttributeValue ClientComponent EAttributeValueType.CurrentValueRatio
        HealthTag (1 / 2) 0).Component
      EAttributeValueType.CurrentValueRatio HealthTag false = ⟨1 / 2, true⟩ := by
  have hU : GetFloatAttribute (ClientWith UncappedHealth 3) HealthTag = some UncappedHealth := by
    simp [GetFloatAttribute, RoleFloatAttributes, ClientWith, UncappedHealth, TestHealth]
  have hC : GetFloatAttribute ClientComponent HealthTag = some TestHealth := by
    simp [GetFloatAttribute, RoleFloatAttributes, ClientComponent, TestHealth]
  refine ⟨hU, ?_, ?_⟩
  · rw [(C39_ratio_round_trip_diverges_with_only_min (ClientWith UncappedHealth 3) HealthTag
      UncappedHealth (1 / 2) 0 false rfl hU (by norm_num) (by norm_num)
      (by norm_num [RatioMax, RatioMin, UncappedHealth, TestHealth, TestLimits])).2 rfl rfl
      (by norm_num [UncappedHealth, TestHealth])]
    norm_num [UncappedHealth, TestHealth, TestLimits]
  · exact (C39_ratio_round_trip_diverges_with_only_min ClientComponent HealthTag
      TestHealth (1 / 2) 0 false rfl hC (by norm_num) (by norm_num)
      (by norm_num [RatioMax, RatioMin, TestHealth, TestLimits])).1
      (by simp [TestHealth, TestLimits])

/-! ## Handler cache -/

theorem GetStructAttributeHandlerInstance_cached (id : Nat) (c : USimpleGameplayAbilityComponent)
    (Class : UAttributeHandlerClass) (h : USimpleAttributeHandler)
    (hf : c.InstancedAttributeHandlers.find? (fun x => decide (x.GetClass = Class)) = some h) :
    GetStructAttributeHandlerInstance id c Class = ⟨h, c⟩ := by
  simp [GetStructAttributeHandlerInstance, hf]

theorem GetStructAttributeHandlerInstance_new (id : Nat) (c : USimpleGameplayAbilityComponent)
    (Class : UAttributeHandlerClass)
    (hf : c.InstancedAttributeHandlers.find? (fun x => decide (x.GetClass = Class)) = none) :
    GetStructAttributeHandlerInstance id c Class =
      ⟨{ GetClass := Class, GetUniqueID := id },
        { c with InstancedAttributeHandlers :=
          c.InstancedAttributeHandlers ++ [{ GetClass := Class, GetUniqueID := id }] }⟩ := by
  simp [GetStructAttributeHandlerInstance, hf]

theorem GetStructAttributeHandlerInstance_find (id : Nat) (c : USimpleGameplayAbilityComponent)
    (Class : UAttributeHandlerClass) :
    (GetStructAttributeHandlerInstance id c Class).Component.InstancedAttributeHandlers.find?
        (fun x => decide (x.GetClass = Class)) =
      some (GetStructAttributeHandlerInstance id c Class).Handler := by
  cases hf : c.InstancedAttributeHandlers.find? (fun x => decide (x.GetClass = Class)) with
  | some h => rw [GetStructAttributeHandlerInstance_cached id c Class h hf]; exact hf
  | none =>
    rw [GetStructAttributeHandlerInstance_new id c Class hf]
    simp [List.find?_append, hf]

/-- C31: the first call of `GetStructAttributeHandlerInstance` for a handler
class that the cache does not hold appends exactly one instance of the class,
and returns it; a call for a class that the cache holds returns the first
cached instance of the class and leaves the component unchanged. Hence a second
call returns the instance of the first call and appends nothing, whatever
object a `NewObject` at that moment would have created, and a cache without two
handlers of one class stays so. -/
theorem C31_handler_cache (c : USimpleGameplayAbilityComponent)
    (Class : UAttributeHandlerClass) (id id' : Nat) :
    (c.InstancedAttributeHandlers.find? (fun x => decide (x.GetClass = Class)) = none →
      (GetStructAttributeHandlerInstance id c Class).Handler =
        { GetClass := Class, GetUniqueID := id } ∧
      (GetStructAttributeHandlerInstance id c Class).Component.InstancedAttributeHandlers =
        c.InstancedAttributeHandlers ++ [{ GetClass := Class, GetUniqueID := id }]) ∧
    (∀ h, c.InstancedAttributeHandlers.find? (fun x => decide (x.GetClass = Class)) = some h →
      GetStructAttributeHandlerInstance id c Class = ⟨h, c⟩) ∧
    GetStructAttributeHandlerInstance id'
        (GetStructAttributeHandlerInstance id c Class).Component Class =
      ⟨(GetStructAttributeHandlerInstance id c Class).Handler,
        (GetStructAttributeHandlerInstance id c Class).Component⟩ ∧
    (GetStructAttributeHandlerInstance id c Class).Handler.GetClass = Class ∧
    ((c.InstancedAttributeHandlers.map (fun x => x.GetClass)).Nodup →
      ((GetStructAttributeHandlerInstance id c Class).Component.InstancedAttributeHandlers.map
        (fun x => x.GetClass)).Nodup) := by
  refine ⟨fun hf => ?_, fun h hf => GetStructAttributeHandlerInstance_cached id c Class h hf,
    ?_, ?_, fun hn => ?_⟩
  · rw [GetStructAttributeHandlerInstance_new id c Class hf]
    exact ⟨rfl, rfl⟩
  · exact GetStructAttributeHandlerInstance_cached id' _ Class _
      (GetStructAttributeHandlerInstance_find id c Class)
  · have := List.find?_some (GetStructAttributeHandlerInstance_find id c Class)
    simpa using this
  · cases hf : c.InstancedAttributeHandlers.find? (fun x => decide (x.GetClass = Class)) with
    | some h =>
      rw [GetStructAttributeHandlerInstance_cached id c Class h hf]
      exact hn
    | none =>
      rw [GetStructAttributeHandlerInstance_new id c Class hf]
      simp only [List.map_append, List.map_cons, List.map_nil]
      refine List.Nodup.append hn (List.nodup_singleton _) (List.disjoint_singleton.mpr ?_)
      intro hmem
      obtain ⟨x, hx, hxc⟩ := List.mem_map.mp hmem
      have := List.find?_eq_none.mp hf x hx
      simp [hxc] at this

/-- C31 on the example component, whose cache is empty: the first call for
`InventoryHandlerClass` creates the object 5 and caches it; the second call
returns the object 5 as well, not a new object 6, and the cache still holds one
handler. -/
theorem C31_handler_cache_witness :
    (GetStructAttributeHandlerInstance 5 InventoryComponent InventoryHandlerClass).Handler =
      { GetClass := InventoryHandlerClass, GetUniqueID := 5 } ∧
    GetStructAttributeHandlerInstance 6
        (GetStructAttributeHandlerInstance 5 InventoryComponent InventoryHandlerClass).Component
        InventoryHandlerClass =
      ⟨{ GetClass := InventoryHandlerClass, GetUniqueID := 5 },
        { InventoryComponent with InstancedAttributeHandlers :=
          [{ GetClass := InventoryHandlerClass, GetUniqueID := 5 }] }⟩ := by
  have h := C31_handler_cache InventoryComponent InventoryHandlerClass 5 6
  have h1 := h.1 rfl
  refine ⟨h1.1, ?_⟩
  rw [h.2.2.1, h1.1]
  congr 1
/-! ## Setting a struct attribute -/

theorem find?_ReplaceFirstStruct_same {tag : FGameplayTag} {New : FStructAttribute}
    (hN : New.AttributeTag = tag) :
    ∀ {l : List FStructAttribute} {a : FStructAttribute},
      l.find? (fun x => decide (x.AttributeTag = tag)) = some a →
      (ReplaceFirstStruct tag New l).find? (fun x => decide (x.AttributeTag = tag)) = some New
  | [], _, h => by simp at h
  | b :: rest, a, h => by
    by_cases hb : b.AttributeTag = tag
    · simp [ReplaceFirstStruct, hb, hN]
    · have h' : rest.find? (fun x => decide (x.AttributeTag = tag)) = some a := by
        simpa [List.find?, hb] using h
      simp [ReplaceFirstStruct, hb, List.find?, find?_ReplaceFirstStruct_same hN h']

theorem GetStructAttribute_tag {c : USimpleGameplayAbilityComponent} {tag : FGameplayTag}
    {a : FStructAttribute} (h : GetStructAttribute c tag = some a) : a.AttributeTag = tag := by
  have := List.find?_some h
  simpa using this

theorem GetStructAttribute_WriteStructAttribute {c : USimpleGameplayAbilityComponent}
    {tag : FGameplayTag} {a New : FStructAttribute}
    (h : GetStructAttribute c tag = some a) (hN : New.AttributeTag = tag) :
    GetStructAttribute (WriteStructAttribute c tag New) tag = some New := by
  unfold GetStructAttribute RoleStructAttributes at h ⊢
  unfold WriteStructAttribute
  cases hA : c.HasAuthority
  · simp only [hA, Bool.false_eq_true, if_false] at h ⊢
    exact find?_ReplaceFirstStruct_same hN h
  · simp only [hA, if_true] at h ⊢
    exact find?_ReplaceFirstStruct_same hN h

theorem GetStructAttribute_handler_cache (c : USimpleGameplayAbilityComponent)
    (Handlers : List USimpleAttributeHandler) (tag : FGameplayTag) :
    GetStructAttribute { c with InstancedAttributeHandlers := Handlers } tag =
      GetStructAttribute c tag :=
  rfl

theorem GetStructAttribute_SendEvent (c : USimpleGameplayAbilityComponent)
    (e d : FGameplayTag) (p : FInstancedStruct) (tag : FGameplayTag) :
    GetStructAttribute (SendEvent c e d p) tag = GetStructAttribute c tag :=
  rfl

theorem GetStructAttributeHandlerInstance_frame (id : Nat) (c : USimpleGameplayAbilityComponent)
    (Class : UAttributeHandlerClass) :
    (GetStructAttributeHandlerInstance id c Class).Component.SentEvents = c.SentEvents ∧
    ∀ tag, GetStructAttribute (GetStructAttributeHandlerInstance id c Class).Component tag =
      GetStructAttribute c tag := by
  unfold GetStructAttributeHandlerInstance
  split
  · exact ⟨rfl, fun _ => rfl⟩
  · exact ⟨rfl, fun _ => rfl⟩

theorem WriteStructAttribute_SentEvents (c : USimpleGameplayAbilityComponent)
    (tag : FGameplayTag) (New : FStructAttribute) :
    (WriteStructAttribute c tag New).SentEvents = c.SentEvents := by
  unfold WriteStructAttribute
  split <;> rfl

/-- C32: for an existing struct attribute and every payload `v`,
`SetStructAttributeValue(tag, v)` returns true, stores `v` in that attribute
and changes nothing else of it, so that `GetStructAttributeValue(tag)` returns
`v` with `found = true`, and sends exactly one event: `StructAttributeValueChanged`
with the tag as domain and a payload holding the tag, the previous value, `v`,
and as modification tags the result of the attribute's handler instance called
with the tag, the previous value and `v`, or the empty container when the
attribute has no handler. For an absent tag it returns false and leaves the
component unchanged. -/
theorem C32_set_struct_attribute_value
    (GetModificationEvents : USimpleAttributeHandler → FGameplayTag → FInstancedStruct →
      FInstancedStruct → List FGameplayTag)
    (id : Nat) (c : USimpleGameplayAbilityComponent) (tag : FGameplayTag)
    (v : FInstancedStruct) :
    (∀ a, GetStructAttribute c tag = some a →
      (SetStructAttributeValue GetModificationEvents id c tag v).Applied = true ∧
      GetStructAttribute (SetStructAttributeValue GetModificationEvents id c tag v).Component tag =
        some { a with AttributeValue := v } ∧
      GetStructAttributeValue (SetStructAttributeValue GetModificationEvents id c tag v).Component
        tag = ⟨v, true⟩ ∧
      (SetStructAttributeValue GetModificationEvents id c tag v).Component.SentEvents =
        c.SentEvents ++
          [⟨FGameplayTag.Default FDefaultTags.StructAttributeValueChanged, tag,
            FInstancedStruct.StructModification tag a.AttributeValue v
              (match a.StructAttributeHandler with
                | some HandlerClass =>
                  GetModificationEvents
                    (GetStructAttributeHandlerInstance id c HandlerClass).Handler tag
                    a.AttributeValue v
                | none => [])⟩]) ∧
    (GetStructAttribute c tag = none →
      SetStructAttributeValue GetModificationEvents id c tag v = ⟨false, c⟩) := by
  constructor
  · intro a h
    have ht := GetStructAttribute_tag h
    have hstored : GetStructAttribute
        (SetStructAttributeValue GetModificationEvents id c tag v).Component tag =
        some { a with AttributeValue := v } := by
      simp only [SetStructAttributeValue, h, GetStructAttribute_SendEvent]
      cases hH : a.StructAttributeHandler with
      | none => exact GetStructAttribute_WriteStructAttribute h ht
      | some H =>
        exact GetStructAttribute_WriteStructAttribute
          (((GetStructAttributeHandlerInstance_frame id c H).2 tag).trans h) ht
    refine ⟨by simp [SetStructAttributeValue, h], hstored, ?_, ?_⟩
    · simp [GetStructAttributeValue, hstored]
    · simp only [SetStructAttributeValue, h, SendEvent, WriteStructAttribute_SentEvents]
      cases hH : a.StructAttributeHandler with
      | none => rfl
      | some H =>
        simp only [(GetStructAttributeHandlerInstance_frame id c H).1]
  · intro h
    simp [SetStructAttributeValue, h]

/-- C32 on the example component: setting the inventory from (3, 4) to (5, 6)
with a handler that reports `Changed` returns true, the value read back is
(5, 6), and the one event sent carries old (3, 4), new (5, 6) and the tag
`Changed`. -/
theorem C32_set_struct_attribute_value_witness :
    GetStructAttribute InventoryComponent InventoryTag = some TestInventory ∧
    (SetStructAttributeValue ReportChanged 5 InventoryComponent InventoryTag
      (FInstancedStruct.Struct InventoryStruct [5, 6])).Applied = true ∧
    GetStructAttributeValue (SetStructAttributeValue ReportChanged 5 InventoryComponent
      InventoryTag (FInstancedStruct.Struct InventoryStruct [5, 6])).Component InventoryTag =
      ⟨FInstancedStruct.Struct InventoryStruct [5, 6], true⟩ ∧
    (SetStructAttributeValue ReportChanged 5 InventoryComponent InventoryTag
      (FInstancedStruct.Struct InventoryStruct [5, 6])).Component.SentEvents =
      [⟨FGameplayTag.Default FDefaultTags.StructAttributeValueChanged, InventoryTag,
        FInstancedStruct.StructModification InventoryTag
          (FInstancedStruct.Struct InventoryStruct [3, 4])
          (FInstancedStruct.Struct InventoryStruct [5, 6]) [FGameplayTag.Named "Changed"]⟩] := by
  have hf : GetStructAttribute InventoryComponent InventoryTag = some TestInventory := rfl
  obtain ⟨h1, _, h3, h4⟩ := (C32_set_struct_attribute_value ReportChanged 5 InventoryComponent
    InventoryTag (FInstancedStruct.Struct InventoryStruct [5, 6])).1 TestInventory hf
  refine ⟨hf, h1, h3, ?_⟩
  rw [h4]
  rfl
/-! ## Adding a struct attribute -/

/-- C38, counterexample: on a non-authoritative component without struct
attributes, adding the example inventory attribute stores it in the
authoritative collection, but `GetStructAttributeValue` reads the local mirror
and reports `found = false`, not the default value of the struct type. -/
theorem C38_read_after_add_without_authority :
    ¬ (∀ (AttributeEq : FStructAttribute → FStructAttribute → Bool)
      (c : USimpleGameplayAbilityComponent) (attr : FStructAttribute) (S : UScriptStruct)
      (ov : Bool),
      (∀ a b, AttributeEq a b = true → a.AttributeTag = b.AttributeTag) →
      attr.StructType = some S →
      (∀ a ∈ c.AuthorityStructAttributes, a.AttributeTag ≠ attr.AttributeTag) →
      GetStructAttributeValue (AddStructAttribute AttributeEq c attr ov) attr.AttributeTag =
        ⟨InitializeAs S, true⟩) := by
  intro h
  have h1 := h SameTag ClientComponent TestInventory InventoryStruct false
    (fun a b hab => by simpa [SameTag] using hab) rfl (by simp [ClientComponent])
  have h2 : GetStructAttributeValue (AddStructAttribute SameTag ClientComponent TestInventory
      false) TestInventory.AttributeTag = ⟨FInstancedStruct.Empty, false⟩ := rfl
  rw [h2] at h1
  cases h1

/-- C38, amended: when no attribute of the authoritative struct collection
carries the tag and the struct type is non-null, `AddStructAttribute` appends
the attribute with a value default-initialised for the struct type in place of
the supplied payload and sends one `StructAttributeAdded` event carrying that
default value; the result is the same for every supplied payload. With
authority `GetStructAttributeValue` right after the add returns the default
value with `found = true`; without authority it reads the local mirror, which
the add leaves as it was. The element equality is taken to hold only between
attributes of the same tag. -/
theorem C38_add_struct_attribute_default_initialised
    (AttributeEq : FStructAttribute → FStructAttribute → Bool)
    (c : USimpleGameplayAbilityComponent) (attr : FStructAttribute) (S : UScriptStruct)
    (ov : Bool)
    (hEq : ∀ a b, AttributeEq a b = true → a.AttributeTag = b.AttributeTag)
    (hS : attr.StructType = some S)
    (hnew : ∀ a ∈ c.AuthorityStructAttributes, a.AttributeTag ≠ attr.AttributeTag) :
    (AddStructAttribute AttributeEq c attr ov).AuthorityStructAttributes =
      c.AuthorityStructAttributes ++ [{ attr with AttributeValue := InitializeAs S }] ∧
    (AddStructAttribute AttributeEq c attr ov).SentEvents =
      c.SentEvents ++ [⟨FGameplayTag.Default FDefaultTags.StructAttributeAdded,
        attr.AttributeTag, InitializeAs S⟩] ∧
    (∀ Payload, AddStructAttribute AttributeEq c { attr with AttributeValue := Payload } ov =
      AddStructAttribute AttributeEq c attr ov) ∧
    (c.HasAuthority = true →
      GetStructAttributeValue (AddStructAttribute AttributeEq c attr ov) attr.AttributeTag =
        ⟨InitializeAs S, true⟩) ∧
    (c.HasAuthority = false →
      ∀ tag, GetStructAttributeValue (AddStructAttribute AttributeEq c attr ov) tag =
        GetStructAttributeValue c tag) := by
  obtain ⟨n, t, st, val, hd⟩ := attr
  simp only at hS hnew ⊢
  subst hS
  have hnone : ∀ b : FStructAttribute, b.AttributeTag = t →
      ∀ a ∈ c.AuthorityStructAttributes, AttributeEq a b = false := by
    intro b hb a ha
    cases hab : AttributeEq a b
    · rfl
    · exact absurd ((hEq a b hab).trans hb) (hnew a ha)
  have hfind : ∀ b : FStructAttribute, b.AttributeTag = t →
      c.AuthorityStructAttributes.findIdx? (fun a => AttributeEq a b) = none := by
    intro b hb
    rw [List.findIdx?_eq_none_iff]
    exact hnone b hb
  have hany : ∀ b : FStructAttribute, b.AttributeTag = t →
      c.AuthorityStructAttributes.any (fun a => AttributeEq a b) = false := by
    intro b hb
    rw [List.any_eq_false]
    intro a ha
    simp [hnone b hb a ha]
  have hres : ∀ Payload, AddStructAttribute AttributeEq c ⟨n, t, some S, Payload, hd⟩ ov =
      SendEvent { c with AuthorityStructAttributes :=
          c.AuthorityStructAttributes ++ [⟨n, t, some S, InitializeAs S, hd⟩] }
        (FGameplayTag.Default FDefaultTags.StructAttributeAdded) t (InitializeAs S) := by
    intro Payload
    simp only [AddStructAttribute, AddUniqueStruct]
    rw [hfind _ rfl, hany _ rfl]
    rfl
  refine ⟨by rw [hres val]; rfl, by rw [hres val]; rfl,
    fun Payload => by rw [hres Payload, hres val], fun hA => ?_, fun hA tag => ?_⟩
  swap
  · rw [hres val]
    simp [GetStructAttributeValue, GetStructAttribute, RoleStructAttributes, SendEvent, hA]
  rw [hres val]
  have hno : c.AuthorityStructAttributes.find? (fun a => decide (a.AttributeTag = t)) = none := by
    rw [List.find?_eq_none]
    intro a ha
    simpa using hnew a ha
  simp [GetStructAttributeValue, GetStructAttribute, RoleStructAttributes, SendEvent, hA,
    List.find?_append, hno]

/-- C38, amended, on the example: adding an inventory attribute that carries the payload
(3, 4) to a component without struct attributes stores the default (0, 0), and
the value read back is (0, 0). -/
theorem C38_add_struct_attribute_default_initialised_witness :
    (AddStructAttribute SameTag AuthorityComponent TestInventory false).AuthorityStructAttributes
      = [{ TestInventory with AttributeValue := FInstancedStruct.Struct InventoryStruct [0, 0] }] ∧
    GetStructAttributeValue (AddStructAttribute SameTag AuthorityComponent TestInventory false)
      InventoryTag = ⟨FInstancedStruct.Struct InventoryStruct [0, 0], true⟩ := by
  have h := C38_add_struct_attribute_default_initialised SameTag AuthorityComponent TestInventory
    InventoryStruct false (fun a b hab => by simpa [SameTag] using hab) rfl
    (by simp [AuthorityComponent])
  exact ⟨h.1, h.2.2.2.1 rfl⟩

/-! ## One modifier instance per class -/

theorem map_GetClass_UpdateFirstModifier (p : USimpleAttributeModifier → Bool)
    (f : USimpleAttributeModifier → USimpleAttributeModifier)
    (hf : ∀ m, p m = true → (f m).GetClass = m.GetClass) :
    ∀ l : List USimpleAttributeModifier,
      (UpdateFirstModifier p f l).map (fun m => m.GetClass) = l.map (fun m => m.GetClass)
  | [] => rfl
  | m :: rest => by
    cases hp : p m
    · simp [UpdateFirstModifier, hp, map_GetClass_UpdateFirstModifier p f hf rest]
    · simp [UpdateFirstModifier, hp, hf m hp]

theorem mem_UpdateFirstModifier_const (p : USimpleAttributeModifier → Bool)
    (M : USimpleAttributeModifier) :
    ∀ l : List USimpleAttributeModifier, (∃ x, l.find? p = some x) →
      M ∈ UpdateFirstModifier p (fun _ => M) l
  | [], h => by simp at h
  | b :: rest, h => by
    cases hb : p b
    · simp only [UpdateFirstModifier, hb, Bool.false_eq_true, if_false, List.mem_cons]
      right
      apply mem_UpdateFirstModifier_const p M rest
      simpa [List.find?, hb] using h
    · simp [UpdateFirstModifier, hb]

/-- C36: if the calling component's list of modifier instances holds at most
one instance of each class, it still does after `ApplyAttributeModifierToTarget`.
A null class leaves the list alone. For a class without an instance exactly one
instance, created from the class and initialised with the new id, is appended.
For a class with an instance the list keeps its length and its classes, no
instance is created, and outside the stacking path that instance is the one the
apply logic runs on, initialised with the new id, after an `EndModifier` with
`AbilityCancelled` when it was an active Duration instance that does not
stack. -/
theorem C36_one_instance_per_class
    (ApplyModifier : USimpleAttributeModifier → USimpleGameplayAbilityComponent →
      USimpleGameplayAbilityComponent → FInstancedStruct → Bool)
    (NewGuid : FGuid) (c ModifierTarget : USimpleGameplayAbilityComponent)
    (ModifierClass : Option UClass) (ctx : FInstancedStruct) (id : FGuid) :
    (OneInstancePerClass c.InstancedAttributes →
      OneInstancePerClass (ApplyAttributeModifierToTarget ApplyModifier NewGuid c ModifierTarget
        ModifierClass ctx id).Component.InstancedAttributes) ∧
    (ModifierClass = none →
      (ApplyAttributeModifierToTarget ApplyModifier NewGuid c ModifierTarget
        ModifierClass ctx id).Component.InstancedAttributes = c.InstancedAttributes) ∧
    (∀ Class, ModifierClass = some Class →
      (c.InstancedAttributes.find? (fun x => decide (x.GetClass = Class)) = none →
        (ApplyAttributeModifierToTarget ApplyModifier NewGuid c ModifierTarget
          ModifierClass ctx id).Component.InstancedAttributes =
          c.InstancedAttributes ++ [InitializeAbility (NewObject Class) NewGuid]) ∧
      (∀ m, c.InstancedAttributes.find? (fun x => decide (x.GetClass = Class)) = some m →
        (ApplyAttributeModifierToTarget ApplyModifier NewGuid c ModifierTarget
          ModifierClass ctx id).Component.InstancedAttributes.length =
          c.InstancedAttributes.length ∧
        (ApplyAttributeModifierToTarget ApplyModifier NewGuid c ModifierTarget
          ModifierClass ctx id).Component.InstancedAttributes.map (fun x => x.GetClass) =
          c.InstancedAttributes.map (fun x => x.GetClass) ∧
        (¬ (m.ModifierType = EAttributeModifierType.Duration ∧ m.IsModifierActive = true ∧
            m.CanStack = true) →
          (ApplyAttributeModifierToTarget ApplyModifier NewGuid c ModifierTarget
            ModifierClass ctx id).AppliedModifier =
            some (InitializeAbility
              (if m.ModifierType = EAttributeModifierType.Duration ∧ m.IsModifierActive = true
                then EndModifier m (FGameplayTag.Default FDefaultTags.AbilityCancelled)
                  FInstancedStruct.Empty
                else m) NewGuid) ∧
          ∃ M, (ApplyAttributeModifierToTarget ApplyModifier NewGuid c ModifierTarget
              ModifierClass ctx id).AppliedModifier = some M ∧
            M ∈ (ApplyAttributeModifierToTarget ApplyModifier NewGuid c ModifierTarget
              ModifierClass ctx id).Component.InstancedAttributes))) := by
  cases ModifierClass with
  | none =>
    refine ⟨fun h => h, fun _ => rfl, fun Class hC => ?_⟩
    cases hC
  | some Class =>
    have hnew : c.InstancedAttributes.find? (fun x => decide (x.GetClass = Class)) = none →
        (ApplyAttributeModifierToTarget ApplyModifier NewGuid c ModifierTarget
          (some Class) ctx id).Component.InstancedAttributes =
          c.InstancedAttributes ++ [InitializeAbility (NewObject Class) NewGuid] := by
      intro hf
      simp [ApplyAttributeModifierToTarget, hf]
    have hold : ∀ m, c.InstancedAttributes.find? (fun x => decide (x.GetClass = Class)) = some m →
        ∃ f : USimpleAttributeModifier → USimpleAttributeModifier,
          (∀ x, x.GetClass = Class → (f x).GetClass = x.GetClass) ∧
          (ApplyAttributeModifierToTarget ApplyModifier NewGuid c ModifierTarget
            (some Class) ctx id).Component.InstancedAttributes =
            UpdateFirstModifier (fun x => decide (x.GetClass = Class)) f c.InstancedAttributes := by
      intro m hf
      have hmc : m.GetClass = Class := by
        have := List.find?_some hf
        simpa using this
      by_cases hDA : m.ModifierType = EAttributeModifierType.Duration ∧ m.IsModifierActive = true
      · cases hS : m.CanStack
        · exact ⟨fun _ => InitializeAbility (EndModifier m
              (FGameplayTag.Default FDefaultTags.AbilityCancelled) FInstancedStruct.Empty) NewGuid,
            fun x hx => hmc.trans hx.symm,
            by simp [ApplyAttributeModifierToTarget, hf, hDA, hS]⟩
        · exact ⟨fun x => AddModifierStack x 1, fun _ _ => rfl,
            by simp [ApplyAttributeModifierToTarget, hf, hDA, hS]⟩
      · exact ⟨fun _ => InitializeAbility m NewGuid, fun x hx => hmc.trans hx.symm,
          by simp [ApplyAttributeModifierToTarget, hf, hDA]⟩
    have hmap : ∀ m, c.InstancedAttributes.find? (fun x => decide (x.GetClass = Class)) = some m →
        (ApplyAttributeModifierToTarget ApplyModifier NewGuid c ModifierTarget
          (some Class) ctx id).Component.InstancedAttributes.map (fun x => x.GetClass) =
          c.InstancedAttributes.map (fun x => x.GetClass) := by
      intro m hf
      obtain ⟨f, hfc, he⟩ := hold m hf
      rw [he]
      exact map_GetClass_UpdateFirstModifier _ f (fun x hx => hfc x (of_decide_eq_true hx)) _
    refine ⟨fun hone => ?_, (fun hC => by cases hC), fun Class' hC => ?_⟩
    · cases hf : c.InstancedAttributes.find? (fun x => decide (x.GetClass = Class)) with
      | none =>
        unfold OneInstancePerClass at hone ⊢
        rw [hnew hf, List.map_append, List.map_singleton]
        refine List.Nodup.append hone (List.nodup_singleton _) (List.disjoint_singleton.mpr ?_)
        intro hmem
        obtain ⟨x, hx, hxc⟩ := List.mem_map.mp hmem
        have := List.find?_eq_none.mp hf x hx
        exact this (decide_eq_true (hxc.trans rfl))
      | some m =>
        unfold OneInstancePerClass at hone ⊢
        rw [hmap m hf]
        exact hone
    · cases hC
      refine ⟨hnew, fun m hf => ⟨?_, hmap m hf, fun hns => ?_⟩⟩
      · have := congrArg List.length (hmap m hf)
        simpa using this
      · by_cases hDA : m.ModifierType = EAttributeModifierType.Duration ∧
            m.IsModifierActive = true
        · have hS : m.CanStack = false := by
            cases hS : m.CanStack
            · rfl
            · exact absurd ⟨hDA.1, hDA.2, hS⟩ hns
          simp only [ApplyAttributeModifierToTarget, hf, hDA, hS, and_self, if_true,
            Bool.false_eq_true, if_false, CreateAttributeState_InstancedAttributes]
          exact ⟨trivial, _, rfl, mem_UpdateFirstModifier_const _ _ _ ⟨m, hf⟩⟩
        · simp only [ApplyAttributeModifierToTarget, hf, hDA, if_false,
            CreateAttributeState_InstancedAttributes]
          exact ⟨trivial, _, rfl, mem_UpdateFirstModifier_const _ _ _ ⟨m, hf⟩⟩

/-- C36 on the example: the host of one active instance of `AuraClass`, which
does not stack, applies the class again; the list still holds one instance,
namely the old one after an `EndModifier` with `AbilityCancelled`, initialised
with the new id 9. -/
theorem C36_one_instance_per_class_witness :
    OneInstancePerClass AuraHost.InstancedAttributes ∧
    OneInstancePerClass (ApplyAttributeModifierToTarget FailingApplyModifier 9 AuraHost AuraHost
      (some AuraClass) FInstancedStruct.Empty 0).Component.InstancedAttributes ∧
    (ApplyAttributeModifierToTarget FailingApplyModifier 9 AuraHost AuraHost
      (some AuraClass) FInstancedStruct.Empty 0).Component.InstancedAttributes =
      [{ ActiveTrigger with
        IsModifierActive := false
        AbilityInstanceID := 9
        EndModifierCalls := [FGameplayTag.Default FDefaultTags.AbilityCancelled] }] := by
  have hone : OneInstancePerClass AuraHost.InstancedAttributes := by
    simp [OneInstancePerClass, AuraHost]
  refine ⟨hone, (C36_one_instance_per_class FailingApplyModifier 9 AuraHost AuraHost
    (some AuraClass) FInstancedStruct.Empty 0).1 hone, ?_⟩
  simp [ApplyAttributeModifierToTarget, AuraHost, ActiveTrigger, NewObject, AuraClass,
    UpdateFirstModifier, EndModifier, InitializeAbility]

/-! ## States and their ids -/

/-- C37: with authority `CreateAttributeState` keeps the ids of the
authoritative state collection pairwise distinct, and a call with an id already
present there changes nothing. Without authority the loop that looks for the id
runs over `LocalAbilityStates` while the state is appended to
`LocalAttributeStates`: whenever `LocalAbilityStates` does not hold the id the
state is appended, also when `LocalAttributeStates` holds the id already. -/
theorem C37_create_attribute_state_duplicates (c : USimpleGameplayAbilityComponent)
    (Class : Option UClass) (ctx : FInstancedStruct) (id : FGuid) :
    (c.HasAuthority = true →
      (StateIDsUnique c.AuthorityAttributeStates →
        StateIDsUnique (CreateAttributeState c Class ctx id).AuthorityAttributeStates) ∧
      ((∃ s ∈ c.AuthorityAttributeStates, s.AbilityID = id) →
        CreateAttributeState c Class ctx id = c)) ∧
    (c.HasAuthority = false → (∀ s ∈ c.LocalAbilityStates, s.AbilityID ≠ id) →
      (CreateAttributeState c Class ctx id).LocalAttributeStates =
        c.LocalAttributeStates ++
          [{ AbilityID := id, AbilityClass := Class, ActivationTimeStamp := c.GetServerTime,
             ActivationContext := ctx, AbilityStatus := EAbilityStatus.ActivationSuccess,
             SnapshotHistory := [] }] ∧
      (CreateAttributeState c Class ctx id).LocalAbilityStates = c.LocalAbilityStates ∧
      ((∃ s ∈ c.LocalAttributeStates, s.AbilityID = id) →
        ¬ StateIDsUnique (CreateAttributeState c Class ctx id).LocalAttributeStates)) := by
  constructor
  · intro hA
    by_cases hex : ∃ s ∈ c.AuthorityAttributeStates, s.AbilityID = id
    · have hany : c.AuthorityAttributeStates.any (fun s => decide (s.AbilityID = id)) = true := by
        rw [List.any_eq_true]
        obtain ⟨s, hs, hsid⟩ := hex
        exact ⟨s, hs, by simp [hsid]⟩
      have hc : CreateAttributeState c Class ctx id = c := by
        simp [CreateAttributeState, hA, hany]
      exact ⟨fun hu => by rw [hc]; exact hu, fun _ => hc⟩
    · have hany : c.AuthorityAttributeStates.any (fun s => decide (s.AbilityID = id)) = false := by
        rw [List.any_eq_false]
        intro s hs
        simpa using fun hsid => hex ⟨s, hs, hsid⟩
      refine ⟨fun hu => ?_, fun h => absurd h hex⟩
      unfold StateIDsUnique at hu ⊢
      simp only [CreateAttributeState, hA, hany, if_true, Bool.false_eq_true, if_false,
        List.map_append, List.map_cons, List.map_nil]
      refine List.Nodup.append hu (List.nodup_singleton _) (List.disjoint_singleton.mpr ?_)
      intro hmem
      obtain ⟨s, hs, hsid⟩ := List.mem_map.mp hmem
      exact hex ⟨s, hs, hsid⟩
  · intro hA hL
    have hany : c.LocalAbilityStates.any (fun s => decide (s.AbilityID = id)) = false := by
      rw [List.any_eq_false]
      intro s hs
      simpa using hL s hs
    have hl : (CreateAttributeState c Class ctx id).LocalAttributeStates =
        c.LocalAttributeStates ++
          [{ AbilityID := id, AbilityClass := Class, ActivationTimeStamp := c.GetServerTime,
             ActivationContext := ctx, AbilityStatus := EAbilityStatus.ActivationSuccess,
             SnapshotHistory := [] }] := by
      simp [CreateAttributeState, hA, hany]
    refine ⟨hl, by simp [CreateAttributeState, hA, hany], fun hex hu => ?_⟩
    unfold StateIDsUnique at hu
    rw [hl, List.map_append, List.map_singleton] at hu
    obtain ⟨s, hs, hsid⟩ := hex
    exact List.disjoint_of_nodup_append hu (List.mem_map.mpr ⟨s, hs, hsid⟩)
      (List.mem_singleton.mpr rfl)

/-- C37 at the failing input: on the non-authoritative example component, which
has recorded no state, two calls of `CreateAttributeState` with the id 9 leave
two states with the id 9 in `LocalAttributeStates`; on the authoritative example
component the second call adds nothing. -/
theorem C37_create_attribute_state_duplicates_witness :
    (CreateAttributeState (CreateAttributeState ClientComponent (some DamageClass)
      FInstancedStruct.Empty 9) (some DamageClass) FInstancedStruct.Empty
      9).LocalAttributeStates.map (fun s => s.AbilityID) = [9, 9] ∧
    ¬ StateIDsUnique (CreateAttributeState (CreateAttributeState ClientComponent
      (some DamageClass) FInstancedStruct.Empty 9) (some DamageClass) FInstancedStruct.Empty
      9).LocalAttributeStates ∧
    (CreateAttributeState (CreateAttributeState AuthorityComponent (some DamageClass)
      FInstancedStruct.Empty 9) (some DamageClass) FInstancedStruct.Empty
      9).AuthorityAttributeStates.map (fun s => s.AbilityID) = [9] := by
  have h := (C37_create_attribute_state_duplicates
    (CreateAttributeState ClientComponent (some DamageClass) FInstancedStruct.Empty 9)
    (some DamageClass) FInstancedStruct.Empty 9).2 rfl
    (by simp [CreateAttributeState, ClientComponent])
  have hmem : ∃ s ∈ (CreateAttributeState ClientComponent (some DamageClass)
      FInstancedStruct.Empty 9).LocalAttributeStates, s.AbilityID = 9 :=
    ⟨{ AbilityID := 9, AbilityClass := some DamageClass, ActivationTimeStamp := 3,
       ActivationContext := FInstancedStruct.Empty,
       AbilityStatus := EAbilityStatus.ActivationSuccess, SnapshotHistory := [] },
      by simp [CreateAttributeState, ClientComponent], rfl⟩
  refine ⟨?_, h.2.2 hmem, ?_⟩
  · rw [h.1]
    simp [CreateAttributeState, ClientComponent]
  · simp [CreateAttributeState, AuthorityComponent]

end SimpleGAS
